import Mathlib

/-!
# TCPR netfilter target (`tcpr/module/module.c`)

A shallow embedding of the connection table, the incremental checksum repair,
the packet synthesis routines and the three packet pipelines of the TCPR
netfilter target, followed by the properties established about them.

Conventions of the embedding.

* Machine integers are natural numbers; where the C code computes in
  `uint32_t` or stores into a 16-bit field the reduction is written out.
* 16-bit words of a header are the values a little-endian host loads from
  memory (the layout in which `ihl` is the low nibble of the first byte).
  The ones-complement sum does not depend on that choice.
* The connection list is a `List connection`, most recently added entry first
  (`list_add` inserts right behind the list head, `list_for_each_entry` walks
  forward from it).  A node is identified by its address `ptr`.
* Locks are not represented: one pipeline invocation is one atomic step.
* The TCP replication state machine (`tcpr/filter.h`) and the layout of
  `struct tcpr` (`tcpr/types.h`) are outside this file; they are parameters.
-/

set_option autoImplicit false

namespace TCPR

/-! ## Constants of the kernel interface -/

/-- Protocol number of TCP in the IPv4 `protocol` field. -/
def IPPROTO_TCP : Nat := 6

/-- Protocol number of UDP in the IPv4 `protocol` field. -/
def IPPROTO_UDP : Nat := 17

/-- Netfilter verdict: discard the packet. -/
def NF_DROP : Nat := 0

/-- Netfilter verdict: let the packet continue. -/
def NF_ACCEPT : Nat := 1

/-- Byte swap of a 16-bit value: `htons` on a little-endian host. -/
def htons (x : Nat) : Nat := (x % 256) * 256 + (x / 256) % 256

/-- Byte swap of a 16-bit value: `ntohs` on a little-endian host. -/
def ntohs (x : Nat) : Nat := (x % 256) * 256 + (x / 256) % 256

/-! ## Headers -/

/-- The fixed part of an IPv4 header, `struct iphdr`.  Multi-byte members hold
the raw (network order) value as loaded by the host. -/
structure iphdr where
  ihl : Nat
  version : Nat
  tos : Nat
  tot_len : Nat
  id : Nat
  frag_off : Nat
  ttl : Nat
  protocol : Nat
  check : Nat
  saddr : Nat
  daddr : Nat
deriving DecidableEq, Repr

/-- The fixed part of a TCP header, `struct tcphdr`. -/
structure tcphdr where
  source : Nat
  dest : Nat
  seq : Nat
  ack_seq : Nat
  res1 : Nat
  doff : Nat
  fin : Nat
  syn : Nat
  rst : Nat
  psh : Nat
  ack : Nat
  urg : Nat
  ece : Nat
  cwr : Nat
  window : Nat
  check : Nat
  urg_ptr : Nat
deriving DecidableEq, Repr

/-- A UDP header, `struct udphdr`. -/
structure udphdr where
  source : Nat
  dest : Nat
  len : Nat
  check : Nat
deriving DecidableEq, Repr

/-- An all-zero IPv4 header (the result of `memset`). -/
def iphdr.zero : iphdr :=
  { ihl := 0, version := 0, tos := 0, tot_len := 0, id := 0, frag_off := 0,
    ttl := 0, protocol := 0, check := 0, saddr := 0, daddr := 0 }

/-- An all-zero TCP header (the result of `memset`). -/
def tcphdr.zero : tcphdr :=
  { source := 0, dest := 0, seq := 0, ack_seq := 0, res1 := 0, doff := 0,
    fin := 0, syn := 0, rst := 0, psh := 0, ack := 0, urg := 0, ece := 0,
    cwr := 0, window := 0, check := 0, urg_ptr := 0 }

/-- Every member of the IPv4 header fits its C type. -/
def iphdr.wf (h : iphdr) : Prop :=
  h.ihl < 16 ∧ h.version < 16 ∧ h.tos < 256 ∧ h.tot_len < 65536 ∧ h.id < 65536 ∧
  h.frag_off < 65536 ∧ h.ttl < 256 ∧ h.protocol < 256 ∧ h.check < 65536 ∧
  h.saddr < 4294967296 ∧ h.daddr < 4294967296

instance (h : iphdr) : Decidable h.wf := by
  unfold iphdr.wf; infer_instance

/-- Every member of the TCP header fits its C type. -/
def tcphdr.wf (h : tcphdr) : Prop :=
  h.source < 65536 ∧ h.dest < 65536 ∧ h.seq < 4294967296 ∧ h.ack_seq < 4294967296 ∧
  h.res1 < 16 ∧ h.doff < 16 ∧ h.fin < 2 ∧ h.syn < 2 ∧ h.rst < 2 ∧ h.psh < 2 ∧
  h.ack < 2 ∧ h.urg < 2 ∧ h.ece < 2 ∧ h.cwr < 2 ∧ h.window < 65536 ∧
  h.check < 65536 ∧ h.urg_ptr < 65536

instance (h : tcphdr) : Decidable h.wf := by
  unfold tcphdr.wf; infer_instance

/-- A list of 16-bit words. -/
def words16 (ws : List Nat) : Prop := ∀ w ∈ ws, w < 65536

instance (ws : List Nat) : Decidable (words16 ws) := by
  unfold words16; infer_instance

/-- The ten 16-bit words of the fixed IPv4 header, in memory order. -/
def iphdr.words (h : iphdr) : List Nat :=
  [ (h.ihl + 16 * h.version) + 256 * h.tos, h.tot_len, h.id, h.frag_off,
    h.ttl + 256 * h.protocol, h.check,
    h.saddr % 65536, h.saddr / 65536, h.daddr % 65536, h.daddr / 65536 ]

/-- The ten 16-bit words of the fixed TCP header, in memory order. -/
def tcphdr.words (h : tcphdr) : List Nat :=
  [ h.source, h.dest, h.seq % 65536, h.seq / 65536,
    h.ack_seq % 65536, h.ack_seq / 65536,
    (h.res1 + 16 * h.doff) +
      256 * (h.fin + 2 * h.syn + 4 * h.rst + 8 * h.psh + 16 * h.ack +
             32 * h.urg + 64 * h.ece + 128 * h.cwr),
    h.window, h.check, h.urg_ptr ]

/-! ## Ones-complement checksums (kernel primitives) -/

/-- One step of ones-complement addition: add and fold the carry back in. -/
def csum_add (a w : Nat) : Nat := (a + w) % 65536 + (a + w) / 65536

/-- Ones-complement sum of a list of 16-bit words (RFC 1071). -/
def csum_words (ws : List Nat) : Nat := ws.foldl csum_add 0

/-- The kernel's `ip_fast_csum`: complement of the ones-complement sum of the
header words. -/
def ip_fast_csum (ws : List Nat) : Nat := 0xffff - csum_words ws

/-- The words of the TCP/UDP pseudo-header: both addresses, the protocol and
the transport length. -/
def pseudo_words (saddr daddr len proto : Nat) : List Nat :=
  [ saddr % 65536, saddr / 65536, daddr % 65536, daddr / 65536,
    256 * proto, htons (len % 65536) ]

/-- The kernel's `csum_partial`: ones-complement sum of a buffer, continued
from `sum`. -/
def csum_partial (ws : List Nat) (sum : Nat) : Nat := csum_words (sum :: ws)

/-- The kernel's `csum_tcpudp_magic`: the complemented sum of the pseudo-header
and the partial sum `sum` of the transport segment. -/
def csum_tcpudp_magic (saddr daddr len proto sum : Nat) : Nat :=
  0xffff - csum_words (sum :: pseudo_words saddr daddr len proto)

/-- Length of the transport segment of a datagram, `tot_len - ihl * 4`. -/
def l4_len (ip : iphdr) : Nat := ntohs ip.tot_len - ip.ihl * 4

/-- The words a receiver sums to verify an IPv4 header: the fixed header with
its stored checksum, then the options. -/
def ip_sum_words (ip : iphdr) (opts : List Nat) : List Nat := ip.words ++ opts

/-- The words a receiver sums to verify a TCP segment: pseudo-header, TCP header
with its stored checksum, then options and payload. -/
def tcp_sum_words (ip : iphdr) (tcp : tcphdr) (data : List Nat) : List Nat :=
  pseudo_words ip.saddr ip.daddr (l4_len ip) IPPROTO_TCP ++ tcp.words ++ data

/-- The stored IPv4 header checksum validates: the ones-complement sum over the
header, checksum included, is all ones. -/
def ip_check_ok (ip : iphdr) (opts : List Nat) : Prop :=
  csum_words (ip_sum_words ip opts) = 0xffff

/-- The stored TCP checksum validates: the ones-complement sum over pseudo-header
and segment, checksum included, is all ones. -/
def tcp_check_ok (ip : iphdr) (tcp : tcphdr) (data : List Nat) : Prop :=
  csum_words (tcp_sum_words ip tcp data) = 0xffff

instance (ip : iphdr) (opts : List Nat) : Decidable (ip_check_ok ip opts) := by
  unfold ip_check_ok; infer_instance

instance (ip : iphdr) (tcp : tcphdr) (data : List Nat) :
    Decidable (tcp_check_ok ip tcp data) := by
  unfold tcp_check_ok; infer_instance

/-- The IPv4 header checksum computed from scratch: the checksum field is
cleared, the header summed and the sum complemented. -/
def ip_recompute (ip : iphdr) (opts : List Nat) : Nat :=
  ip_fast_csum (ip_sum_words { ip with check := 0 } opts)

/-- The TCP checksum computed from scratch over pseudo-header and segment, with
the checksum field cleared. -/
def tcp_recompute (ip : iphdr) (tcp : tcphdr) (data : List Nat) : Nat :=
  0xffff - csum_words (tcp_sum_words ip { tcp with check := 0 } data)

/-! ## Checksum repair -/

/-- `shorten`: add the two 16-bit halves of a 32-bit value. -/
def shorten (n : Nat) : Nat := ((n >>> 16) + (n &&& 0xffff)) % 2 ^ 32

/-- Bitwise complement of a `uint32_t`. -/
def not32 (n : Nat) : Nat := n ^^^ 0xffffffff

/-- `fix_checksums`: repair the IPv4 and the TCP checksum after the 32-bit
field `old` has been replaced by `new`.  Returns both headers with their
`check` members rewritten. -/
def fix_checksums (ip : iphdr) (tcp : tcphdr) (old new : Nat) : iphdr × tcphdr :=
  let check := (ip.check ^^^ 0xffff) % 2 ^ 32
  let check := (check + shorten (not32 old)) % 2 ^ 32
  let check := (check + shorten new) % 2 ^ 32
  let ip := { ip with check := not32 (shorten (shorten check)) % 2 ^ 16 }
  let check := (tcp.check ^^^ 0xffff) % 2 ^ 32
  let check := (check + shorten (not32 old)) % 2 ^ 32
  let check := (check + shorten new) % 2 ^ 32
  let tcp := { tcp with check := not32 (shorten (shorten check)) % 2 ^ 16 }
  (ip, tcp)

/-- The two address members of the IPv4 header. -/
inductive addr_field where
  | saddr
  | daddr
deriving DecidableEq, Repr

/-- Read an address member. -/
def iphdr.get (ip : iphdr) : addr_field → Nat
  | addr_field.saddr => ip.saddr
  | addr_field.daddr => ip.daddr

/-- Overwrite an address member. -/
def iphdr.set (ip : iphdr) : addr_field → Nat → iphdr
  | addr_field.saddr, v => { ip with saddr := v }
  | addr_field.daddr, v => { ip with daddr := v }

/-! ## Replicated state and connections -/

/-- Modelled from the spec: the member `hard.peer` of `struct tcpr`
(`tcpr/types.h` is not part of the module); the module reads and writes its
`port`. -/
structure tcpr_hard_peer where
  port : Nat
deriving DecidableEq, Repr

/-- Modelled from the spec: the member `hard` of `struct tcpr`; the module reads
and writes `hard.port` and `hard.peer.port`. -/
structure tcpr_hard where
  port : Nat
  peer : tcpr_hard_peer
deriving DecidableEq, Repr

/-- Modelled from the spec: the replicated state `struct tcpr` owned by the
state machine.  The module names the members `hard`, `port` (the soft port)
and `done`; all other bytes of the structure are `rest`. -/
structure tcpr where
  hard : tcpr_hard
  port : Nat
  done : Nat
  rest : List Nat
deriving DecidableEq, Repr

/-- Modelled from the spec: `struct tcpr_ip4`, the update-channel record: soft
address, peer address and the replicated state. -/
structure tcpr_ip4 where
  address : Nat
  peer_address : Nat
  tcpr : tcpr
deriving DecidableEq, Repr

/-- A connection entry, `struct connection`.  `ptr` is the address of the
object and identifies the list node; `address` is the hard address.  The
list links and the spinlock carry no data. -/
structure connection where
  ptr : Nat
  state : tcpr_ip4
  net_ns : Nat
  address : Nat
deriving DecidableEq, Repr

/-- `memset(&c->state.tcpr, 0, sizeof(c->state.tcpr))`: every byte of the
replicated state becomes zero. -/
def tcpr.memset_zero (t : tcpr) : tcpr :=
  { hard := { port := 0, peer := { port := 0 } }, port := 0, done := 0,
    rest := t.rest.map (fun _ => 0) }

/-! ## Connection table -/

/-- `lookup_internal`: first entry matching the application view
(peer address, peer port, soft address, soft port, namespace). -/
def lookup_internal (connections : List connection)
    (peer_address peer_port address port net_ns : Nat) : Option connection :=
  connections.find? (fun c =>
    decide (c.state.peer_address = peer_address
      ∧ c.state.tcpr.hard.peer.port = peer_port
      ∧ c.state.address = address
      ∧ c.state.tcpr.port = port
      ∧ c.net_ns = net_ns))

/-- `lookup_external`: first entry matching the peer view
(peer address, peer port, hard address, hard port, namespace). -/
def lookup_external (connections : List connection)
    (peer_address peer_port address port net_ns : Nat) : Option connection :=
  connections.find? (fun c =>
    decide (c.state.peer_address = peer_address
      ∧ c.state.tcpr.hard.peer.port = peer_port
      ∧ c.address = address
      ∧ c.state.tcpr.hard.port = port
      ∧ c.net_ns = net_ns))

/-- `connection_create`.  `kmalloc` is the result of the allocation: `none`
when it fails, otherwise the fresh object with whatever its memory holds.
Returns the entry handed back to the caller and the resulting table. -/
def connection_create (connections : List connection) (kmalloc : Option connection)
    (peer_address peer_port hard_address hard_port address port net_ns : Nat) :
    Option connection × List connection :=
  match lookup_internal connections peer_address peer_port address port net_ns with
  | some c => (some c, connections)
  | none =>
    match kmalloc with
    | none => (none, connections)
    | some c =>
      let c := { c with state := { c.state with tcpr := c.state.tcpr.memset_zero } }
      let c := { c with state := { c.state with peer_address := peer_address } }
      let c := { c with state := { c.state with tcpr :=
        { c.state.tcpr with hard := { c.state.tcpr.hard with peer := { port := peer_port } } } } }
      let c := { c with address := hard_address }
      let c := { c with state := { c.state with tcpr :=
        { c.state.tcpr with hard := { c.state.tcpr.hard with port := hard_port } } } }
      let c := { c with state := { c.state with address := address } }
      let c := { c with state := { c.state with tcpr := { c.state.tcpr with port := port } } }
      let c := { c with net_ns := net_ns }
      (some c, c :: connections)

/-- `list_del`: unlink the node at address `ptr`. -/
def list_del (ptr : Nat) : List connection → List connection
  | [] => []
  | e :: es => if e.ptr = ptr then es else e :: list_del ptr es

/-- `connection_done`: unlink the entry from the table (and free it). -/
def connection_done (connections : List connection) (c : connection) : List connection :=
  list_del c.ptr connections

/-- Write through the pointer `c`: the node at that address now holds `c`. -/
def store (connections : List connection) (c : connection) : List connection :=
  connections.map (fun e => if e.ptr = c.ptr then c else e)

/-! ## The state machine and the environment (parameters) -/

/-- Modelled from the spec: the verdicts of the state machine
(`enum tcpr_verdict` of `tcpr/filter.h`, not part of the module): deliver, drop,
reset, recover and acknowledgment-only. -/
inductive tcpr_verdict where
  | TCPR_DELIVER
  | TCPR_DROP
  | TCPR_RESET
  | TCPR_RECOVER
  | TCPR_ACKNOWLEDGE
deriving DecidableEq, Repr

/-- What `tcpr_filter` and `tcpr_filter_peer` leave behind: the verdict, the
replicated state and the TCP segment they were given pointers to. -/
structure filter_result where
  verdict : tcpr_verdict
  state : tcpr
  tcp : tcphdr
  data : List Nat

/-- What `tcpr_update` leaves behind: the verdict, the replicated state and the
snapshot it was given pointers to. -/
structure update_result where
  verdict : tcpr_verdict
  state : tcpr
  update : tcpr

/-- What `tcpr_reset`, `tcpr_recover` and `tcpr_acknowledge` leave behind: the
TCP header template, the option words behind it and the replicated state. -/
structure segment_result where
  tcp : tcphdr
  opts : List Nat
  state : tcpr

/-- Modelled from the spec: the operations of the state machine declared in
`tcpr/filter.h` and the size of the update record declared in `tcpr/types.h`.
The filters take the replicated state, the TCP header, the words behind it and
the segment size. -/
structure tcpr_machine where
  tcpr_filter : tcpr → tcphdr → List Nat → Nat → filter_result
  tcpr_filter_peer : tcpr → tcphdr → List Nat → Nat → filter_result
  tcpr_update : tcpr → tcpr → update_result
  tcpr_reset : tcpr → segment_result
  tcpr_recover : tcpr → segment_result
  tcpr_acknowledge : tcpr → segment_result
  sizeof_tcpr_ip4 : Nat

/-- What follows the IPv4 header and options in a packet buffer. -/
inductive transport where
  | tcp (tcp : tcphdr) (data : List Nat)
  | udp (udp : udphdr) (update : tcpr_ip4)
  | other (words : List Nat)
deriving DecidableEq, Repr

/-- A packet buffer: IPv4 header, its option words, and the transport part. -/
structure sk_buff where
  ip : iphdr
  opts : List Nat
  body : transport
deriving DecidableEq, Repr

/-- What the kernel answers while a datagram is injected: whether `alloc_skb`
succeeds, whether `ip_route_me_harder` succeeds, and the path MTU. -/
structure net_env where
  alloc_skb : Bool
  route : Bool
  mtu : Nat

/-- One call of `inject_ip`: the datagram handed to it and, when nothing failed,
the datagram it passed to `ip_local_out`. -/
structure injection where
  handed : sk_buff
  sent : Option sk_buff
deriving DecidableEq, Repr

/-- The state-machine operations a pipeline can invoke. -/
inductive tcpr_op where
  | filter
  | filter_peer
  | update
  | reset
  | recover
  | acknowledge
deriving DecidableEq, Repr

/-- One state-machine invocation: the operation, the connection whose
replicated state was passed, and the table at that moment. -/
structure tcpr_call where
  op : tcpr_op
  c : connection
  connections : List connection
deriving DecidableEq, Repr

/-- The effect of one pipeline invocation: the netfilter verdict, the packet
buffer as left behind, the table, the calls of `inject_ip` and the
state-machine invocations, both in order. -/
structure outcome where
  verdict : Nat
  skb : sk_buff
  connections : List connection
  injected : List injection
  calls : List tcpr_call
deriving DecidableEq, Repr

/-- An early `return NF_DROP`: nothing was touched. -/
def drop_now (skb : sk_buff) (connections : List connection) : outcome :=
  { verdict := NF_DROP, skb := skb, connections := connections, injected := [], calls := [] }

/-- The size the filters are given: `ntohs(ip->tot_len) - ip->ihl * 4` as a
`size_t`. -/
def segment_size (ip : iphdr) : Nat :=
  (ntohs ip.tot_len + 2 ^ 64 - ip.ihl * 4) % 2 ^ 64

/-! ## Packet synthesis -/

/-- `inject_ip`: copy the datagram into a fresh buffer, route it and pass it to
`ip_local_out`; abandon it silently when allocation or routing fails or when
it would have to be fragmented. -/
def inject_ip (env : net_env) (d : sk_buff) : injection :=
  if env.alloc_skb = false then { handed := d, sent := none }
  else if env.route = false then { handed := d, sent := none }
  else if ntohs d.ip.tot_len > env.mtu then { handed := d, sent := none }
  else { handed := d, sent := some d }

/-- Result of `inject_tcp`: the connection after the template constructor ran,
which constructor ran, and the call of `inject_ip`. -/
structure tcp_injection where
  c : connection
  op : tcpr_op
  injection : injection

/-- `inject_tcp`: build the control segment demanded by the verdict and inject
it.  `inject_ip` copies `ntohs(ip->tot_len)` = 20 + doff * 4 bytes of the packet:
the TCP header with `doff * 4 - 20` option bytes when doff is at least 5; when
doff is below 5 only the first `doff * 4` bytes of the TCP header, which end
before the checksum field. -/
def inject_tcp (m : tcpr_machine) (env : net_env) (c : connection)
    (verdict : tcpr_verdict) : tcp_injection :=
  let ip : iphdr :=
    { iphdr.zero with ihl := 5, version := 4, ttl := 64, protocol := IPPROTO_TCP }
  let sel : segment_result × tcpr_op × Nat × Nat :=
    match verdict with
    | tcpr_verdict.TCPR_RESET =>
      (m.tcpr_reset c.state.tcpr, tcpr_op.reset, c.state.peer_address, c.state.address)
    | tcpr_verdict.TCPR_RECOVER =>
      (m.tcpr_recover c.state.tcpr, tcpr_op.recover, c.state.peer_address, c.state.address)
    | _ =>
      (m.tcpr_acknowledge c.state.tcpr, tcpr_op.acknowledge, c.address, c.state.peer_address)
  let seg := sel.1
  let ip := { ip with saddr := sel.2.2.1, daddr := sel.2.2.2 }
  let ip := { ip with tot_len := htons ((20 + seg.tcp.doff * 4) % 65536) }
  let ip := { ip with check := ip_fast_csum ip.words }
  let sum := csum_partial ((seg.tcp.words ++ seg.opts).take (2 * seg.tcp.doff)) 0
  let check := csum_tcpudp_magic ip.saddr ip.daddr (seg.tcp.doff * 4) IPPROTO_TCP sum
  let tcp := { seg.tcp with check := check }
  let body : transport :=
    if 5 ≤ seg.tcp.doff then transport.tcp tcp (seg.opts.take (2 * seg.tcp.doff - 10))
    else transport.other (tcp.words.take (2 * seg.tcp.doff))
  { c := { c with state := { c.state with tcpr := seg.state } },
    op := sel.2.1,
    injection := inject_ip env { ip := ip, opts := [], body := body } }

/-- `inject_update`: build the mirrored update datagram carrying `state` and
inject it. -/
def inject_update (m : tcpr_machine) (env : net_env) (ip : iphdr) (udp : udphdr)
    (state : tcpr_ip4) : injection :=
  let pip : iphdr :=
    { iphdr.zero with ihl := 5, version := 4, ttl := 64, protocol := IPPROTO_UDP }
  let pip := { pip with tot_len := htons ((20 + 8 + m.sizeof_tcpr_ip4) % 65536) }
  let pip := { pip with check := ip_fast_csum pip.words }
  let pip := { pip with saddr := ip.daddr }
  let pip := { pip with daddr := ip.saddr }
  let pudp : udphdr :=
    { source := udp.dest, dest := udp.source,
      len := htons ((8 + m.sizeof_tcpr_ip4) % 65536), check := 0 }
  inject_ip env { ip := pip, opts := [], body := transport.udp pudp state }

/-! ## The pipelines -/

/-- The tail shared by the pipelines: `if (c->state.tcpr.done) connection_done(c)`. -/
def reap (connections : List connection) (c : connection) : List connection :=
  if c.state.tcpr.done ≠ 0 then connection_done connections c else connections

/-- The critical section of `tcpr_tg_update` (from `spin_lock` to the return),
entered with the connection `c` that was found or created. -/
def tcpr_tg_update_locked (m : tcpr_machine) (env : net_env)
    (connections : List connection) (skb : sk_buff) (udp : udphdr)
    (update : tcpr_ip4) (c : connection) : outcome :=
  let c1 : connection :=
    if update.address ≠ 0 then { c with state := { c.state with address := update.address } }
    else c
  let update1 : tcpr_ip4 :=
    if update.address ≠ 0 then update else { update with address := c.state.address }
  let connections1 := store connections c1
  if c1.state.peer_address ≠ 0 ∧ c1.state.tcpr.hard.peer.port ≠ 0 then
    let r := m.tcpr_update c1.state.tcpr update1.tcpr
    let call : tcpr_call := { op := tcpr_op.update, c := c1, connections := connections1 }
    let c2 : connection := { c1 with state := { c1.state with tcpr := r.state } }
    let update2 : tcpr_ip4 := { update1 with tcpr := r.update }
    let connections2 := store connections1 c2
    let skb2 : sk_buff := { skb with body := transport.udp udp update2 }
    if r.verdict = tcpr_verdict.TCPR_DELIVER then
      { verdict := NF_DROP, skb := skb2, connections := reap connections2 c2,
        injected := [inject_update m env skb.ip udp update2], calls := [call] }
    else if r.verdict ≠ tcpr_verdict.TCPR_DROP then
      let j := inject_tcp m env c2 r.verdict
      { verdict := NF_DROP, skb := skb2, connections := reap (store connections2 j.c) j.c,
        injected := [j.injection],
        calls := [call, { op := j.op, c := c2, connections := connections2 }] }
    else
      { verdict := NF_DROP, skb := skb2, connections := reap connections2 c2,
        injected := [], calls := [call] }
  else
    { verdict := NF_DROP, skb := { skb with body := transport.udp udp update1 },
      connections := connections1,
      injected := [inject_update m env skb.ip udp update1], calls := [] }

/-- `tcpr_tg_update`: the update-channel pipeline.  `address` is the configured
hard address. -/
def tcpr_tg_update (m : tcpr_machine) (env : net_env) (connections : List connection)
    (kmalloc : Option connection) (skb : sk_buff) (address net_ns : Nat) : outcome :=
  if skb.ip.protocol ≠ IPPROTO_UDP then drop_now skb connections
  else
    match skb.body with
    | transport.udp udp update =>
      match lookup_external connections update.peer_address update.tcpr.hard.peer.port
          address update.tcpr.hard.port net_ns with
      | some c => tcpr_tg_update_locked m env connections skb udp update c
      | none =>
        if update.tcpr.port = 0 then
          { verdict := NF_DROP, skb := skb, connections := connections,
            injected := [inject_update m env skb.ip udp update], calls := [] }
        else
          match connection_create connections kmalloc update.peer_address
              update.tcpr.hard.peer.port address update.tcpr.hard.port
              update.address update.tcpr.port net_ns with
          | (some c, connections) => tcpr_tg_update_locked m env connections skb udp update c
          | (none, connections) => drop_now skb connections
    | _ => drop_now skb connections

/-- The critical section of `tcpr_tg_application` (from `spin_lock` to the
return), entered with the connection `c` that was found or created. -/
def tcpr_tg_application_locked (m : tcpr_machine) (env : net_env)
    (connections : List connection) (skb : sk_buff) (tcp : tcphdr) (data : List Nat)
    (c : connection) : outcome :=
  let r := m.tcpr_filter c.state.tcpr tcp data (segment_size skb.ip)
  let call : tcpr_call := { op := tcpr_op.filter, c := c, connections := connections }
  let c1 : connection := { c with state := { c.state with tcpr := r.state } }
  let connections1 := store connections c1
  if r.verdict = tcpr_verdict.TCPR_DELIVER then
    let fixed := fix_checksums skb.ip r.tcp skb.ip.saddr c1.address
    let ip := { fixed.1 with saddr := c1.address }
    { verdict := NF_ACCEPT,
      skb := { skb with ip := ip, body := transport.tcp fixed.2 r.data },
      connections := reap connections1 c1, injected := [], calls := [call] }
  else if r.verdict ≠ tcpr_verdict.TCPR_DROP then
    let j := inject_tcp m env c1 r.verdict
    { verdict := NF_DROP, skb := { skb with body := transport.tcp r.tcp r.data },
      connections := reap (store connections1 j.c) j.c, injected := [j.injection],
      calls := [call, { op := j.op, c := c1, connections := connections1 }] }
  else
    { verdict := NF_DROP, skb := { skb with body := transport.tcp r.tcp r.data },
      connections := reap connections1 c1, injected := [], calls := [call] }

/-- `tcpr_tg_application`: the application-side pipeline.  `address` is the
configured hard address. -/
def tcpr_tg_application (m : tcpr_machine) (env : net_env) (connections : List connection)
    (kmalloc : Option connection) (skb : sk_buff) (address net_ns : Nat) : outcome :=
  if skb.ip.protocol ≠ IPPROTO_TCP then
    tcpr_tg_update m env connections kmalloc skb address net_ns
  else
    match skb.body with
    | transport.tcp tcp data =>
      match lookup_internal connections skb.ip.daddr tcp.dest skb.ip.saddr tcp.source
          net_ns with
      | some c => tcpr_tg_application_locked m env connections skb tcp data c
      | none =>
        if tcp.ack ≠ 0 then drop_now skb connections
        else
          match connection_create connections kmalloc skb.ip.daddr tcp.dest
              address tcp.source skb.ip.saddr tcp.source net_ns with
          | (some c, connections) =>
            tcpr_tg_application_locked m env connections skb tcp data c
          | (none, connections) => drop_now skb connections
    | _ => drop_now skb connections

/-- The critical section of `tcpr_tg_peer` (from `spin_lock` to the return),
entered with the connection `c` that was found or created. -/
def tcpr_tg_peer_locked (m : tcpr_machine) (env : net_env)
    (connections : List connection) (skb : sk_buff) (tcp : tcphdr) (data : List Nat)
    (c : connection) : outcome :=
  let r := m.tcpr_filter_peer c.state.tcpr tcp data (segment_size skb.ip)
  let call : tcpr_call := { op := tcpr_op.filter_peer, c := c, connections := connections }
  let c1 : connection := { c with state := { c.state with tcpr := r.state } }
  let connections1 := store connections c1
  if r.verdict = tcpr_verdict.TCPR_DELIVER then
    let fixed := fix_checksums skb.ip r.tcp skb.ip.daddr c1.state.address
    let ip := { fixed.1 with daddr := c1.state.address }
    let skb1 : sk_buff := { skb with ip := ip, body := transport.tcp fixed.2 r.data }
    { verdict := NF_DROP, skb := skb1,
      connections := reap connections1 c1, injected := [inject_ip env skb1],
      calls := [call] }
  else if r.verdict ≠ tcpr_verdict.TCPR_DROP then
    let j := inject_tcp m env c1 r.verdict
    { verdict := NF_DROP, skb := { skb with body := transport.tcp r.tcp r.data },
      connections := reap (store connections1 j.c) j.c, injected := [j.injection],
      calls := [call, { op := j.op, c := c1, connections := connections1 }] }
  else
    { verdict := NF_DROP, skb := { skb with body := transport.tcp r.tcp r.data },
      connections := reap connections1 c1, injected := [], calls := [call] }

/-- `tcpr_tg_peer`: the peer-side pipeline. -/
def tcpr_tg_peer (m : tcpr_machine) (env : net_env) (connections : List connection)
    (kmalloc : Option connection) (skb : sk_buff) (net_ns : Nat) : outcome :=
  if skb.ip.protocol ≠ IPPROTO_TCP then drop_now skb connections
  else
    match skb.body with
    | transport.tcp tcp data =>
      match lookup_external connections skb.ip.saddr tcp.source skb.ip.daddr tcp.dest
          net_ns with
      | some c => tcpr_tg_peer_locked m env connections skb tcp data c
      | none =>
        if tcp.ack ≠ 0 then drop_now skb connections
        else
          match lookup_external connections 0 0 skb.ip.daddr tcp.dest net_ns with
          | none => drop_now skb connections
          | some p =>
            match connection_create connections kmalloc skb.ip.saddr tcp.source
                skb.ip.daddr tcp.dest p.state.address p.state.tcpr.port net_ns with
            | (some c, connections) =>
              tcpr_tg_peer_locked m env connections skb tcp data c
            | (none, connections) => drop_now skb connections
    | _ => drop_now skb connections

/-- `tcpr_tg`: the target entry point.  `writable` is the answer of
`skb_make_writable`, `address` the configured address (`*par->targinfo`). -/
def tcpr_tg (m : tcpr_machine) (env : net_env) (connections : List connection)
    (kmalloc : Option connection) (skb : sk_buff) (writable : Bool)
    (address net_ns : Nat) : outcome :=
  if writable = false then drop_now skb connections
  else if address ≠ 0 then tcpr_tg_application m env connections kmalloc skb address net_ns
  else tcpr_tg_peer m env connections kmalloc skb net_ns

/-! ## Auxiliary definitions for the checksum proofs -/
/-- Closed form of the ones-complement sum of words adding up to `s`. -/
def oc (s : Nat) : Nat := if s = 0 then 0 else (s - 1) % 65535 + 1

/-- The value `fix_checksums` writes for a stored checksum `check`. -/
def repaired (check old new : Nat) : Nat :=
  not32 (shorten (shorten (((((check ^^^ 0xffff) % 2 ^ 32) + shorten (not32 old)) % 2 ^ 32
    + shorten new) % 2 ^ 32))) % 2 ^ 16

/-- Sum of the IPv4 header words other than the checksum and the address `f`,
options included. -/
def ip_other_sum (ip : iphdr) (opts : List Nat) : addr_field → Nat
  | addr_field.saddr =>
    (ip.ihl + 16 * ip.version) + 256 * ip.tos + ip.tot_len + ip.id + ip.frag_off +
      (ip.ttl + 256 * ip.protocol) + opts.sum + (ip.daddr % 65536 + ip.daddr / 65536)
  | addr_field.daddr =>
    (ip.ihl + 16 * ip.version) + 256 * ip.tos + ip.tot_len + ip.id + ip.frag_off +
      (ip.ttl + 256 * ip.protocol) + opts.sum + (ip.saddr % 65536 + ip.saddr / 65536)
/-- Sum of the words of pseudo-header and TCP segment other than the TCP
checksum and the address `f`. -/
def tcp_other_sum (ip : iphdr) (tcp : tcphdr) (data : List Nat) : addr_field → Nat
  | addr_field.saddr =>
    (ip.daddr % 65536 + ip.daddr / 65536) + 256 * IPPROTO_TCP + htons (l4_len ip % 65536) +
      ({ tcp with check := 0 } : tcphdr).words.sum + data.sum
  | addr_field.daddr =>
    (ip.saddr % 65536 + ip.saddr / 65536) + 256 * IPPROTO_TCP + htons (l4_len ip % 65536) +
      ({ tcp with check := 0 } : tcphdr).words.sum + data.sum

/-! ## Auxiliary definitions for the table properties -/

/-- The application-view key of an entry: peer address, peer port, soft address,
soft port and namespace. -/
def internal_key (c : connection) : Nat × Nat × Nat × Nat × Nat :=
  (c.state.peer_address, c.state.tcpr.hard.peer.port, c.state.address, c.state.tcpr.port,
    c.net_ns)

/-- The peer-view key of an entry: peer address, peer port, hard address, hard
port and namespace. -/
def external_key (c : connection) : Nat × Nat × Nat × Nat × Nat :=
  (c.state.peer_address, c.state.tcpr.hard.peer.port, c.address, c.state.tcpr.hard.port,
    c.net_ns)

/-- The arguments of one `connection_create` call together with the answer of
the allocator. -/
structure create_call where
  kmalloc : Option connection
  peer_address : Nat
  peer_port : Nat
  hard_address : Nat
  hard_port : Nat
  address : Nat
  port : Nat
  net_ns : Nat

/-- The table after a sequence of `connection_create` calls. -/
def run_creates (connections : List connection) : List create_call → List connection
  | [] => connections
  | k :: ks =>
    run_creates (connection_create connections k.kmalloc k.peer_address k.peer_port
      k.hard_address k.hard_port k.address k.port k.net_ns).2 ks

/-- No two entries share an application-view key. -/
def internal_unique (connections : List connection) : Prop :=
  connections.Pairwise (fun a b => internal_key a ≠ internal_key b)

/-- No two entries share a peer-view key. -/
def external_unique (connections : List connection) : Prop :=
  connections.Pairwise (fun a b => external_key a ≠ external_key b)

instance (connections : List connection) : Decidable (internal_unique connections) := by
  unfold internal_unique; infer_instance

instance (connections : List connection) : Decidable (external_unique connections) := by
  unfold external_unique; infer_instance

/-- The entry `connection_create` builds in the object `o` for the given peer,
hard endpoint, soft endpoint and namespace. -/
def created (o : connection) (pa pp ha hp a p ns : Nat) : connection :=
  { ptr := o.ptr,
    state := { address := a, peer_address := pa,
               tcpr := { hard := { port := hp, peer := { port := pp } }, port := p,
                         done := 0, rest := o.state.tcpr.rest.map (fun _ => 0) } },
    net_ns := ns, address := ha }

/-! ## Auxiliary definitions for the pipeline properties -/

/-- The connection as `tcpr_tg_application` leaves it when it reaches the test
of the done flag. -/
def tcpr_tg_application_final (m : tcpr_machine) (env : net_env) (skb : sk_buff)
    (tcp : tcphdr) (data : List Nat) (c : connection) : connection :=
  let r := m.tcpr_filter c.state.tcpr tcp data (segment_size skb.ip)
  let c1 : connection := { c with state := { c.state with tcpr := r.state } }
  if r.verdict = tcpr_verdict.TCPR_DELIVER then c1
  else if r.verdict ≠ tcpr_verdict.TCPR_DROP then (inject_tcp m env c1 r.verdict).c
  else c1

/-- The connection as `tcpr_tg_peer` leaves it when it reaches the test of the
done flag. -/
def tcpr_tg_peer_final (m : tcpr_machine) (env : net_env) (skb : sk_buff)
    (tcp : tcphdr) (data : List Nat) (c : connection) : connection :=
  let r := m.tcpr_filter_peer c.state.tcpr tcp data (segment_size skb.ip)
  let c1 : connection := { c with state := { c.state with tcpr := r.state } }
  if r.verdict = tcpr_verdict.TCPR_DELIVER then c1
  else if r.verdict ≠ tcpr_verdict.TCPR_DROP then (inject_tcp m env c1 r.verdict).c
  else c1

/-- The soft address connection and snapshot agree on once `tcpr_tg_update` has
reconciled them: the snapshot's if it is nonzero, the connection's otherwise. -/
def reconciled (update : tcpr_ip4) (c : connection) : Nat :=
  if update.address ≠ 0 then update.address else c.state.address

/-- The connection after `tcpr_tg_update` has reconciled the soft address: it
adopts the snapshot's when that is nonzero. -/
def adopt (update : tcpr_ip4) (c : connection) : connection :=
  if update.address ≠ 0 then { c with state := { c.state with address := update.address } }
  else c

/-- The snapshot after `tcpr_tg_update` has reconciled the soft address: a zero
soft address is filled in from the connection. -/
def fill (update : tcpr_ip4) (c : connection) : tcpr_ip4 :=
  if update.address ≠ 0 then update else { update with address := c.state.address }

/-- The connection with its replicated state replaced. -/
def with_tcpr (c : connection) (st : tcpr) : connection :=
  { c with state := { c.state with tcpr := st } }

/-- The snapshot with its replicated state replaced. -/
def snapshot_with (u : tcpr_ip4) (st : tcpr) : tcpr_ip4 := { u with tcpr := st }

/-- The packet buffer with the snapshot replaced. -/
def skb_with (skb : sk_buff) (udp : udphdr) (u : tcpr_ip4) : sk_buff :=
  { skb with body := transport.udp udp u }

/-- The update pipeline submits the snapshot to the state machine: the
connection has both a peer address and a peer port. -/
def peer_populated (c : connection) : Prop :=
  c.state.peer_address ≠ 0 ∧ c.state.tcpr.hard.peer.port ≠ 0

instance (c : connection) : Decidable (peer_populated c) := by
  unfold peer_populated; infer_instance

/-- The connection as `tcpr_tg_update` leaves it at the end of its critical
section. -/
def tcpr_tg_update_final (m : tcpr_machine) (env : net_env) (update : tcpr_ip4)
    (c : connection) : connection :=
  let c1 : connection :=
    if update.address ≠ 0 then { c with state := { c.state with address := update.address } }
    else c
  let update1 : tcpr_ip4 :=
    if update.address ≠ 0 then update else { update with address := c.state.address }
  if c1.state.peer_address ≠ 0 ∧ c1.state.tcpr.hard.peer.port ≠ 0 then
    let r := m.tcpr_update c1.state.tcpr update1.tcpr
    let c2 : connection := { c1 with state := { c1.state with tcpr := r.state } }
    if r.verdict = tcpr_verdict.TCPR_DELIVER then c2
    else if r.verdict ≠ tcpr_verdict.TCPR_DROP then (inject_tcp m env c2 r.verdict).c
    else c2
  else c1

/-- One invocation of a pipeline with what the kernel answers during it. -/
inductive invocation where
  | application (env : net_env) (kmalloc : Option connection) (skb : sk_buff)
      (address net_ns : Nat)
  | peer (env : net_env) (kmalloc : Option connection) (skb : sk_buff) (net_ns : Nat)
  | update (env : net_env) (kmalloc : Option connection) (skb : sk_buff)
      (address net_ns : Nat)

/-- The answer of the allocator during an invocation. -/
def invocation.kmalloc : invocation → Option connection
  | invocation.application _ k _ _ _ => k
  | invocation.peer _ k _ _ => k
  | invocation.update _ k _ _ _ => k

/-- Run one invocation on a table. -/
def invoke (m : tcpr_machine) (connections : List connection) : invocation → outcome
  | invocation.application env k skb address ns =>
    tcpr_tg_application m env connections k skb address ns
  | invocation.peer env k skb ns => tcpr_tg_peer m env connections k skb ns
  | invocation.update env k skb address ns =>
    tcpr_tg_update m env connections k skb address ns

/-- The table after a sequence of pipeline invocations. -/
def run_pipelines (m : tcpr_machine) (connections : List connection) :
    List invocation → List connection
  | [] => connections
  | i :: is => run_pipelines m (invoke m connections i).connections is

/-- The allocator never hands out the address of an object that is in the
table. -/
def kmalloc_fresh (connections : List connection) (i : invocation) : Prop :=
  ∀ o, i.kmalloc = some o → ∀ e ∈ connections, e.ptr ≠ o.ptr

/-- The allocator is sound along a sequence of invocations: whenever it
answers, the object is at an address no entry of the table has at that
moment. -/
def allocator_sound (m : tcpr_machine) (connections : List connection) :
    List invocation → Prop
  | [] => True
  | i :: is =>
    kmalloc_fresh connections i ∧ allocator_sound m (invoke m connections i).connections is

/-- The nodes of the table have pairwise distinct addresses. -/
def distinct_nodes (connections : List connection) : Prop :=
  (connections.map (fun e => e.ptr)).Nodup

instance (connections : List connection) : Decidable (distinct_nodes connections) := by
  unfold distinct_nodes; infer_instance

/-- The state machine leaves the hard port stored in the replicated state as it
is, in every operation. -/
def keeps_hard_port (m : tcpr_machine) : Prop :=
  (∀ st tcp data n, (m.tcpr_filter st tcp data n).state.hard.port = st.hard.port) ∧
  (∀ st tcp data n, (m.tcpr_filter_peer st tcp data n).state.hard.port = st.hard.port) ∧
  (∀ st u, (m.tcpr_update st u).state.hard.port = st.hard.port) ∧
  (∀ st, (m.tcpr_reset st).state.hard.port = st.hard.port) ∧
  (∀ st, (m.tcpr_recover st).state.hard.port = st.hard.port) ∧
  (∀ st, (m.tcpr_acknowledge st).state.hard.port = st.hard.port)

/-- One operation on the table: a `connection_create` call or a
`connection_done` call. -/
inductive table_op where
  | create (k : create_call)
  | done (c : connection)

/-- The table after a sequence of `connection_create` and `connection_done`
calls. -/
def run_table_ops (connections : List connection) : List table_op → List connection
  | [] => connections
  | table_op.create k :: ops =>
    run_table_ops (connection_create connections k.kmalloc k.peer_address k.peer_port
      k.hard_address k.hard_port k.address k.port k.net_ns).2 ops
  | table_op.done c :: ops => run_table_ops (connection_done connections c) ops

/-- The header template the state machine builds for a control segment: reset,
recover, or otherwise acknowledgment-only. -/
def template (m : tcpr_machine) (v : tcpr_verdict) (st : tcpr) : segment_result :=
  match v with
  | tcpr_verdict.TCPR_RESET => m.tcpr_reset st
  | tcpr_verdict.TCPR_RECOVER => m.tcpr_recover st
  | _ => m.tcpr_acknowledge st

/-- The source address `inject_tcp` gives a control segment. -/
def control_saddr (c : connection) (v : tcpr_verdict) : Nat :=
  match v with
  | tcpr_verdict.TCPR_RESET => c.state.peer_address
  | tcpr_verdict.TCPR_RECOVER => c.state.peer_address
  | _ => c.address

/-- The destination address `inject_tcp` gives a control segment. -/
def control_daddr (c : connection) (v : tcpr_verdict) : Nat :=
  match v with
  | tcpr_verdict.TCPR_RESET => c.state.address
  | tcpr_verdict.TCPR_RECOVER => c.state.address
  | _ => c.state.peer_address

/-- The IPv4 header of a control segment before its checksum is computed. -/
def control_ip (m : tcpr_machine) (c : connection) (v : tcpr_verdict) : iphdr :=
  { ihl := 5, version := 4, tos := 0,
    tot_len := htons ((20 + (template m v c.state.tcpr).tcp.doff * 4) % 65536),
    id := 0, frag_off := 0, ttl := 64, protocol := IPPROTO_TCP, check := 0,
    saddr := control_saddr c v, daddr := control_daddr c v }

/-- The words of the control segment the TCP checksum is computed over: the
first `doff * 4` bytes of the template and the option space behind it. -/
def control_words (m : tcpr_machine) (c : connection) (v : tcpr_verdict) : List Nat :=
  ((template m v c.state.tcpr).tcp.words ++ (template m v c.state.tcpr).opts).take
    (2 * (template m v c.state.tcpr).tcp.doff)

/-- The TCP header of a control segment with the checksum `inject_tcp` writes
into it. -/
def control_tcp (m : tcpr_machine) (c : connection) (v : tcpr_verdict) : tcphdr :=
  { (template m v c.state.tcpr).tcp with
    check := csum_tcpudp_magic (control_saddr c v) (control_daddr c v)
      ((template m v c.state.tcpr).tcp.doff * 4) IPPROTO_TCP
      ( csum_partial (control_words m c v) 0) }

/-- What follows the IPv4 header in the `20 + doff * 4` bytes of a control
segment that `inject_ip` copies: the TCP header and `doff * 4 - 20` option bytes
when doff is at least 5, otherwise the first `doff * 4` bytes of the TCP
header. -/
def control_body (m : tcpr_machine) (c : connection) (v : tcpr_verdict) : transport :=
  if 5 ≤ (template m v c.state.tcpr).tcp.doff then
    transport.tcp (control_tcp m c v)
      ((template m v c.state.tcpr).opts.take (2 * (template m v c.state.tcpr).tcp.doff - 10))
  else transport.other ((control_tcp m c v).words.take (2 * (template m v c.state.tcpr).tcp.doff))

/-- How a pipeline invocation may change the table `t`: not at all, or by
entering its critical section with a connection `c` of the table `t1` (which
is `t`, or `t` with one entry just created at the address the allocator
handed out in front) and leaving that connection as `cf` at the same
address, with the same hard address and namespace: then `cf` is written
through the pointer and unlinked if its done flag is set, or, when no
state-machine operation ran, just written through the pointer with its
replicated state as it was. -/
def processed (m : tcpr_machine) (kmalloc : Option connection) (t result : List connection) :
    Prop :=
  result = t ∨
  ∃ t1 c cf, c ∈ t1 ∧
    (t1 = t ∨ ∃ o cn, kmalloc = some o ∧ cn.ptr = o.ptr ∧ cn.state.tcpr.done = 0 ∧
      t1 = cn :: t) ∧
    cf.ptr = c.ptr ∧ cf.address = c.address ∧ cf.net_ns = c.net_ns ∧
    (keeps_hard_port m → cf.state.tcpr.hard.port = c.state.tcpr.hard.port) ∧
    (result = reap (store t1 cf) cf ∨ (result = store t1 cf ∧ cf.state.tcpr = c.state.tcpr))

/-- The invariant of the table: distinct node addresses and no entry with its
done flag set. -/
def table_ok (t : List connection) : Prop :=
  distinct_nodes t ∧ ∀ e ∈ t, e.state.tcpr.done = 0

/-! ## Accesses to a connection object on the way out of a critical section -/

/-- An access the pipelines make to a connection object, named by the address
of the object. -/
inductive object_access where
  | spin_lock (ptr : Nat)
  | list_del (ptr : Nat)
  | kfree (ptr : Nat)
  | spin_unlock (ptr : Nat)
  deriving DecidableEq, Repr

/-- The object an access goes to. -/
def object_access.ptr : object_access → Nat
  | object_access.spin_lock p => p
  | object_access.list_del p => p
  | object_access.kfree p => p
  | object_access.spin_unlock p => p

/-- The accesses of `connection_done(c)`, in program order: `list_del(&c->list)`
under the table lock, then `kfree(c)`. -/
def connection_done_accesses (c : connection) : List object_access :=
  [object_access.list_del c.ptr, object_access.kfree c.ptr]

/-- The accesses of `if (c->state.tcpr.done) connection_done(c);`. -/
def reap_accesses (c : connection) : List object_access :=
  if c.state.tcpr.done ≠ 0 then connection_done_accesses c else []

/-- The accesses of `tcpr_tg_application` to the connection it works on, from
`spin_lock(&c->tcpr_lock)` to the return: the done test with
`connection_done(c)`, then `spin_unlock(&c->tcpr_lock)`. -/
def tcpr_tg_application_accesses (m : tcpr_machine) (env : net_env) (skb : sk_buff)
    (tcp : tcphdr) (data : List Nat) (c : connection) : List object_access :=
  object_access.spin_lock c.ptr ::
    (reap_accesses (tcpr_tg_application_final m env skb tcp data c) ++
      [object_access.spin_unlock c.ptr])

/-- The accesses of `tcpr_tg_peer` to the connection it works on, from
`spin_lock(&c->tcpr_lock)` to the return. -/
def tcpr_tg_peer_accesses (m : tcpr_machine) (env : net_env) (skb : sk_buff)
    (tcp : tcphdr) (data : List Nat) (c : connection) : List object_access :=
  object_access.spin_lock c.ptr ::
    (reap_accesses (tcpr_tg_peer_final m env skb tcp data c) ++
      [object_access.spin_unlock c.ptr])

/-- The accesses of `tcpr_tg_update` to the connection it works on, from
`spin_lock(&c->tcpr_lock)` to the return: the done test is made only in the
branch that submits the snapshot to the state machine, the unlock always. -/
def tcpr_tg_update_accesses (m : tcpr_machine) (env : net_env) (update : tcpr_ip4)
    (c : connection) : List object_access :=
  object_access.spin_lock c.ptr ::
    ((if peer_populated (adopt update c) then reap_accesses (tcpr_tg_update_final m env update c)
      else []) ++
      [object_access.spin_unlock c.ptr])

/-- Some access in the sequence goes to an object that an earlier `kfree` of the
sequence has released. -/
def used_after_free : List object_access → Bool
  | [] => false
  | object_access.kfree p :: rest =>
    rest.any (fun a => decide (a.ptr = p)) || used_after_free rest
  | _ :: rest => used_after_free rest

/-! ## Concrete packets and tables used in witnesses -/

/-- A 40-byte TCP datagram header from 10.0.0.5 to 10.0.0.9 with its correct
checksum. -/
def ip_sample : iphdr :=
  { ihl := 5, version := 4, tos := 0, tot_len := 10240, id := 0, frag_off := 0,
    ttl := 64, protocol := 6, check := 50022, saddr := 0x0500000a, daddr := 0x0900000a }

/-- A SYN segment from port 4000 to port 80 with its correct checksum under
`ip_sample`. -/
def tcp_sample : tcphdr :=
  { source := 40975, dest := 20480, seq := 1, ack_seq := 0, res1 := 0, doff := 5,
    fin := 0, syn := 1, rst := 0, psh := 0, ack := 0, urg := 0, ece := 0, cwr := 0,
    window := 4, check := 58758, urg_ptr := 0 }

/-- The address 203.0.113.1 as loaded by the host. -/
def addr_203_0_113_1 : Nat := 0x017100cb

/-- An IPv4 header from 255.255.255.255 whose other words add up to a multiple
of `0xffff` and whose stored checksum is `0xffff`: it validates. -/
def ip_negzero : iphdr :=
  { ihl := 5, version := 4, tos := 0, tot_len := 10240, id := 0, frag_off := 0,
    ttl := 64, protocol := 6, check := 0xffff, saddr := 0xffffffff, daddr := 53626 }

/-- A freshly allocated object at address `ptr` whose memory holds leftovers. -/
def fresh (ptr : Nat) : connection :=
  { ptr := ptr,
    state := { address := 7, peer_address := 7,
               tcpr := { hard := { port := 7, peer := { port := 7 } }, port := 7, done := 1,
                         rest := [9, 9, 9, 9] } },
    net_ns := 7, address := 7 }

/-- Two `connection_create` calls for the same peer and hard endpoint that name
different soft endpoints. -/
def creates_same_hard : List create_call :=
  [ { kmalloc := some (fresh 1), peer_address := 0x0900000a, peer_port := 20480,
      hard_address := addr_203_0_113_1, hard_port := 40975,
      address := 0x0500000a, port := 40975, net_ns := 0 },
    { kmalloc := some (fresh 2), peer_address := 0x0900000a, peer_port := 20480,
      hard_address := addr_203_0_113_1, hard_port := 40975,
      address := 0x0600000a, port := 40975, net_ns := 0 } ]

/-- A state machine that always answers `v`, leaves state, segment and snapshot
alone, and builds bare 20-byte control segments. -/
def machine_fixed (v : tcpr_verdict) : tcpr_machine :=
  { tcpr_filter := fun st tcp data _ => { verdict := v, state := st, tcp := tcp, data := data },
    tcpr_filter_peer :=
      fun st tcp data _ => { verdict := v, state := st, tcp := tcp, data := data },
    tcpr_update := fun st u => { verdict := v, state := st, update := u },
    tcpr_reset := fun st =>
      { tcp := { tcphdr.zero with doff := 5, rst := 1 }, opts := List.replicate 20 0,
        state := st },
    tcpr_recover := fun st =>
      { tcp := { tcphdr.zero with doff := 5, syn := 1 }, opts := List.replicate 20 0,
        state := st },
    tcpr_acknowledge := fun st =>
      { tcp := { tcphdr.zero with doff := 5, ack := 1 }, opts := List.replicate 20 0,
        state := st },
    sizeof_tcpr_ip4 := 48 }

/-- A kernel in which injection succeeds. -/
def env_ok : net_env := { alloc_skb := true, route := true, mtu := 1500 }

/-- The SYN from 10.0.0.5:4000 to 10.0.0.9:80. -/
def skb_sample : sk_buff :=
  { ip := ip_sample, opts := [], body := transport.tcp tcp_sample [] }

/-- The entry the application pipeline creates for `skb_sample` in the object at
address 1 when the configured address is 203.0.113.1. -/
def entry_sample : connection :=
  { ptr := 1,
    state := { address := 0x0500000a, peer_address := 0x0900000a,
               tcpr := { hard := { port := 40975, peer := { port := 20480 } }, port := 40975,
                         done := 0, rest := [0, 0, 0, 0] } },
    net_ns := 0, address := addr_203_0_113_1 }

/-- The address 192.168.1.20 as loaded by the host. -/
def addr_192_168_1_20 : Nat := 0x1401a8c0

/-- The address 198.51.100.7 as loaded by the host. -/
def addr_198_51_100_7 : Nat := 0x076433c6

/-- A listener placeholder for 203.0.113.1:80 naming the soft target
192.168.1.20:8080. -/
def placeholder_sample : connection :=
  { ptr := 10,
    state := { address := addr_192_168_1_20, peer_address := 0,
               tcpr := { hard := { port := 20480, peer := { port := 0 } }, port := 36895,
                         done := 0, rest := [0, 0, 0, 0] } },
    net_ns := 0, address := addr_203_0_113_1 }

/-- An established flow from 198.51.100.7:5555 to the hard endpoint
203.0.113.1:443, served by the same soft target 192.168.1.20:8080. -/
def other_flow_sample : connection :=
  { ptr := 11,
    state := { address := addr_192_168_1_20, peer_address := addr_198_51_100_7,
               tcpr := { hard := { port := 47873, peer := { port := 45845 } }, port := 36895,
                         done := 0, rest := [0, 0, 0, 0] } },
    net_ns := 0, address := addr_203_0_113_1 }

/-- A SYN from 198.51.100.7:5555 to 203.0.113.1:80. -/
def skb_peer_sample : sk_buff :=
  { ip := { ihl := 5, version := 4, tos := 0, tot_len := 10240, id := 0, frag_off := 0,
            ttl := 64, protocol := 6, check := 37908, saddr := addr_198_51_100_7,
            daddr := addr_203_0_113_1 },
    opts := [],
    body := transport.tcp
      { source := 45845, dest := 20480, seq := 1, ack_seq := 0, res1 := 0, doff := 5,
        fin := 0, syn := 1, rst := 0, psh := 0, ack := 0, urg := 0, ece := 0, cwr := 0,
        window := 4, check := 41774, urg_ptr := 0 } [] }

/-- A snapshot for the flow 198.51.100.7:5555 to hard port 80 that names no soft
endpoint. -/
def update_unset_sample : tcpr_ip4 :=
  { address := 0, peer_address := addr_198_51_100_7,
    tcpr := { hard := { port := 20480, peer := { port := 45845 } }, port := 0, done := 0,
              rest := [1, 2, 3, 4] } }

/-- The same snapshot naming the soft endpoint 192.168.1.20:8080. -/
def update_seed_sample : tcpr_ip4 :=
  { address := addr_192_168_1_20, peer_address := addr_198_51_100_7,
    tcpr := { hard := { port := 20480, peer := { port := 45845 } }, port := 36895, done := 0,
              rest := [1, 2, 3, 4] } }

/-- The UDP header of the sample update packets, from port 7777 to port 8888. -/
def udp_sample : udphdr := { source := 24862, dest := 47138, len := 14336, check := 0 }

/-- An update packet from 10.0.0.9 to 10.0.0.5 carrying `update`. -/
def skb_update_sample (update : tcpr_ip4) : sk_buff :=
  { ip := { ihl := 5, version := 4, tos := 0, tot_len := 19456, id := 0, frag_off := 0,
            ttl := 64, protocol := 17, check := 0, saddr := 0x0900000a,
            daddr := 0x0500000a },
    opts := [],
    body := transport.udp udp_sample update }

/-- The sample segment with the ACK flag set instead of SYN. -/
def skb_ack_sample : sk_buff :=
  { ip := ip_sample, opts := [],
    body := transport.tcp { tcp_sample with syn := 0, ack := 1 } [] }

/-- An ICMP datagram from 10.0.0.5 to 10.0.0.9. -/
def skb_icmp_sample : sk_buff :=
  { ip := { ip_sample with protocol := 1 }, opts := [], body := transport.other [8, 0] }

/-- A snapshot for the established flow `other_flow_sample` that names no soft
address. -/
def update_flow_sample : tcpr_ip4 :=
  { address := 0, peer_address := addr_198_51_100_7,
    tcpr := { hard := { port := 47873, peer := { port := 45845 } }, port := 36895, done := 0,
              rest := [1, 2, 3, 4] } }

/-- A state machine that drops every segment and reports the flow complete. -/
def machine_finishing : tcpr_machine :=
  { tcpr_filter := fun st tcp data _ =>
      { verdict := tcpr_verdict.TCPR_DROP, state := { st with done := 1 }, tcp := tcp,
        data := data },
    tcpr_filter_peer := fun st tcp data _ =>
      { verdict := tcpr_verdict.TCPR_DROP, state := { st with done := 1 }, tcp := tcp,
        data := data },
    tcpr_update := fun st u =>
      { verdict := tcpr_verdict.TCPR_DROP, state := { st with done := 1 }, update := u },
    tcpr_reset := fun st =>
      { tcp := { tcphdr.zero with doff := 5, rst := 1 }, opts := List.replicate 20 0,
        state := st },
    tcpr_recover := fun st =>
      { tcp := { tcphdr.zero with doff := 5, syn := 1 }, opts := List.replicate 20 0,
        state := st },
    tcpr_acknowledge := fun st =>
      { tcp := { tcphdr.zero with doff := 5, ack := 1 }, opts := List.replicate 20 0,
        state := st },
    sizeof_tcpr_ip4 := 48 }

/-- The application pipeline seeing the sample SYN, with the allocator handing
out the object at address 1. -/
def invocation_sample : invocation :=
  invocation.application env_ok (some (fresh 1)) skb_sample addr_203_0_113_1 0

/-- The peer pipeline seeing the SYN to 203.0.113.1:80, with the allocator
handing out the object at address 2. -/
def invocation_peer_sample : invocation :=
  invocation.peer env_ok (some (fresh 2)) skb_peer_sample 0

/-- The update pipeline seeing the sample update for the flow of
other_flow_sample, the allocator having no memory. -/
def invocation_update_sample : invocation :=
  invocation.update env_ok none (skb_update_sample update_flow_sample) addr_203_0_113_1 0

/-- The TCP header of `skb_peer_sample`. -/
def tcp_peer_sample : tcphdr :=
  { source := 45845, dest := 20480, seq := 1, ack_seq := 0, res1 := 0, doff := 5,
    fin := 0, syn := 1, rst := 0, psh := 0, ack := 0, urg := 0, ece := 0, cwr := 0,
    window := 4, check := 41774, urg_ptr := 0 }

/-- An established flow from 198.51.100.7:5555 to the hard endpoint
203.0.113.1:80, the flow of `skb_peer_sample`. -/
def peer_flow_sample : connection :=
  { ptr := 12,
    state := { address := addr_192_168_1_20, peer_address := addr_198_51_100_7,
               tcpr := { hard := { port := 20480, peer := { port := 45845 } }, port := 36895,
                         done := 0, rest := [0, 0, 0, 0] } },
    net_ns := 0, address := addr_203_0_113_1 }

/-- A state machine whose reset template has data offset 4, one word short of
the fixed TCP header; otherwise as `machine_fixed`. -/
def machine_short (v : tcpr_verdict) : tcpr_machine :=
  { machine_fixed v with
    tcpr_reset := fun st =>
      { tcp := { tcphdr.zero with source := 20480, dest := 45845, doff := 4, rst := 1 },
        opts := List.replicate 20 0, state := st } }

/-! # Properties -/

/-! ## Checksum arithmetic -/

theorem csum_foldl_eq (ws : List Nat) (h : words16 ws) (a : Nat) (ha : a ≤ 65535) :
    ws.foldl csum_add a = oc (a + ws.sum) := by
  induction ws generalizing a with
  | nil => simp [oc]; split <;> omega
  | cons w ws ih =>
    have hw : w < 65536 := h w (by simp)
    have hws : words16 ws := fun x hx => h x (by simp [hx])
    have hb : csum_add a w ≤ 65535 := by unfold csum_add; omega
    rw [List.foldl_cons, ih hws _ hb]
    simp only [List.sum_cons, oc, csum_add]
    split <;> split <;> omega

theorem csum_words_eq (ws : List Nat) (h : words16 ws) : csum_words ws = oc ws.sum := by
  unfold csum_words
  rw [csum_foldl_eq ws h 0 (by omega)]; simp

theorem xor_ffff (c : Nat) (h : c < 65536) : c ^^^ 0xffff = 65535 - c := by
  have := @BitVec.toNat_not 16 (BitVec.ofNat 16 c)
  rw [BitVec.not_def] at this
  simp [BitVec.toNat_xor, BitVec.toNat_ofNat, Nat.mod_eq_of_lt h] at this
  rw [Nat.xor_comm]; simpa using this

theorem not32_eq (c : Nat) (h : c < 4294967296) : not32 c = 4294967295 - c := by
  unfold not32
  have := @BitVec.toNat_not 32 (BitVec.ofNat 32 c)
  rw [BitVec.not_def] at this
  simp [BitVec.toNat_xor, BitVec.toNat_ofNat, Nat.mod_eq_of_lt h] at this
  rw [Nat.xor_comm]; simpa using this

theorem shorten_eq (n : Nat) : shorten n = (n / 65536 + n % 65536) % 4294967296 := by
  unfold shorten
  have h1 : n >>> 16 = n / 65536 := by rw [Nat.shiftRight_eq_div_pow]
  have h2 : n &&& 0xffff = n % 65536 := by
    have := Nat.and_pow_two_sub_one_eq_mod n 16
    simpa using this
  rw [h1, h2]; norm_num

theorem shorten_not32 (old : Nat) (ho : old < 4294967296) :
    shorten (not32 old) = (65535 - old % 65536) + (65535 - old / 65536) := by
  rw [not32_eq old ho, shorten_eq]
  omega

theorem shorten_small (n : Nat) (h : n < 4294967296) :
    shorten n = n % 65536 + n / 65536 := by
  rw [shorten_eq]; omega

theorem shorten_shorten (t : Nat) (h : t ≤ 327675) : shorten (shorten t) = oc t := by
  have h1 : shorten t = t % 65536 + t / 65536 := shorten_small t (by omega)
  have h2 : shorten t ≤ 65539 := by rw [h1]; omega
  rw [shorten_small _ (by omega), h1]
  unfold oc
  split
  · omega
  · have h3 : t / 65536 ≤ 4 := by omega
    omega

theorem oc_le (s : Nat) : oc s ≤ 65535 := by
  unfold oc; split <;> omega

theorem repaired_eq (check old new : Nat) (hc : check < 65536) (ho : old < 4294967296)
    (hn : new < 4294967296) :
    repaired check old new =
      65535 - oc ((65535 - check) + (65535 - old % 65536) + (65535 - old / 65536)
        + new % 65536 + new / 65536) := by
  unfold repaired
  rw [xor_ffff check hc, shorten_not32 old ho, shorten_small new hn]
  have e : ∀ a b c : Nat, a ≤ 65535 → b ≤ 131070 → c ≤ 131070 →
      ((a % 2 ^ 32 + b) % 2 ^ 32 + c) % 2 ^ 32 = a + b + c := by
    intro a b c ha hb hc
    norm_num
    omega
  rw [e _ _ _ (by omega) (by omega) (by omega)]
  have e2 : 65535 - check + (65535 - old % 65536 + (65535 - old / 65536))
      + (new % 65536 + new / 65536)
      = (65535 - check) + (65535 - old % 65536) + (65535 - old / 65536)
        + new % 65536 + new / 65536 := by omega
  rw [e2, shorten_shorten _ (by omega)]
  have := oc_le ((65535 - check) + (65535 - old % 65536) + (65535 - old / 65536)
        + new % 65536 + new / 65536)
  rw [not32_eq _ (by omega)]
  omega

theorem oc_pos (s : Nat) (h : 0 < s) : oc s = (s - 1) % 65535 + 1 := by
  unfold oc; rw [if_neg (by omega)]

theorem repair_key (R c a b x y : Nat) (hc : c < 65536) (ha : a < 65536) (hb : b < 65536)
    (hx : x < 65536) (hy : y < 65536) (hR : 0 < R)
    (hok : oc (R + c + a + b) = 65535)
    (hne : ¬ (c = 65535 ∧ a = 65535 ∧ b = 65535 ∧ x = 0 ∧ y = 0)) :
    65535 - oc ((65535 - c) + (65535 - a) + (65535 - b) + x + y) = 65535 - oc (R + 0 + x + y) := by
  rw [oc_pos _ (by omega)] at hok
  rw [oc_pos _ (by omega), oc_pos _ (by omega)]
  omega

theorem repair_key_valid (R c a b x y : Nat) (hc : c < 65536) (ha : a < 65536)
    (hb : b < 65536) (hx : x < 65536) (hy : y < 65536) (hR : 0 < R)
    (hok : oc (R + c + a + b) = 65535) :
    oc (R + (65535 - oc ((65535 - c) + (65535 - a) + (65535 - b) + x + y)) + x + y)
      = 65535 := by
  rw [oc_pos _ (by omega)] at hok
  rw [oc_pos _ (by omega)]
  unfold oc
  split <;> omega

theorem words16_append {a b : List Nat} (ha : words16 a) (hb : words16 b) :
    words16 (a ++ b) := by
  intro w hw
  rcases List.mem_append.1 hw with h | h
  · exact ha w h
  · exact hb w h

theorem words16_ip (ip : iphdr) (h : ip.wf) : words16 ip.words := by
  obtain ⟨h1, h2, h3, h4, h5, h6, h7, h8, h9, h10, h11⟩ := h
  intro w hw
  simp only [iphdr.words, List.mem_cons, List.mem_singleton, List.not_mem_nil, or_false] at hw
  rcases hw with h | h | h | h | h | h | h | h | h | h <;> omega

theorem words16_tcp (tcp : tcphdr) (h : tcp.wf) : words16 tcp.words := by
  obtain ⟨h1, h2, h3, h4, h5, h6, h7, h8, h9, h10, h11, h12, h13, h14, h15, h16, h17⟩ := h
  intro w hw
  simp only [tcphdr.words, List.mem_cons, List.mem_singleton, List.not_mem_nil, or_false] at hw
  rcases hw with h | h | h | h | h | h | h | h | h | h <;> omega

theorem htons_lt (x : Nat) : htons x < 65536 := by unfold htons; omega

theorem words16_pseudo (s d len : Nat) (hs : s < 4294967296) (hd : d < 4294967296) :
    words16 (pseudo_words s d len IPPROTO_TCP) := by
  intro w hw
  have := htons_lt (len % 65536)
  simp only [pseudo_words, IPPROTO_TCP, List.mem_cons, List.mem_singleton, List.not_mem_nil, or_false] at hw
  rcases hw with h | h | h | h | h | h <;> omega

theorem fix_checksums_ip (ip : iphdr) (tcp : tcphdr) (old new : Nat) :
    (fix_checksums ip tcp old new).1 = { ip with check := repaired ip.check old new } := rfl

theorem fix_checksums_tcp (ip : iphdr) (tcp : tcphdr) (old new : Nat) :
    (fix_checksums ip tcp old new).2 = { tcp with check := repaired tcp.check old new } := rfl

theorem get_lt (ip : iphdr) (hip : ip.wf) (f : addr_field) : ip.get f < 4294967296 := by
  obtain ⟨h1, h2, h3, h4, h5, h6, h7, h8, h9, h10, h11⟩ := hip
  cases f <;> simpa [iphdr.get]

theorem set_check_wf (ip : iphdr) (hip : ip.wf) (f : addr_field) (new c : Nat)
    (hnew : new < 4294967296) (hc : c < 65536) :
    ({ (ip.set f new) with check := c } : iphdr).wf := by
  obtain ⟨h1, h2, h3, h4, h5, h6, h7, h8, h9, h10, h11⟩ := hip
  cases f <;> simp only [iphdr.wf, iphdr.set] <;> omega

theorem ip_csum_eq (ip : iphdr) (opts : List Nat) (hip : ip.wf) (hopts : words16 opts)
    (f : addr_field) :
    csum_words (ip_sum_words ip opts) =
      oc (ip_other_sum ip opts f + ip.check + ip.get f % 65536 + ip.get f / 65536) := by
  have hw : words16 (ip_sum_words ip opts) := words16_append (words16_ip ip hip) hopts
  have hs : (ip_sum_words ip opts).sum =
      ip_other_sum ip opts f + ip.check + ip.get f % 65536 + ip.get f / 65536 := by
    cases f <;>
      simp only [ip_sum_words, iphdr.words, ip_other_sum, iphdr.get, List.sum_append,
        List.sum_cons, List.sum_nil] <;> omega
  rw [csum_words_eq _ hw, hs]

theorem ip_other_sum_set (ip : iphdr) (opts : List Nat) (f : addr_field) (new c : Nat) :
    ip_other_sum ({ (ip.set f new) with check := c } : iphdr) opts f = ip_other_sum ip opts f := by
  cases f <;> rfl

theorem ip_other_sum_pos (ip : iphdr) (opts : List Nat) (f : addr_field)
    (hpos : 0 < ip.version ∨ 0 < ip.protocol) : 0 < ip_other_sum ip opts f := by
  cases f <;> simp only [ip_other_sum] <;> omega

theorem repaired_lt (check old new : Nat) : repaired check old new < 65536 := by
  unfold repaired
  exact Nat.mod_lt _ (by norm_num)

/-- Repairing a validating IPv4 checksum gives the recomputed checksum, except
in the one case where the repaired sum is zero. -/
theorem repair_ip (ip : iphdr) (opts : List Nat) (f : addr_field) (new : Nat)
    (hip : ip.wf) (hopts : words16 opts) (hpos : 0 < ip.version ∨ 0 < ip.protocol)
    (hnew : new < 4294967296)
    (hok : ip_check_ok ip opts)
    (hne : ¬ (ip.check = 0xffff ∧ ip.get f = 0xffffffff ∧ new = 0)) :
    repaired ip.check (ip.get f) new = ip_recompute (ip.set f new) opts := by
  have hold := get_lt ip hip f
  have h9 : ip.check < 65536 := hip.2.2.2.2.2.2.2.2.1
  rw [repaired_eq _ _ _ h9 hold hnew]
  unfold ip_check_ok at hok
  rw [ip_csum_eq ip opts hip hopts f] at hok
  unfold ip_recompute ip_fast_csum
  rw [ip_csum_eq _ opts (set_check_wf ip hip f new 0 hnew (by omega)) hopts f,
    ip_other_sum_set]
  have hg : ({ (ip.set f new) with check := 0 } : iphdr).get f = new := by cases f <;> rfl
  rw [hg]
  exact repair_key _ ip.check (ip.get f % 65536) (ip.get f / 65536) (new % 65536)
      (new / 65536) h9 (by omega) (by omega) (by omega) (by omega)
      (ip_other_sum_pos ip opts f hpos) hok (by omega)

/-- Repairing a validating IPv4 checksum gives a validating checksum. -/
theorem repair_ip_valid (ip : iphdr) (opts : List Nat) (f : addr_field) (new : Nat)
    (hip : ip.wf) (hopts : words16 opts) (hpos : 0 < ip.version ∨ 0 < ip.protocol)
    (hnew : new < 4294967296)
    (hok : ip_check_ok ip opts) :
    ip_check_ok { (ip.set f new) with check := repaired ip.check (ip.get f) new } opts := by
  have hold := get_lt ip hip f
  have h9 : ip.check < 65536 := hip.2.2.2.2.2.2.2.2.1
  unfold ip_check_ok at hok ⊢
  rw [ip_csum_eq ip opts hip hopts f] at hok
  rw [ip_csum_eq _ opts (set_check_wf ip hip f new _ hnew (repaired_lt _ _ _)) hopts f,
    ip_other_sum_set]
  have hg : ({ (ip.set f new) with check := repaired ip.check (ip.get f) new } : iphdr).get f
      = new := by cases f <;> rfl
  rw [hg]
  show oc (ip_other_sum ip opts f + repaired ip.check (ip.get f) new + new % 65536
    + new / 65536) = 65535
  rw [repaired_eq _ _ _ h9 hold hnew]
  exact repair_key_valid _ ip.check (ip.get f % 65536) (ip.get f / 65536) (new % 65536)
      (new / 65536) h9 (by omega) (by omega) (by omega) (by omega)
      (ip_other_sum_pos ip opts f hpos) hok

theorem tcp_sum_eq (ip : iphdr) (tcp : tcphdr) (data : List Nat) (f : addr_field) :
    (tcp_sum_words ip tcp data).sum =
      tcp_other_sum ip tcp data f + tcp.check + ip.get f % 65536 + ip.get f / 65536 := by
  cases f
  · simp only [tcp_sum_words, pseudo_words, tcphdr.words, tcp_other_sum, iphdr.get,
      List.sum_append, List.sum_cons, List.sum_nil, IPPROTO_TCP]
    omega
  · simp only [tcp_sum_words, pseudo_words, tcphdr.words, tcp_other_sum, iphdr.get,
      List.sum_append, List.sum_cons, List.sum_nil, IPPROTO_TCP]
    omega

theorem words16_tcp_sum (ip : iphdr) (tcp : tcphdr) (data : List Nat) (hip : ip.wf)
    (htcp : tcp.wf) (hdata : words16 data) : words16 (tcp_sum_words ip tcp data) := by
  have hs : ip.saddr < 4294967296 := hip.2.2.2.2.2.2.2.2.2.1
  have hd : ip.daddr < 4294967296 := hip.2.2.2.2.2.2.2.2.2.2
  unfold tcp_sum_words
  exact words16_append (words16_append (words16_pseudo _ _ _ hs hd) (words16_tcp tcp htcp)) hdata

theorem tcp_csum_eq (ip : iphdr) (tcp : tcphdr) (data : List Nat) (hip : ip.wf)
    (htcp : tcp.wf) (hdata : words16 data) (f : addr_field) :
    csum_words (tcp_sum_words ip tcp data) =
      oc (tcp_other_sum ip tcp data f + tcp.check + ip.get f % 65536 + ip.get f / 65536) := by
  rw [csum_words_eq _ (words16_tcp_sum ip tcp data hip htcp hdata), tcp_sum_eq ip tcp data f]

theorem tcp_other_sum_set (ip : iphdr) (tcp : tcphdr) (data : List Nat) (f : addr_field)
    (new c c2 : Nat) :
    tcp_other_sum ({ (ip.set f new) with check := c } : iphdr) { tcp with check := c2 } data f
      = tcp_other_sum ip tcp data f := by
  cases f <;> rfl

theorem tcp_other_sum_pos (ip : iphdr) (tcp : tcphdr) (data : List Nat) (f : addr_field) :
    0 < tcp_other_sum ip tcp data f := by
  cases f <;> simp only [tcp_other_sum, IPPROTO_TCP] <;> omega

theorem set_check_get (ip : iphdr) (f : addr_field) (new c : Nat) :
    ({ (ip.set f new) with check := c } : iphdr).get f = new := by
  cases f <;> rfl

theorem tcp_check_wf (tcp : tcphdr) (h : tcp.wf) (c : Nat) (hc : c < 65536) :
    ({ tcp with check := c } : tcphdr).wf := by
  obtain ⟨h1, h2, h3, h4, h5, h6, h7, h8, h9, h10, h11, h12, h13, h14, h15, h16, h17⟩ := h
  exact ⟨h1, h2, h3, h4, h5, h6, h7, h8, h9, h10, h11, h12, h13, h14, h15, hc, h17⟩

/-- Repairing a validating TCP checksum gives the recomputed checksum, except in
the one case where the repaired sum is zero. -/
theorem repair_tcp (ip : iphdr) (tcp : tcphdr) (data : List Nat) (f : addr_field) (new c : Nat)
    (hip : ip.wf) (htcp : tcp.wf) (hdata : words16 data) (hnew : new < 4294967296)
    (hc : c < 65536)
    (hok : tcp_check_ok ip tcp data)
    (hne : ¬ (tcp.check = 0xffff ∧ ip.get f = 0xffffffff ∧ new = 0)) :
    repaired tcp.check (ip.get f) new
      = tcp_recompute { (ip.set f new) with check := c } tcp data := by
  have hold := get_lt ip hip f
  have h9 : tcp.check < 65536 := htcp.2.2.2.2.2.2.2.2.2.2.2.2.2.2.2.1
  rw [repaired_eq _ _ _ h9 hold hnew]
  unfold tcp_check_ok at hok
  rw [tcp_csum_eq ip tcp data hip htcp hdata f] at hok
  unfold tcp_recompute
  rw [tcp_csum_eq _ _ data (set_check_wf ip hip f new c hnew hc)
    (tcp_check_wf tcp htcp 0 (by omega)) hdata f, tcp_other_sum_set, set_check_get]
  exact repair_key _ tcp.check (ip.get f % 65536) (ip.get f / 65536) (new % 65536)
      (new / 65536) h9 (by omega) (by omega) (by omega) (by omega)
      (tcp_other_sum_pos ip tcp data f) hok (by omega)

/-- Repairing a validating TCP checksum gives a validating checksum. -/
theorem repair_tcp_valid (ip : iphdr) (tcp : tcphdr) (data : List Nat) (f : addr_field)
    (new c : Nat) (hip : ip.wf) (htcp : tcp.wf) (hdata : words16 data)
    (hnew : new < 4294967296) (hc : c < 65536)
    (hok : tcp_check_ok ip tcp data) :
    tcp_check_ok { (ip.set f new) with check := c }
      { tcp with check := repaired tcp.check (ip.get f) new } data := by
  have hold := get_lt ip hip f
  have h9 : tcp.check < 65536 := htcp.2.2.2.2.2.2.2.2.2.2.2.2.2.2.2.1
  unfold tcp_check_ok at hok ⊢
  rw [tcp_csum_eq ip tcp data hip htcp hdata f] at hok
  rw [tcp_csum_eq _ _ data (set_check_wf ip hip f new c hnew hc)
    (tcp_check_wf tcp htcp _ (repaired_lt _ _ _)) hdata f, tcp_other_sum_set, set_check_get]
  show oc (tcp_other_sum ip tcp data f + repaired tcp.check (ip.get f) new + new % 65536
    + new / 65536) = 65535
  rw [repaired_eq _ _ _ h9 hold hnew]
  exact repair_key_valid _ tcp.check (ip.get f % 65536) (ip.get f / 65536) (new % 65536)
      (new / 65536) h9 (by omega) (by omega) (by omega) (by omega)
      (tcp_other_sum_pos ip tcp data f) hok

/-! ## C1: checksum repair against recomputation -/

/-- C1 (as amended): for every IPv4 header and every TCP segment with its
pseudo-header whose stored checksum validates, and every new 32-bit value of an
address field, the checksum written by `fix_checksums` equals the checksum
recomputed from scratch over the header with the field replaced, unless the
stored checksum is `0xffff`, the old address is `0xffffffff` and the new one is
`0`; in that case `fix_checksums` writes `0xffff`. -/
theorem fix_checksums_eq_recompute (ip : iphdr) (opts : List Nat) (tcp : tcphdr)
    (data : List Nat) (f : addr_field) (new : Nat)
    (hip : ip.wf) (hopts : words16 opts) (htcp : tcp.wf) (hdata : words16 data)
    (hv : ip.version = 4) (hnew : new < 4294967296) :
    (ip_check_ok ip opts →
      ¬ (ip.check = 0xffff ∧ ip.get f = 0xffffffff ∧ new = 0) →
      (fix_checksums ip tcp (ip.get f) new).1.check = ip_recompute (ip.set f new) opts) ∧
    (tcp_check_ok ip tcp data →
      ¬ (tcp.check = 0xffff ∧ ip.get f = 0xffffffff ∧ new = 0) →
      (fix_checksums ip tcp (ip.get f) new).2.check
        = tcp_recompute (ip.set f new) tcp data) ∧
    (ip.check = 0xffff → ip.get f = 0xffffffff → new = 0 →
      (fix_checksums ip tcp (ip.get f) new).1.check = 0xffff) ∧
    (tcp.check = 0xffff → ip.get f = 0xffffffff → new = 0 →
      (fix_checksums ip tcp (ip.get f) new).2.check = 0xffff) := by
  refine ⟨?_, ?_, ?_, ?_⟩
  · intro hok hne
    rw [fix_checksums_ip]
    exact repair_ip ip opts f new hip hopts (Or.inl (by omega)) hnew hok hne
  · intro hok hne
    rw [fix_checksums_tcp]
    have h := repair_tcp ip tcp data f new ip.check hip htcp hdata hnew
      hip.2.2.2.2.2.2.2.2.1 hok hne
    have e : ({ (ip.set f new) with check := ip.check } : iphdr) = ip.set f new := by
      cases f <;> rfl
    rw [e] at h
    exact h
  · intro h1 h2 h3
    rw [fix_checksums_ip, h1, h2, h3]
    show repaired 65535 4294967295 0 = 65535
    decide
  · intro h1 h2 h3
    rw [fix_checksums_tcp, h1, h2, h3]
    show repaired 65535 4294967295 0 = 65535
    decide

/-- C1, witness: the repair of the sample datagram when its source address
becomes 203.0.113.1. -/
theorem fix_checksums_eq_recompute_witness :
    (fix_checksums ip_sample tcp_sample ip_sample.saddr addr_203_0_113_1).1.check
        = ip_recompute { ip_sample with saddr := addr_203_0_113_1 } [] ∧
    (fix_checksums ip_sample tcp_sample ip_sample.saddr addr_203_0_113_1).2.check
        = tcp_recompute { ip_sample with saddr := addr_203_0_113_1 } tcp_sample [] :=
  have h := fix_checksums_eq_recompute ip_sample [] tcp_sample [] addr_field.saddr
    addr_203_0_113_1 (by decide) (by decide) (by decide) (by decide) rfl (by decide)
  ⟨h.1 (by decide) (by decide), h.2.1 (by decide) (by decide)⟩

/-- C1, counterexample: a validating IPv4 header with stored checksum `0xffff`
and source 255.255.255.255; after the source becomes 0.0.0.0 `fix_checksums`
writes `0xffff`, recomputation from scratch gives `0`. -/
theorem fix_checksums_negative_zero :
    ip_negzero.wf ∧ ip_negzero.version = 4 ∧ ip_check_ok ip_negzero [] ∧
    (fix_checksums ip_negzero tcp_sample ip_negzero.saddr 0).1.check = 0xffff ∧
    ip_recompute { ip_negzero with saddr := 0 } [] = 0 ∧
    (fix_checksums ip_negzero tcp_sample ip_negzero.saddr 0).1.check
      ≠ ip_recompute { ip_negzero with saddr := 0 } [] := by
  decide

/-! ## The connection table -/

theorem lookup_internal_eq_none (connections : List connection)
    (pa pp a p ns : Nat) :
    lookup_internal connections pa pp a p ns = none ↔
      ∀ e ∈ connections, internal_key e ≠ (pa, pp, a, p, ns) := by
  unfold lookup_internal
  rw [List.find?_eq_none]
  constructor
  · intro h e he hk
    apply h e he
    simp only [internal_key, Prod.mk.injEq] at hk
    simpa using hk
  · intro h e he hk
    apply h e he
    simp only [decide_eq_true_eq] at hk
    simp only [internal_key, Prod.mk.injEq]
    exact hk

theorem lookup_internal_some (connections : List connection) (pa pp a p ns : Nat)
    (c : connection) (h : lookup_internal connections pa pp a p ns = some c) :
    c ∈ connections ∧ internal_key c = (pa, pp, a, p, ns) := by
  unfold lookup_internal at h
  refine ⟨List.mem_of_find?_eq_some h, ?_⟩
  have := List.find?_some h
  simp only [decide_eq_true_eq] at this
  simp only [internal_key, Prod.mk.injEq]
  exact this

theorem lookup_external_eq_none (connections : List connection)
    (pa pp a p ns : Nat) :
    lookup_external connections pa pp a p ns = none ↔
      ∀ e ∈ connections, external_key e ≠ (pa, pp, a, p, ns) := by
  unfold lookup_external
  rw [List.find?_eq_none]
  constructor
  · intro h e he hk
    apply h e he
    simp only [external_key, Prod.mk.injEq] at hk
    simpa using hk
  · intro h e he hk
    apply h e he
    simp only [decide_eq_true_eq] at hk
    simp only [external_key, Prod.mk.injEq]
    exact hk

theorem lookup_external_some (connections : List connection) (pa pp a p ns : Nat)
    (c : connection) (h : lookup_external connections pa pp a p ns = some c) :
    c ∈ connections ∧ external_key c = (pa, pp, a, p, ns) := by
  unfold lookup_external at h
  refine ⟨List.mem_of_find?_eq_some h, ?_⟩
  have := List.find?_some h
  simp only [decide_eq_true_eq] at this
  simp only [external_key, Prod.mk.injEq]
  exact this

theorem connection_create_miss (connections : List connection) (o : connection)
    (pa pp ha hp a p ns : Nat)
    (h : lookup_internal connections pa pp a p ns = none) :
    connection_create connections (some o) pa pp ha hp a p ns =
      (some (created o pa pp ha hp a p ns),
       created o pa pp ha hp a p ns :: connections) := by
  unfold connection_create
  rw [h]
  rfl

theorem connection_create_hit (connections : List connection) (k : Option connection)
    (pa pp ha hp a p ns : Nat) (c : connection)
    (h : lookup_internal connections pa pp a p ns = some c) :
    connection_create connections k pa pp ha hp a p ns = (some c, connections) := by
  unfold connection_create
  rw [h]

theorem connection_create_fail (connections : List connection)
    (pa pp ha hp a p ns : Nat)
    (h : lookup_internal connections pa pp a p ns = none) :
    connection_create connections none pa pp ha hp a p ns = (none, connections) := by
  unfold connection_create
  rw [h]

theorem connection_create_internal_unique (connections : List connection)
    (k : Option connection) (pa pp ha hp a p ns : Nat) (h : internal_unique connections) :
    internal_unique (connection_create connections k pa pp ha hp a p ns).2 := by
  cases hl : lookup_internal connections pa pp a p ns with
  | some c => rw [connection_create_hit _ _ _ _ _ _ _ _ _ c hl]; exact h
  | none =>
    cases k with
    | none => rw [connection_create_fail _ _ _ _ _ _ _ _ hl]; exact h
    | some o =>
      rw [connection_create_miss _ _ _ _ _ _ _ _ _ hl]
      refine List.Pairwise.cons ?_ h
      intro e he hk
      exact (lookup_internal_eq_none _ _ _ _ _ _).1 hl e he hk.symm

theorem run_creates_internal_unique (calls : List create_call) :
    ∀ connections, internal_unique connections →
      internal_unique (run_creates connections calls) := by
  induction calls with
  | nil => intro connections h; exact h
  | cons k ks ih =>
    intro connections h
    exact ih _ (connection_create_internal_unique connections _ _ _ _ _ _ _ _ h)

theorem connection_create_none (connections : List connection) (k : Option connection)
    (pa pp ha hp a p ns : Nat) (t : List connection)
    (h : connection_create connections k pa pp ha hp a p ns = (none, t)) :
    t = connections := by
  cases hl : lookup_internal connections pa pp a p ns with
  | some c =>
    rw [connection_create_hit _ _ _ _ _ _ _ _ _ c hl] at h
    exact absurd (congrArg Prod.fst h) (by simp)
  | none =>
    cases k with
    | none =>
      rw [connection_create_fail _ _ _ _ _ _ _ _ hl] at h
      exact (congrArg Prod.snd h).symm
    | some o =>
      rw [connection_create_miss _ _ _ _ _ _ _ _ _ hl] at h
      exact absurd (congrArg Prod.fst h) (by simp)

/-! ## Shape of the pipelines -/

theorem inject_tcp_op (m : tcpr_machine) (env : net_env) (c : connection)
    (v : tcpr_verdict) :
    (inject_tcp m env c v).op = tcpr_op.reset ∨ (inject_tcp m env c v).op = tcpr_op.recover ∨
      (inject_tcp m env c v).op = tcpr_op.acknowledge := by
  cases v <;> simp [inject_tcp]

theorem inject_ip_handed (env : net_env) (d : sk_buff) : (inject_ip env d).handed = d := by
  unfold inject_ip
  split
  · rfl
  · split
    · rfl
    · split <;> rfl

/-- The application pipeline on a TCP packet either drops at once or enters its
critical section with some connection. -/
theorem application_reaches (m : tcpr_machine) (env : net_env)
    (connections : List connection) (kmalloc : Option connection) (skb : sk_buff)
    (address ns : Nat) (tcp : tcphdr) (data : List Nat)
    (hp : skb.ip.protocol = IPPROTO_TCP) (hb : skb.body = transport.tcp tcp data) :
    tcpr_tg_application m env connections kmalloc skb address ns = drop_now skb connections ∨
    ∃ t c, tcpr_tg_application m env connections kmalloc skb address ns
      = tcpr_tg_application_locked m env t skb tcp data c := by
  unfold tcpr_tg_application
  rw [if_neg (by simp [hp]), hb]
  simp only
  split
  · exact Or.inr ⟨_, _, rfl⟩
  · split
    · exact Or.inl rfl
    · split
      · exact Or.inr ⟨_, _, rfl⟩
      · rename_i t h
        rw [connection_create_none _ _ _ _ _ _ _ _ _ t h]
        exact Or.inl rfl

theorem application_locked_calls (m : tcpr_machine) (env : net_env)
    (t : List connection) (skb : sk_buff) (tcp : tcphdr) (data : List Nat) (c : connection) :
    ∃ rest, (tcpr_tg_application_locked m env t skb tcp data c).calls
        = { op := tcpr_op.filter, c := c, connections := t } :: rest ∧
      ∀ k ∈ rest, k.op ≠ tcpr_op.filter := by
  unfold tcpr_tg_application_locked
  simp only
  split
  · exact ⟨[], rfl, by simp⟩
  · split
    · refine ⟨_, rfl, ?_⟩
      intro k hk
      simp only [List.mem_singleton] at hk
      subst hk
      rcases inject_tcp_op m env
        { c with state := { c.state with tcpr := (m.tcpr_filter c.state.tcpr tcp data
          (segment_size skb.ip)).state } }
        (m.tcpr_filter c.state.tcpr tcp data (segment_size skb.ip)).verdict with h | h | h <;>
        simp [h]
    · exact ⟨[], rfl, by simp⟩

theorem application_locked_deliver (m : tcpr_machine) (env : net_env)
    (t : List connection) (skb : sk_buff) (tcp : tcphdr) (data : List Nat) (c : connection)
    (hv : (m.tcpr_filter c.state.tcpr tcp data (segment_size skb.ip)).verdict
      = tcpr_verdict.TCPR_DELIVER) :
    tcpr_tg_application_locked m env t skb tcp data c =
      { verdict := NF_ACCEPT,
        skb := { ip := { skb.ip with
                   saddr := c.address, check := repaired skb.ip.check skb.ip.saddr c.address },
                 opts := skb.opts,
                 body := transport.tcp
                   { (m.tcpr_filter c.state.tcpr tcp data (segment_size skb.ip)).tcp with
                     check := repaired
                       (m.tcpr_filter c.state.tcpr tcp data (segment_size skb.ip)).tcp.check
                       skb.ip.saddr c.address }
                   (m.tcpr_filter c.state.tcpr tcp data (segment_size skb.ip)).data },
        connections := reap
          (store t { c with state := { c.state with tcpr :=
            (m.tcpr_filter c.state.tcpr tcp data (segment_size skb.ip)).state } })
          { c with state := { c.state with tcpr :=
            (m.tcpr_filter c.state.tcpr tcp data (segment_size skb.ip)).state } },
        injected := [],
        calls := [{ op := tcpr_op.filter, c := c, connections := t }] } := by
  unfold tcpr_tg_application_locked
  simp only
  rw [if_pos hv]
  rfl

/-- The peer pipeline on a TCP packet either drops at once or enters its
critical section with some connection. -/
theorem peer_reaches (m : tcpr_machine) (env : net_env)
    (connections : List connection) (kmalloc : Option connection) (skb : sk_buff)
    (ns : Nat) (tcp : tcphdr) (data : List Nat)
    (hp : skb.ip.protocol = IPPROTO_TCP) (hb : skb.body = transport.tcp tcp data) :
    tcpr_tg_peer m env connections kmalloc skb ns = drop_now skb connections ∨
    ∃ t c, tcpr_tg_peer m env connections kmalloc skb ns
      = tcpr_tg_peer_locked m env t skb tcp data c := by
  unfold tcpr_tg_peer
  rw [if_neg (by simp [hp]), hb]
  simp only
  split
  · exact Or.inr ⟨_, _, rfl⟩
  · split
    · exact Or.inl rfl
    · split
      · exact Or.inl rfl
      · split
        · exact Or.inr ⟨_, _, rfl⟩
        · rename_i t h
          rw [connection_create_none _ _ _ _ _ _ _ _ _ t h]
          exact Or.inl rfl

theorem peer_locked_calls (m : tcpr_machine) (env : net_env)
    (t : List connection) (skb : sk_buff) (tcp : tcphdr) (data : List Nat) (c : connection) :
    ∃ rest, (tcpr_tg_peer_locked m env t skb tcp data c).calls
        = { op := tcpr_op.filter_peer, c := c, connections := t } :: rest ∧
      ∀ k ∈ rest, k.op ≠ tcpr_op.filter_peer := by
  unfold tcpr_tg_peer_locked
  simp only
  split
  · exact ⟨[], rfl, by simp⟩
  · split
    · refine ⟨_, rfl, ?_⟩
      intro k hk
      simp only [List.mem_singleton] at hk
      subst hk
      rcases inject_tcp_op m env
        { c with state := { c.state with tcpr := (m.tcpr_filter_peer c.state.tcpr tcp data
          (segment_size skb.ip)).state } }
        (m.tcpr_filter_peer c.state.tcpr tcp data (segment_size skb.ip)).verdict
        with h | h | h <;> simp [h]
    · exact ⟨[], rfl, by simp⟩

theorem peer_locked_deliver (m : tcpr_machine) (env : net_env)
    (t : List connection) (skb : sk_buff) (tcp : tcphdr) (data : List Nat) (c : connection)
    (hv : (m.tcpr_filter_peer c.state.tcpr tcp data (segment_size skb.ip)).verdict
      = tcpr_verdict.TCPR_DELIVER) :
    tcpr_tg_peer_locked m env t skb tcp data c =
      { verdict := NF_DROP,
        skb := { ip := { skb.ip with
                   daddr := c.state.address,
                   check := repaired skb.ip.check skb.ip.daddr c.state.address },
                 opts := skb.opts,
                 body := transport.tcp
                   { (m.tcpr_filter_peer c.state.tcpr tcp data (segment_size skb.ip)).tcp with
                     check := repaired
                       (m.tcpr_filter_peer c.state.tcpr tcp data (segment_size skb.ip)).tcp.check
                       skb.ip.daddr c.state.address }
                   (m.tcpr_filter_peer c.state.tcpr tcp data (segment_size skb.ip)).data },
        connections := reap
          (store t { c with state := { c.state with tcpr :=
            (m.tcpr_filter_peer c.state.tcpr tcp data (segment_size skb.ip)).state } })
          { c with state := { c.state with tcpr :=
            (m.tcpr_filter_peer c.state.tcpr tcp data (segment_size skb.ip)).state } },
        injected := [inject_ip env
          { ip := { skb.ip with
              daddr := c.state.address,
              check := repaired skb.ip.check skb.ip.daddr c.state.address },
            opts := skb.opts,
            body := transport.tcp
              { (m.tcpr_filter_peer c.state.tcpr tcp data (segment_size skb.ip)).tcp with
                check := repaired
                  (m.tcpr_filter_peer c.state.tcpr tcp data (segment_size skb.ip)).tcp.check
                  skb.ip.daddr c.state.address }
              (m.tcpr_filter_peer c.state.tcpr tcp data (segment_size skb.ip)).data }],
        calls := [{ op := tcpr_op.filter_peer, c := c, connections := t }] } := by
  unfold tcpr_tg_peer_locked
  simp only
  rw [if_pos hv]
  rfl

/-! ## C2: uniqueness after a sequence of `connection_create` calls -/

/-- C2 (as amended): after every sequence of `connection_create` calls starting
from the empty table, whatever the allocator answers, the table holds at most
one entry per (peer address, peer port, soft address, soft port, namespace)
tuple: no two entries share their application-view key. -/
theorem run_creates_unique (calls : List create_call) :
    internal_unique (run_creates [] calls) :=
  run_creates_internal_unique calls [] List.Pairwise.nil

/-- C2, counterexample: two `connection_create` calls with the same peer and the
same hard address and port but different soft addresses leave two entries
with one and the same (peer, hard, namespace) tuple. -/
theorem run_creates_same_hard_twice :
    (run_creates [] creates_same_hard).length = 2 ∧
    (run_creates [] creates_same_hard).map external_key =
      ([ (0x0900000a, 20480, addr_203_0_113_1, 40975, 0),
         (0x0900000a, 20480, addr_203_0_113_1, 40975, 0) ] :
        List (Nat × Nat × Nat × Nat × Nat)) ∧
    ¬ external_unique (run_creates [] creates_same_hard) := by
  decide

/-! ## C3: `connection_create` is idempotent on the application-view key -/

/-- C3: when an entry with the given (peer address, peer port, soft address, soft
port, namespace) exists, `connection_create` returns an entry of the table
with that key, whatever hard address and port are passed, and leaves the
table as it is; otherwise, when the allocation succeeds, it puts exactly one
new entry in front of the table, holding the given peer, hard, soft and
namespace values in an otherwise zeroed replicated state; and when the
allocation fails it returns nothing and leaves the table as it is. -/
theorem connection_create_idempotent (connections : List connection)
    (kmalloc : Option connection) (pa pp ha hp a p ns : Nat) :
    ((∃ e ∈ connections, internal_key e = (pa, pp, a, p, ns)) →
      ∃ c ∈ connections, internal_key c = (pa, pp, a, p, ns) ∧
        connection_create connections kmalloc pa pp ha hp a p ns = (some c, connections)) ∧
    ((¬ ∃ e ∈ connections, internal_key e = (pa, pp, a, p, ns)) →
      ∀ o, kmalloc = some o →
        ∃ c, connection_create connections kmalloc pa pp ha hp a p ns
              = (some c, c :: connections) ∧
          c.ptr = o.ptr ∧ c.state.peer_address = pa ∧ c.state.tcpr.hard.peer.port = pp ∧
          c.address = ha ∧ c.state.tcpr.hard.port = hp ∧ c.state.address = a ∧
          c.state.tcpr.port = p ∧ c.net_ns = ns ∧ c.state.tcpr.done = 0 ∧
          c.state.tcpr.rest = List.replicate o.state.tcpr.rest.length 0) ∧
    ((¬ ∃ e ∈ connections, internal_key e = (pa, pp, a, p, ns)) →
      kmalloc = none →
        connection_create connections kmalloc pa pp ha hp a p ns = (none, connections)) := by
  refine ⟨?_, ?_, ?_⟩
  · intro hex
    cases hl : lookup_internal connections pa pp a p ns with
    | none =>
      obtain ⟨e, he, hk⟩ := hex
      exact absurd hk ((lookup_internal_eq_none _ _ _ _ _ _).1 hl e he)
    | some c =>
      obtain ⟨hc, hk⟩ := lookup_internal_some _ _ _ _ _ _ c hl
      exact ⟨c, hc, hk, connection_create_hit _ _ _ _ _ _ _ _ _ c hl⟩
  · intro hno o ho
    have hl : lookup_internal connections pa pp a p ns = none := by
      rw [lookup_internal_eq_none]
      intro e he hk
      exact hno ⟨e, he, hk⟩
    subst ho
    refine ⟨_, connection_create_miss _ o _ _ _ _ _ _ _ hl, rfl, rfl, rfl, rfl, rfl, rfl, rfl,
      rfl, rfl, ?_⟩
    show o.state.tcpr.rest.map (fun _ => 0) = _
    rw [List.eq_replicate_iff]
    refine ⟨by simp, ?_⟩
    intro b hb
    obtain ⟨_, _, h⟩ := List.mem_map.1 hb
    exact h.symm
  · intro hno hk
    have hl : lookup_internal connections pa pp a p ns = none := by
      rw [lookup_internal_eq_none]
      intro e he hke
      exact hno ⟨e, he, hke⟩
    subst hk
    exact connection_create_fail _ _ _ _ _ _ _ _ hl

/-- C3, witness: a second `connection_create` for the application-view key of
the first call, naming another hard endpoint, returns the first entry; a call
with a new key inserts one entry. -/
theorem connection_create_idempotent_witness :
    (∃ c ∈ run_creates [] creates_same_hard,
        internal_key c = (0x0900000a, 20480, 0x0500000a, 40975, 0) ∧
        connection_create (run_creates [] creates_same_hard) (some (fresh 3))
            0x0900000a 20480 99 99 0x0500000a 40975 0
          = (some c, run_creates [] creates_same_hard)) ∧
    (∃ c, connection_create [] (some (fresh 3)) 0x0900000a 20480 99 99 0x0500000a 40975 0
          = (some c, [c]) ∧
        c.ptr = (fresh 3).ptr ∧ c.state.peer_address = 0x0900000a ∧
        c.state.tcpr.hard.peer.port = 20480 ∧ c.address = 99 ∧
        c.state.tcpr.hard.port = 99 ∧ c.state.address = 0x0500000a ∧
        c.state.tcpr.port = 40975 ∧ c.net_ns = 0 ∧ c.state.tcpr.done = 0 ∧
        c.state.tcpr.rest = List.replicate (fresh 3).state.tcpr.rest.length 0) :=
  ⟨(connection_create_idempotent (run_creates [] creates_same_hard) (some (fresh 3))
      0x0900000a 20480 99 99 0x0500000a 40975 0).1 (by decide),
   (connection_create_idempotent [] (some (fresh 3))
      0x0900000a 20480 99 99 0x0500000a 40975 0).2.1 (by simp) (fresh 3) rfl⟩

/-! ## C4: removal -/

theorem list_del_eq_filter (ptr : Nat) (connections : List connection)
    (hnd : (connections.map (fun e => e.ptr)).Nodup) :
    list_del ptr connections = connections.filter (fun e => decide (e.ptr ≠ ptr)) := by
  induction connections with
  | nil => rfl
  | cons e es ih =>
    rw [List.map_cons, List.nodup_cons] at hnd
    by_cases h : e.ptr = ptr
    · have hes : es.filter (fun x => decide (x.ptr ≠ ptr)) = es := by
        rw [List.filter_eq_self]
        intro x hx
        have : x.ptr ≠ ptr := by
          intro hxp
          apply hnd.1
          rw [h, ← hxp]
          exact List.mem_map_of_mem (fun e => e.ptr) hx
        simpa using this
      show (if e.ptr = ptr then es else e :: list_del ptr es) = _
      rw [if_pos h, List.filter_cons_of_neg (by simp [h]), hes]
    · show (if e.ptr = ptr then es else e :: list_del ptr es) = _
      rw [if_neg h, List.filter_cons_of_pos (by simp [h]), ih hnd.2]

theorem ptr_eq_iff_of_nodup (connections : List connection)
    (hnd : (connections.map (fun e => e.ptr)).Nodup) (a b : connection)
    (ha : a ∈ connections) (hb : b ∈ connections) : a.ptr = b.ptr ↔ a = b := by
  constructor
  · intro h
    exact List.inj_on_of_nodup_map hnd ha hb h
  · intro h; rw [h]

/-- C4: in a table whose nodes have distinct addresses and which contains `c`,
after `connection_done c` the entry `c` is no longer in the table, no entry at
its address is, neither `lookup_internal` nor `lookup_external` returns it for
any key, and the table is the old one with exactly `c` taken out: every other
entry is still there, unchanged and in the same order. -/
theorem connection_done_hides (connections : List connection) (c : connection)
    (hnd : (connections.map (fun e => e.ptr)).Nodup) (hc : c ∈ connections) :
    c ∉ connection_done connections c ∧
    (∀ e ∈ connection_done connections c, e.ptr ≠ c.ptr) ∧
    (∀ pa pp a p ns, lookup_internal (connection_done connections c) pa pp a p ns ≠ some c) ∧
    (∀ pa pp a p ns, lookup_external (connection_done connections c) pa pp a p ns ≠ some c) ∧
    connection_done connections c = connections.filter (fun e => decide (e ≠ c)) ∧
    (connection_done connections c).length + 1 = connections.length := by
  have hf : connection_done connections c
      = connections.filter (fun e => decide (e.ptr ≠ c.ptr)) :=
    list_del_eq_filter c.ptr connections hnd
  have hnot : c ∉ connection_done connections c := by
    rw [hf]; simp
  refine ⟨hnot, ?_, ?_, ?_, ?_, ?_⟩
  · intro e he
    rw [hf] at he
    simpa using (List.mem_filter.1 he).2
  · intro pa pp a p ns h
    exact hnot (lookup_internal_some _ _ _ _ _ _ c h).1
  · intro pa pp a p ns h
    exact hnot (lookup_external_some _ _ _ _ _ _ c h).1
  · rw [hf]
    apply List.filter_congr
    intro e he
    have := ptr_eq_iff_of_nodup connections hnd e c he hc
    simp [this]
  · rw [hf]
    have h1 : connections.filter (fun e => decide (e.ptr ≠ c.ptr))
        = connections.filter (fun e => decide (e ≠ c)) := by
      apply List.filter_congr
      intro e he
      have := ptr_eq_iff_of_nodup connections hnd e c he hc
      simp [this]
    have hnd2 : connections.Nodup := List.Nodup.of_map _ hnd
    rw [h1]
    have h2 : connections.filter (fun e => decide (e ≠ c)) = connections.erase c := by
      rw [List.Nodup.erase_eq_filter hnd2]
      apply List.filter_congr
      intro e _
      by_cases hh : e = c <;> simp [hh]
    rw [h2, List.length_erase_of_mem hc]
    have : 0 < connections.length := List.length_pos_of_mem hc
    omega

/-- C4, witness: removing the older of the two entries of a table. -/
theorem connection_done_hides_witness :
    ∃ c ∈ run_creates [] creates_same_hard,
      c.ptr = 1 ∧
      c ∉ connection_done (run_creates [] creates_same_hard) c ∧
      (connection_done (run_creates [] creates_same_hard) c).length + 1
        = (run_creates [] creates_same_hard).length :=
  ⟨{ ptr := 1,
     state := { address := 0x0500000a, peer_address := 0x0900000a,
                tcpr := { hard := { port := 40975, peer := { port := 20480 } }, port := 40975,
                          done := 0, rest := [0, 0, 0, 0] } },
     net_ns := 0, address := addr_203_0_113_1 },
   by decide, rfl,
   (connection_done_hides (run_creates [] creates_same_hard) _ (by decide) (by decide)).1,
   (connection_done_hides (run_creates [] creates_same_hard) _ (by decide)
     (by decide)).2.2.2.2.2⟩

/-! ## C5 and C6: the application pipeline -/

/-- C5 (as amended): for a TCP segment without the ACK flag from S:sp to D:dp in
namespace N that matches no entry under the application view, if the
allocation succeeds then `tcpr_tg_application` creates, before it invokes the
filter, a new entry with hard address = the configured address, hard port =
sp, soft address = S, soft port = sp, peer address = D, peer port = dp and
namespace N: the filter is the first state-machine call, it receives that
entry, and the table at that moment is the old table with that entry in
front.  If the allocation fails the packet is dropped and nothing else
happens. -/
theorem application_first_packet (m : tcpr_machine) (env : net_env)
    (connections : List connection) (kmalloc : Option connection) (skb : sk_buff)
    (address ns : Nat) (tcp : tcphdr) (data : List Nat)
    (hp : skb.ip.protocol = IPPROTO_TCP) (hb : skb.body = transport.tcp tcp data)
    (hack : tcp.ack = 0)
    (hl : lookup_internal connections skb.ip.daddr tcp.dest skb.ip.saddr tcp.source ns
      = none) :
    (∀ o, kmalloc = some o →
      ∃ c rest, (tcpr_tg_application m env connections kmalloc skb address ns).calls
          = { op := tcpr_op.filter, c := c, connections := c :: connections } :: rest ∧
        c.ptr = o.ptr ∧ c.address = address ∧ c.state.tcpr.hard.port = tcp.source ∧
        c.state.address = skb.ip.saddr ∧ c.state.tcpr.port = tcp.source ∧
        c.state.peer_address = skb.ip.daddr ∧ c.state.tcpr.hard.peer.port = tcp.dest ∧
        c.net_ns = ns) ∧
    (kmalloc = none →
      tcpr_tg_application m env connections kmalloc skb address ns
        = drop_now skb connections) := by
  constructor
  · intro o ho
    subst ho
    have hrun : tcpr_tg_application m env connections (some o) skb address ns
        = tcpr_tg_application_locked m env
            (created o skb.ip.daddr tcp.dest address tcp.source skb.ip.saddr tcp.source ns
              :: connections) skb tcp data
            (created o skb.ip.daddr tcp.dest address tcp.source skb.ip.saddr tcp.source ns) := by
      unfold tcpr_tg_application
      rw [if_neg (by simp [hp]), hb]
      simp only [hl, hack]
      rw [connection_create_miss _ _ _ _ _ _ _ _ _ hl]
      simp
    obtain ⟨rest, hcalls, _⟩ := application_locked_calls m env _ skb tcp data _
    rw [hrun]
    exact ⟨_, rest, hcalls, rfl, rfl, rfl, rfl, rfl, rfl, rfl, rfl⟩
  · intro hk
    subst hk
    unfold tcpr_tg_application
    rw [if_neg (by simp [hp]), hb]
    simp only [hl, hack]
    rw [connection_create_fail _ _ _ _ _ _ _ _ hl]
    simp

/-- C5, witness: the SYN from 10.0.0.5:4000 to 10.0.0.9:80 with configured
address 203.0.113.1 on an empty table. -/
theorem application_first_packet_witness :
    ∃ c rest, (tcpr_tg_application (machine_fixed tcpr_verdict.TCPR_DELIVER) env_ok []
          (some (fresh 1)) skb_sample addr_203_0_113_1 0).calls
        = { op := tcpr_op.filter, c := c, connections := [c] } :: rest ∧
      c.ptr = (fresh 1).ptr ∧ c.address = addr_203_0_113_1 ∧
      c.state.tcpr.hard.port = tcp_sample.source ∧
      c.state.address = skb_sample.ip.saddr ∧ c.state.tcpr.port = tcp_sample.source ∧
      c.state.peer_address = skb_sample.ip.daddr ∧
      c.state.tcpr.hard.peer.port = tcp_sample.dest ∧ c.net_ns = 0 :=
  (application_first_packet (machine_fixed tcpr_verdict.TCPR_DELIVER) env_ok []
    (some (fresh 1)) skb_sample addr_203_0_113_1 0 tcp_sample [] rfl rfl rfl rfl).1
    (fresh 1) rfl

/-- C5, counterexample: the same SYN when the allocation fails: the pipeline
returns drop, the table stays empty and the filter is never invoked. -/
theorem application_first_packet_no_memory :
    skb_sample.ip.protocol = IPPROTO_TCP ∧ tcp_sample.ack = 0 ∧
    lookup_internal [] skb_sample.ip.daddr tcp_sample.dest skb_sample.ip.saddr
      tcp_sample.source 0 = none ∧
    (tcpr_tg_application (machine_fixed tcpr_verdict.TCPR_DELIVER) env_ok [] none
        skb_sample addr_203_0_113_1 0).connections = [] ∧
    (tcpr_tg_application (machine_fixed tcpr_verdict.TCPR_DELIVER) env_ok [] none
        skb_sample addr_203_0_113_1 0).calls = [] ∧
    (tcpr_tg_application (machine_fixed tcpr_verdict.TCPR_DELIVER) env_ok [] none
        skb_sample addr_203_0_113_1 0).verdict = NF_DROP := by
  decide

/-- C6: whenever `tcpr_tg_application` processes a TCP segment and the filter,
invoked on connection `call.c`, answers DELIVER, the packet is accepted with
its source address equal to the connection's hard address, every other member
of the IPv4 header except the checksum and the options unchanged, the
transport part as the filter left it except for the TCP checksum, nothing
injected, the IPv4 checksum validating if it validated before, and the TCP
checksum validating under the new source address if it validated, after the
filter call, under the original one (header members being within the range of
their C types). -/
theorem application_deliver (m : tcpr_machine) (env : net_env)
    (connections : List connection) (kmalloc : Option connection) (skb : sk_buff)
    (address ns : Nat) (tcp : tcphdr) (data : List Nat) (call : tcpr_call)
    (hp : skb.ip.protocol = IPPROTO_TCP) (hb : skb.body = transport.tcp tcp data)
    (hcall : call ∈ (tcpr_tg_application m env connections kmalloc skb address ns).calls)
    (hop : call.op = tcpr_op.filter)
    (hv : (m.tcpr_filter call.c.state.tcpr tcp data (segment_size skb.ip)).verdict
      = tcpr_verdict.TCPR_DELIVER) :
    (tcpr_tg_application m env connections kmalloc skb address ns).verdict = NF_ACCEPT ∧
    (tcpr_tg_application m env connections kmalloc skb address ns).skb.ip.saddr
      = call.c.address ∧
    (tcpr_tg_application m env connections kmalloc skb address ns).skb.ip
      = { skb.ip with
          saddr := call.c.address,
          check := (tcpr_tg_application m env connections kmalloc skb address ns).skb.ip.check } ∧
    (tcpr_tg_application m env connections kmalloc skb address ns).skb.opts = skb.opts ∧
    (tcpr_tg_application m env connections kmalloc skb address ns).injected = [] ∧
    (∃ tcp1,
      (tcpr_tg_application m env connections kmalloc skb address ns).skb.body
        = transport.tcp tcp1
            (m.tcpr_filter call.c.state.tcpr tcp data (segment_size skb.ip)).data ∧
      tcp1 = { (m.tcpr_filter call.c.state.tcpr tcp data (segment_size skb.ip)).tcp with
               check := tcp1.check } ∧
      (skb.ip.wf → words16 skb.opts → call.c.address < 4294967296 →
        ip_check_ok skb.ip skb.opts →
        ip_check_ok (tcpr_tg_application m env connections kmalloc skb address ns).skb.ip
          skb.opts) ∧
      (skb.ip.wf → call.c.address < 4294967296 →
        (m.tcpr_filter call.c.state.tcpr tcp data (segment_size skb.ip)).tcp.wf →
        words16 (m.tcpr_filter call.c.state.tcpr tcp data (segment_size skb.ip)).data →
        tcp_check_ok skb.ip
          (m.tcpr_filter call.c.state.tcpr tcp data (segment_size skb.ip)).tcp
          (m.tcpr_filter call.c.state.tcpr tcp data (segment_size skb.ip)).data →
        tcp_check_ok (tcpr_tg_application m env connections kmalloc skb address ns).skb.ip
          tcp1 (m.tcpr_filter call.c.state.tcpr tcp data (segment_size skb.ip)).data)) := by
  rcases application_reaches m env connections kmalloc skb address ns tcp data hp hb with
    hr | ⟨t, c, hr⟩
  · rw [hr] at hcall
    simp [drop_now] at hcall
  · rw [hr] at hcall ⊢
    obtain ⟨rest, hcalls, hrest⟩ := application_locked_calls m env t skb tcp data c
    rw [hcalls] at hcall
    have hc : call.c = c := by
      rcases List.mem_cons.1 hcall with h | h
      · rw [h]
      · exact absurd hop (hrest call h)
    rw [hc] at hv ⊢
    rw [application_locked_deliver m env t skb tcp data c hv]
    have hpos : 0 < skb.ip.version ∨ 0 < skb.ip.protocol := by
      right; rw [hp]; decide
    refine ⟨rfl, rfl, rfl, rfl, rfl, _, rfl, rfl, ?_, ?_⟩
    · intro hip hopts hca hok
      exact repair_ip_valid skb.ip skb.opts addr_field.saddr c.address hip hopts hpos hca hok
    · intro hip hca htcp hdata hok
      exact repair_tcp_valid skb.ip _ _ addr_field.saddr c.address
        (repaired skb.ip.check skb.ip.saddr c.address) hip htcp hdata hca
        (repaired_lt _ _ _) hok

/-- C6, witness: the sample SYN delivered through the entry created for it: the
source becomes 203.0.113.1 and both checksums validate. -/
theorem application_deliver_witness :
    (tcpr_tg_application (machine_fixed tcpr_verdict.TCPR_DELIVER) env_ok []
        (some (fresh 1)) skb_sample addr_203_0_113_1 0).verdict = NF_ACCEPT ∧
    (tcpr_tg_application (machine_fixed tcpr_verdict.TCPR_DELIVER) env_ok []
        (some (fresh 1)) skb_sample addr_203_0_113_1 0).skb.ip.saddr = addr_203_0_113_1 ∧
    ip_check_ok (tcpr_tg_application (machine_fixed tcpr_verdict.TCPR_DELIVER) env_ok []
        (some (fresh 1)) skb_sample addr_203_0_113_1 0).skb.ip [] :=
  have h := application_deliver (machine_fixed tcpr_verdict.TCPR_DELIVER) env_ok []
    (some (fresh 1)) skb_sample addr_203_0_113_1 0 tcp_sample []
    { op := tcpr_op.filter, c := entry_sample, connections := [entry_sample] }
    rfl rfl (by decide) rfl rfl
  ⟨h.1, h.2.1,
    (Exists.choose_spec h.2.2.2.2.2).2.2.1 (by decide) (by decide) (by decide) (by decide)⟩

/-! ## C7 and C8: the peer pipeline -/

/-- C7 (as amended): for a TCP segment without the ACK flag from P:pp to A:ap in
namespace N that matches no entry under the peer view, `tcpr_tg_peer`
(a) returns drop and leaves the table unchanged when no placeholder
(peer 0:0, hard A:ap, namespace N) exists; (b) when a placeholder exists, no
entry matches the application view (P:pp, the placeholder's soft
address and port, N) and the allocation succeeds, it submits to filter-peer a new
entry whose peer is P:pp, whose hard address and port are A:ap and whose soft
address and port are the placeholder's; (c) when a placeholder exists and an
entry matches that application view, that entry is submitted instead and
none is created; (d) when the allocation fails the packet is dropped. -/
theorem peer_first_contact (m : tcpr_machine) (env : net_env)
    (connections : List connection) (kmalloc : Option connection) (skb : sk_buff)
    (ns : Nat) (tcp : tcphdr) (data : List Nat)
    (hp : skb.ip.protocol = IPPROTO_TCP) (hb : skb.body = transport.tcp tcp data)
    (hack : tcp.ack = 0)
    (hl : lookup_external connections skb.ip.saddr tcp.source skb.ip.daddr tcp.dest ns
      = none) :
    (lookup_external connections 0 0 skb.ip.daddr tcp.dest ns = none →
      tcpr_tg_peer m env connections kmalloc skb ns = drop_now skb connections) ∧
    (∀ p, lookup_external connections 0 0 skb.ip.daddr tcp.dest ns = some p →
      lookup_internal connections skb.ip.saddr tcp.source p.state.address p.state.tcpr.port ns
        = none →
      ∀ o, kmalloc = some o →
        ∃ c rest, (tcpr_tg_peer m env connections kmalloc skb ns).calls
            = { op := tcpr_op.filter_peer, c := c, connections := c :: connections } :: rest ∧
          c.ptr = o.ptr ∧ c.state.peer_address = skb.ip.saddr ∧
          c.state.tcpr.hard.peer.port = tcp.source ∧ c.address = skb.ip.daddr ∧
          c.state.tcpr.hard.port = tcp.dest ∧ c.state.address = p.state.address ∧
          c.state.tcpr.port = p.state.tcpr.port ∧ c.net_ns = ns) ∧
    (∀ p e, lookup_external connections 0 0 skb.ip.daddr tcp.dest ns = some p →
      lookup_internal connections skb.ip.saddr tcp.source p.state.address p.state.tcpr.port ns
        = some e →
      ∃ rest, (tcpr_tg_peer m env connections kmalloc skb ns).calls
        = { op := tcpr_op.filter_peer, c := e, connections := connections } :: rest) ∧
    (∀ p, lookup_external connections 0 0 skb.ip.daddr tcp.dest ns = some p →
      lookup_internal connections skb.ip.saddr tcp.source p.state.address p.state.tcpr.port ns
        = none →
      kmalloc = none →
      tcpr_tg_peer m env connections kmalloc skb ns = drop_now skb connections) := by
  refine ⟨?_, ?_, ?_, ?_⟩
  · intro hph
    unfold tcpr_tg_peer
    rw [if_neg (by simp [hp]), hb]
    simp only [hl, hack, hph]
    simp
  · intro p hph hin o ho
    subst ho
    have hrun : tcpr_tg_peer m env connections (some o) skb ns
        = tcpr_tg_peer_locked m env
            (created o skb.ip.saddr tcp.source skb.ip.daddr tcp.dest p.state.address
              p.state.tcpr.port ns :: connections) skb tcp data
            (created o skb.ip.saddr tcp.source skb.ip.daddr tcp.dest p.state.address
              p.state.tcpr.port ns) := by
      unfold tcpr_tg_peer
      rw [if_neg (by simp [hp]), hb]
      simp only [hl, hack, hph]
      rw [connection_create_miss _ _ _ _ _ _ _ _ _ hin]
      simp
    obtain ⟨rest, hcalls, _⟩ := peer_locked_calls m env
      (created o skb.ip.saddr tcp.source skb.ip.daddr tcp.dest p.state.address
        p.state.tcpr.port ns :: connections) skb tcp data
      (created o skb.ip.saddr tcp.source skb.ip.daddr tcp.dest p.state.address
        p.state.tcpr.port ns)
    rw [hrun]
    exact ⟨_, rest, hcalls, rfl, rfl, rfl, rfl, rfl, rfl, rfl, rfl⟩
  · intro p e hph hin
    have hrun : tcpr_tg_peer m env connections kmalloc skb ns
        = tcpr_tg_peer_locked m env connections skb tcp data e := by
      unfold tcpr_tg_peer
      rw [if_neg (by simp [hp]), hb]
      simp only [hl, hack, hph]
      rw [connection_create_hit _ _ _ _ _ _ _ _ _ e hin]
      simp
    obtain ⟨rest, hcalls, _⟩ := peer_locked_calls m env connections skb tcp data e
    rw [hrun]
    exact ⟨rest, hcalls⟩
  · intro p hph hin hk
    subst hk
    unfold tcpr_tg_peer
    rw [if_neg (by simp [hp]), hb]
    simp only [hl, hack, hph]
    rw [connection_create_fail _ _ _ _ _ _ _ _ hin]
    simp

/-- C7, witness: a SYN to 203.0.113.1:80 with only the placeholder for
192.168.1.20:8080 in the table: the entry submitted to filter-peer inherits
that soft target. -/
theorem peer_first_contact_witness :
    ∃ c rest, (tcpr_tg_peer (machine_fixed tcpr_verdict.TCPR_DROP) env_ok
          [placeholder_sample] (some (fresh 1)) skb_peer_sample 0).calls
        = { op := tcpr_op.filter_peer, c := c, connections := [c, placeholder_sample] }
            :: rest ∧
      c.ptr = 1 ∧ c.state.peer_address = addr_198_51_100_7 ∧
      c.state.tcpr.hard.peer.port = 45845 ∧ c.address = addr_203_0_113_1 ∧
      c.state.tcpr.hard.port = 20480 ∧ c.state.address = addr_192_168_1_20 ∧
      c.state.tcpr.port = 36895 ∧ c.net_ns = 0 :=
  (peer_first_contact (machine_fixed tcpr_verdict.TCPR_DROP) env_ok [placeholder_sample]
    (some (fresh 1)) skb_peer_sample 0 _ [] rfl rfl rfl (by decide)).2.1
    placeholder_sample (by decide) (by decide) (fresh 1) rfl

/-- C7, counterexample: the same SYN when the table also holds a flow of the same
peer to 203.0.113.1:443 with the same soft target: `connection_create` hands
back that flow, so filter-peer receives a connection whose hard port is 443,
not the segment's destination port 80, and no entry is created.  And when the
allocation fails, filter-peer is not invoked at all. -/
theorem peer_first_contact_reuses_flow :
    skb_peer_sample.ip.protocol = IPPROTO_TCP ∧
    lookup_external [placeholder_sample, other_flow_sample] addr_198_51_100_7 45845
      addr_203_0_113_1 20480 0 = none ∧
    lookup_external [placeholder_sample, other_flow_sample] 0 0 addr_203_0_113_1 20480 0
      = some placeholder_sample ∧
    (tcpr_tg_peer (machine_fixed tcpr_verdict.TCPR_DROP) env_ok
        [placeholder_sample, other_flow_sample] (some (fresh 1)) skb_peer_sample 0).calls
      = [{ op := tcpr_op.filter_peer, c := other_flow_sample,
           connections := [placeholder_sample, other_flow_sample] }] ∧
    other_flow_sample.state.tcpr.hard.port = 47873 ∧
    (tcpr_tg_peer (machine_fixed tcpr_verdict.TCPR_DROP) env_ok
        [placeholder_sample, other_flow_sample] (some (fresh 1)) skb_peer_sample 0).connections
      = [placeholder_sample, other_flow_sample] ∧
    (tcpr_tg_peer (machine_fixed tcpr_verdict.TCPR_DROP) env_ok
        [placeholder_sample] none skb_peer_sample 0).calls = [] := by
  decide

/-- C8: whenever `tcpr_tg_peer` processes a TCP segment and filter-peer, invoked
on connection `call.c`, answers DELIVER, exactly one datagram is handed to
`inject_ip`: the packet buffer with its destination address replaced by the
connection's soft address and with the IPv4 and TCP checksums written by
`fix_checksums`, which validate if they validated for the hard destination
(header members being within the range of their C types); filter-peer is the
only state-machine call, so no control segment is built, and the pipeline
returns drop. -/
theorem peer_deliver (m : tcpr_machine) (env : net_env)
    (connections : List connection) (kmalloc : Option connection) (skb : sk_buff)
    (ns : Nat) (tcp : tcphdr) (data : List Nat) (call : tcpr_call)
    (hp : skb.ip.protocol = IPPROTO_TCP) (hb : skb.body = transport.tcp tcp data)
    (hcall : call ∈ (tcpr_tg_peer m env connections kmalloc skb ns).calls)
    (hop : call.op = tcpr_op.filter_peer)
    (hv : (m.tcpr_filter_peer call.c.state.tcpr tcp data (segment_size skb.ip)).verdict
      = tcpr_verdict.TCPR_DELIVER) :
    (tcpr_tg_peer m env connections kmalloc skb ns).verdict = NF_DROP ∧
    (tcpr_tg_peer m env connections kmalloc skb ns).calls = [call] ∧
    ∃ d, (tcpr_tg_peer m env connections kmalloc skb ns).injected = [inject_ip env d] ∧
      (tcpr_tg_peer m env connections kmalloc skb ns).injected.map (fun j => j.handed) = [d] ∧
      d.ip = { skb.ip with
        daddr := call.c.state.address,
        check := (fix_checksums skb.ip
          (m.tcpr_filter_peer call.c.state.tcpr tcp data (segment_size skb.ip)).tcp
          skb.ip.daddr call.c.state.address).1.check } ∧
      d.opts = skb.opts ∧
      d.body = transport.tcp
        { (m.tcpr_filter_peer call.c.state.tcpr tcp data (segment_size skb.ip)).tcp with
          check := (fix_checksums skb.ip
            (m.tcpr_filter_peer call.c.state.tcpr tcp data (segment_size skb.ip)).tcp
            skb.ip.daddr call.c.state.address).2.check }
        (m.tcpr_filter_peer call.c.state.tcpr tcp data (segment_size skb.ip)).data ∧
      (skb.ip.wf → words16 skb.opts → call.c.state.address < 4294967296 →
        ip_check_ok skb.ip skb.opts → ip_check_ok d.ip d.opts) ∧
      (skb.ip.wf → call.c.state.address < 4294967296 →
        (m.tcpr_filter_peer call.c.state.tcpr tcp data (segment_size skb.ip)).tcp.wf →
        words16 (m.tcpr_filter_peer call.c.state.tcpr tcp data (segment_size skb.ip)).data →
        tcp_check_ok skb.ip
          (m.tcpr_filter_peer call.c.state.tcpr tcp data (segment_size skb.ip)).tcp
          (m.tcpr_filter_peer call.c.state.tcpr tcp data (segment_size skb.ip)).data →
        tcp_check_ok d.ip
          { (m.tcpr_filter_peer call.c.state.tcpr tcp data (segment_size skb.ip)).tcp with
            check := (fix_checksums skb.ip
              (m.tcpr_filter_peer call.c.state.tcpr tcp data (segment_size skb.ip)).tcp
              skb.ip.daddr call.c.state.address).2.check }
          (m.tcpr_filter_peer call.c.state.tcpr tcp data (segment_size skb.ip)).data) := by
  rcases peer_reaches m env connections kmalloc skb ns tcp data hp hb with hr | ⟨t, c, hr⟩
  · rw [hr] at hcall
    simp [drop_now] at hcall
  · rw [hr] at hcall ⊢
    obtain ⟨rest, hcalls, hrest⟩ := peer_locked_calls m env t skb tcp data c
    rw [hcalls] at hcall
    have hcl : call = { op := tcpr_op.filter_peer, c := c, connections := t } := by
      rcases List.mem_cons.1 hcall with h | h
      · exact h
      · exact absurd hop (hrest call h)
    subst hcl
    simp only at hv ⊢
    rw [peer_locked_deliver m env t skb tcp data c hv]
    have hpos : 0 < skb.ip.version ∨ 0 < skb.ip.protocol := by
      right; rw [hp]; decide
    refine ⟨rfl, rfl, _, rfl, ?_, rfl, rfl, rfl, ?_, ?_⟩
    · simp [inject_ip_handed]
    · intro hip hopts hca hok
      exact repair_ip_valid skb.ip skb.opts addr_field.daddr c.state.address hip hopts hpos
        hca hok
    · intro hip hca htcp hdata hok
      exact repair_tcp_valid skb.ip _ _ addr_field.daddr c.state.address
        (repaired skb.ip.check skb.ip.daddr c.state.address) hip htcp hdata hca
        (repaired_lt _ _ _) hok

/-- C8, witness: the SYN to 203.0.113.1:80 delivered through the entry created
from the placeholder: one datagram is handed over, addressed to
192.168.1.20, with validating checksums. -/
theorem peer_deliver_witness :
    ∃ d, (tcpr_tg_peer (machine_fixed tcpr_verdict.TCPR_DELIVER) env_ok
          [placeholder_sample] (some (fresh 1)) skb_peer_sample 0).injected
        = [inject_ip env_ok d] ∧
      d.ip.daddr = addr_192_168_1_20 ∧ ip_check_ok d.ip d.opts := by
  obtain ⟨_, _, d, hinj, _, hipd, _, _, hok, _⟩ :=
    peer_deliver (machine_fixed tcpr_verdict.TCPR_DELIVER) env_ok
      [placeholder_sample] (some (fresh 1)) skb_peer_sample 0 _ []
      { op := tcpr_op.filter_peer,
        c := created (fresh 1) addr_198_51_100_7 45845 addr_203_0_113_1 20480
          addr_192_168_1_20 36895 0,
        connections := [created (fresh 1) addr_198_51_100_7 45845 addr_203_0_113_1 20480
          addr_192_168_1_20 36895 0, placeholder_sample] }
      rfl rfl (by decide) rfl rfl
  exact ⟨d, hinj, by rw [hipd]; rfl, hok (by decide) (by decide) (by decide) (by decide)⟩

/-! ## C9 and C10: the update pipeline without a matching entry -/

theorem store_fresh (t : List connection) (c : connection)
    (h : ∀ e ∈ t, e.ptr ≠ c.ptr) : store (c :: t) c = c :: t := by
  unfold store
  rw [List.map_cons, if_pos rfl]
  congr 1
  conv => rhs; rw [← List.map_id t]
  apply List.map_congr_left
  intro e he
  rw [if_neg (h e he)]
  rfl

/-- C9: for a UDP update packet whose snapshot matches no entry under the peer
view (snapshot peer address and port, configured hard address, snapshot hard
port, namespace) and whose snapshot soft port is 0, `tcpr_tg_update` hands
exactly one datagram to `inject_ip`; its snapshot is the received snapshot,
its IPv4 source and destination and its UDP source and destination ports are
those of the received packet swapped; the table and the packet are left as
they are, no state-machine operation is invoked, and the result is drop. -/
theorem update_mirror (m : tcpr_machine) (env : net_env)
    (connections : List connection) (kmalloc : Option connection) (skb : sk_buff)
    (address ns : Nat) (udp : udphdr) (update : tcpr_ip4)
    (hp : skb.ip.protocol = IPPROTO_UDP) (hb : skb.body = transport.udp udp update)
    (hl : lookup_external connections update.peer_address update.tcpr.hard.peer.port
      address update.tcpr.hard.port ns = none)
    (hport : update.tcpr.port = 0) :
    (tcpr_tg_update m env connections kmalloc skb address ns).verdict = NF_DROP ∧
    (tcpr_tg_update m env connections kmalloc skb address ns).connections = connections ∧
    (tcpr_tg_update m env connections kmalloc skb address ns).calls = [] ∧
    (tcpr_tg_update m env connections kmalloc skb address ns).skb = skb ∧
    ∃ d pudp,
      (tcpr_tg_update m env connections kmalloc skb address ns).injected = [inject_ip env d] ∧
      (tcpr_tg_update m env connections kmalloc skb address ns).injected.map
        (fun j => j.handed) = [d] ∧
      d.body = transport.udp pudp update ∧
      d.ip.saddr = skb.ip.daddr ∧ d.ip.daddr = skb.ip.saddr ∧
      pudp.source = udp.dest ∧ pudp.dest = udp.source := by
  have hrun : tcpr_tg_update m env connections kmalloc skb address ns
      = { verdict := NF_DROP, skb := skb, connections := connections,
          injected := [inject_update m env skb.ip udp update], calls := [] } := by
    unfold tcpr_tg_update
    rw [if_neg (by simp [hp]), hb]
    simp only [hl, hport]
    simp
  rw [hrun]
  refine ⟨rfl, rfl, rfl, rfl, _, _, rfl, ?_, rfl, rfl, rfl, rfl, rfl⟩
  simp [inject_update, inject_ip_handed]

/-- C9, witness: the snapshot without a soft endpoint arriving on an empty
table. -/
theorem update_mirror_witness :
    (tcpr_tg_update (machine_fixed tcpr_verdict.TCPR_DELIVER) env_ok [] (some (fresh 1))
        (skb_update_sample update_unset_sample) addr_203_0_113_1 0).connections = [] ∧
    ∃ d pudp,
      (tcpr_tg_update (machine_fixed tcpr_verdict.TCPR_DELIVER) env_ok [] (some (fresh 1))
        (skb_update_sample update_unset_sample) addr_203_0_113_1 0).injected.map
        (fun j => j.handed) = [d] ∧
      d.body = transport.udp pudp update_unset_sample ∧
      d.ip.saddr = 0x0500000a ∧ d.ip.daddr = 0x0900000a ∧
      pudp.source = 47138 ∧ pudp.dest = 24862 := by
  obtain ⟨_, ht, _, _, d, pudp, _, hd, hbody, h1, h2, h3, h4⟩ :=
    update_mirror (machine_fixed tcpr_verdict.TCPR_DELIVER) env_ok [] (some (fresh 1))
      (skb_update_sample update_unset_sample) addr_203_0_113_1 0 udp_sample
      update_unset_sample rfl rfl rfl rfl
  exact ⟨ht, d, pudp, hd, hbody, h1, h2, h3, h4⟩

theorem update_locked_calls (m : tcpr_machine) (env : net_env)
    (t : List connection) (skb : sk_buff) (udp : udphdr) (update : tcpr_ip4)
    (c : connection) :
    ((tcpr_tg_update_locked m env t skb udp update c).calls = [] ∧
      (tcpr_tg_update_locked m env t skb udp update c).connections
        = store t (if update.address ≠ 0 then
            { c with state := { c.state with address := update.address } } else c)) ∨
    ∃ rest, (tcpr_tg_update_locked m env t skb udp update c).calls
      = { op := tcpr_op.update,
          c := (if update.address ≠ 0 then
            { c with state := { c.state with address := update.address } } else c),
          connections := store t (if update.address ≠ 0 then
            { c with state := { c.state with address := update.address } } else c) }
        :: rest := by
  unfold tcpr_tg_update_locked
  simp only
  split_ifs <;> simp

theorem created_adopts (o : connection) (update : tcpr_ip4) (ha ns : Nat) :
    (if update.address ≠ 0 then
        { (created o update.peer_address update.tcpr.hard.peer.port ha update.tcpr.hard.port
            update.address update.tcpr.port ns) with
          state := { (created o update.peer_address update.tcpr.hard.peer.port ha
            update.tcpr.hard.port update.address update.tcpr.port ns).state with
            address := update.address } }
      else created o update.peer_address update.tcpr.hard.peer.port ha update.tcpr.hard.port
            update.address update.tcpr.port ns)
      = created o update.peer_address update.tcpr.hard.peer.port ha update.tcpr.hard.port
            update.address update.tcpr.port ns := by
  split <;> rfl

theorem update_locked_created (m : tcpr_machine) (env : net_env)
    (connections : List connection) (skb : sk_buff) (udp : udphdr) (update : tcpr_ip4)
    (o : connection) (ha ns : Nat) (hfresh : ∀ e ∈ connections, e.ptr ≠ o.ptr) :
    (∀ call rest,
      (tcpr_tg_update_locked m env
        (created o update.peer_address update.tcpr.hard.peer.port ha update.tcpr.hard.port
          update.address update.tcpr.port ns :: connections) skb udp update
        (created o update.peer_address update.tcpr.hard.peer.port ha update.tcpr.hard.port
          update.address update.tcpr.port ns)).calls = call :: rest →
      call = { op := tcpr_op.update,
               c := created o update.peer_address update.tcpr.hard.peer.port ha
                 update.tcpr.hard.port update.address update.tcpr.port ns,
               connections := created o update.peer_address update.tcpr.hard.peer.port ha
                 update.tcpr.hard.port update.address update.tcpr.port ns :: connections }) ∧
    ((tcpr_tg_update_locked m env
        (created o update.peer_address update.tcpr.hard.peer.port ha update.tcpr.hard.port
          update.address update.tcpr.port ns :: connections) skb udp update
        (created o update.peer_address update.tcpr.hard.peer.port ha update.tcpr.hard.port
          update.address update.tcpr.port ns)).calls = [] →
      (tcpr_tg_update_locked m env
        (created o update.peer_address update.tcpr.hard.peer.port ha update.tcpr.hard.port
          update.address update.tcpr.port ns :: connections) skb udp update
        (created o update.peer_address update.tcpr.hard.peer.port ha update.tcpr.hard.port
          update.address update.tcpr.port ns)).connections
        = created o update.peer_address update.tcpr.hard.peer.port ha update.tcpr.hard.port
            update.address update.tcpr.port ns :: connections) := by
  have hst := store_fresh connections
    (created o update.peer_address update.tcpr.hard.peer.port ha update.tcpr.hard.port
      update.address update.tcpr.port ns) hfresh
  have hcalls := update_locked_calls m env
    (created o update.peer_address update.tcpr.hard.peer.port ha update.tcpr.hard.port
      update.address update.tcpr.port ns :: connections) skb udp update
    (created o update.peer_address update.tcpr.hard.peer.port ha update.tcpr.hard.port
      update.address update.tcpr.port ns)
  rw [created_adopts, hst] at hcalls
  rcases hcalls with ⟨h1, h2⟩ | ⟨rest0, h⟩
  · constructor
    · intro call rest hc
      rw [h1] at hc
      exact absurd hc (by simp)
    · intro _
      exact h2
  · constructor
    · intro call rest hc
      rw [h] at hc
      exact (List.cons.inj hc).1.symm
    · intro hc
      rw [h] at hc
      exact absurd hc (by simp)

/-- C10 (as amended): for a UDP update packet whose snapshot matches no entry
under the peer view and whose snapshot soft port is nonzero: if moreover no
entry matches the application view (snapshot peer address and port, snapshot
soft address and port, namespace) and the allocation succeeds, then
`tcpr_tg_update` creates an entry whose peer address, peer port, hard port,
soft address and soft port are the snapshot's and whose hard address is the
configured address, before any state-machine call: the first call, if there is
one, is the update operation on that entry with the table being the old one
with that entry in front, and if there is none that is the final table.  If
an entry matches that application view, no entry is created and that entry is
processed instead; if the allocation fails the packet is dropped. -/
theorem update_seed (m : tcpr_machine) (env : net_env)
    (connections : List connection) (kmalloc : Option connection) (skb : sk_buff)
    (address ns : Nat) (udp : udphdr) (update : tcpr_ip4)
    (hp : skb.ip.protocol = IPPROTO_UDP) (hb : skb.body = transport.udp udp update)
    (hl : lookup_external connections update.peer_address update.tcpr.hard.peer.port
      address update.tcpr.hard.port ns = none)
    (hport : update.tcpr.port ≠ 0) :
    (lookup_internal connections update.peer_address update.tcpr.hard.peer.port
        update.address update.tcpr.port ns = none →
      ∀ o, kmalloc = some o → (∀ e ∈ connections, e.ptr ≠ o.ptr) →
        ∃ c, c.ptr = o.ptr ∧ c.state.peer_address = update.peer_address ∧
          c.state.tcpr.hard.peer.port = update.tcpr.hard.peer.port ∧
          c.address = address ∧ c.state.tcpr.hard.port = update.tcpr.hard.port ∧
          c.state.address = update.address ∧ c.state.tcpr.port = update.tcpr.port ∧
          c.net_ns = ns ∧
          (∀ call rest,
            (tcpr_tg_update m env connections kmalloc skb address ns).calls = call :: rest →
            call = { op := tcpr_op.update, c := c, connections := c :: connections }) ∧
          ((tcpr_tg_update m env connections kmalloc skb address ns).calls = [] →
            (tcpr_tg_update m env connections kmalloc skb address ns).connections
              = c :: connections)) ∧
    (∀ e, lookup_internal connections update.peer_address update.tcpr.hard.peer.port
        update.address update.tcpr.port ns = some e →
      tcpr_tg_update m env connections kmalloc skb address ns
        = tcpr_tg_update_locked m env connections skb udp update e) ∧
    (lookup_internal connections update.peer_address update.tcpr.hard.peer.port
        update.address update.tcpr.port ns = none →
      kmalloc = none →
      tcpr_tg_update m env connections kmalloc skb address ns = drop_now skb connections) := by
  refine ⟨?_, ?_, ?_⟩
  · intro hin o ho hfresh
    subst ho
    have hrun : tcpr_tg_update m env connections (some o) skb address ns
        = tcpr_tg_update_locked m env
            (created o update.peer_address update.tcpr.hard.peer.port address
              update.tcpr.hard.port update.address update.tcpr.port ns :: connections)
            skb udp update
            (created o update.peer_address update.tcpr.hard.peer.port address
              update.tcpr.hard.port update.address update.tcpr.port ns) := by
      unfold tcpr_tg_update
      rw [if_neg (by simp [hp]), hb]
      simp only [hl, hport]
      rw [connection_create_miss _ _ _ _ _ _ _ _ _ hin]
      simp
    rw [hrun]
    obtain ⟨h1, h2⟩ := update_locked_created m env connections skb udp update o address ns
      hfresh
    exact ⟨created o update.peer_address update.tcpr.hard.peer.port address
      update.tcpr.hard.port update.address update.tcpr.port ns,
      rfl, rfl, rfl, rfl, rfl, rfl, rfl, rfl, h1, h2⟩
  · intro e hin
    unfold tcpr_tg_update
    rw [if_neg (by simp [hp]), hb]
    simp only [hl, hport]
    rw [connection_create_hit _ _ _ _ _ _ _ _ _ e hin]
    simp
  · intro hin hk
    subst hk
    unfold tcpr_tg_update
    rw [if_neg (by simp [hp]), hb]
    simp only [hl, hport]
    rw [connection_create_fail _ _ _ _ _ _ _ _ hin]
    simp

/-- C10, witness: the snapshot naming 192.168.1.20:8080 arriving on an empty
table with configured address 203.0.113.1. -/
theorem update_seed_witness :
    ∃ c, c.ptr = 1 ∧ c.state.peer_address = addr_198_51_100_7 ∧
      c.state.tcpr.hard.peer.port = 45845 ∧ c.address = addr_203_0_113_1 ∧
      c.state.tcpr.hard.port = 20480 ∧ c.state.address = addr_192_168_1_20 ∧
      c.state.tcpr.port = 36895 ∧ c.net_ns = 0 ∧
      (∀ call rest,
        (tcpr_tg_update (machine_fixed tcpr_verdict.TCPR_DROP) env_ok [] (some (fresh 1))
          (skb_update_sample update_seed_sample) addr_203_0_113_1 0).calls = call :: rest →
        call = { op := tcpr_op.update, c := c, connections := [c] }) := by
  obtain ⟨c, h1, h2, h3, h4, h5, h6, h7, h8, h9, _⟩ :=
    (update_seed (machine_fixed tcpr_verdict.TCPR_DROP) env_ok [] (some (fresh 1))
      (skb_update_sample update_seed_sample) addr_203_0_113_1 0 udp_sample
      update_seed_sample rfl rfl rfl (by decide)).1 rfl (fresh 1) rfl (by simp)
  exact ⟨c, h1, h2, h3, h4, h5, h6, h7, h8, h9⟩

/-- C10, counterexample: the same snapshot when the table holds a flow of the same
peer to hard port 443 with the same soft endpoint: no entry under the peer
view matches and the soft port is nonzero, yet `connection_create` hands back
that flow, no entry is created, and the entry processed has hard port 443,
not the snapshot's hard port 80.  And when the allocation fails nothing is
created either. -/
theorem update_seed_reuses_flow :
    lookup_external [other_flow_sample] update_seed_sample.peer_address
      update_seed_sample.tcpr.hard.peer.port addr_203_0_113_1
      update_seed_sample.tcpr.hard.port 0 = none ∧
    update_seed_sample.tcpr.port ≠ 0 ∧
    (tcpr_tg_update (machine_fixed tcpr_verdict.TCPR_DROP) env_ok [other_flow_sample]
        (some (fresh 1)) (skb_update_sample update_seed_sample) addr_203_0_113_1 0).connections
      = [other_flow_sample] ∧
    (tcpr_tg_update (machine_fixed tcpr_verdict.TCPR_DROP) env_ok [other_flow_sample]
        (some (fresh 1)) (skb_update_sample update_seed_sample) addr_203_0_113_1 0).calls
      = [{ op := tcpr_op.update, c := other_flow_sample,
           connections := [other_flow_sample] }] ∧
    other_flow_sample.state.tcpr.hard.port ≠ update_seed_sample.tcpr.hard.port ∧
    (tcpr_tg_update (machine_fixed tcpr_verdict.TCPR_DROP) env_ok [] none
        (skb_update_sample update_seed_sample) addr_203_0_113_1 0).connections = [] := by
  decide

/-! ## Writing through a pointer, unlinking, and the tables the pipelines leave -/

theorem store_map_ptr (t : List connection) (c : connection) :
    (store t c).map (fun e => e.ptr) = t.map (fun e => e.ptr) := by
  unfold store
  rw [List.map_map]
  apply List.map_congr_left
  intro e _
  simp only [Function.comp]
  split
  · rename_i h; exact h.symm
  · rfl

theorem store_store (t : List connection) (c1 c2 : connection) (h : c1.ptr = c2.ptr) :
    store (store t c1) c2 = store t c2 := by
  unfold store
  rw [List.map_map]
  apply List.map_congr_left
  intro e _
  simp only [Function.comp]
  by_cases he : e.ptr = c1.ptr
  · rw [if_pos he, if_pos h, if_pos (he.trans h)]
  · rw [if_neg he, if_neg (fun h2 => he (h2.trans h.symm))]

theorem mem_store (t : List connection) (c e : connection) (h : e ∈ store t c) :
    e = c ∨ (e ∈ t ∧ e.ptr ≠ c.ptr) := by
  unfold store at h
  obtain ⟨x, hx, hxe⟩ := List.mem_map.1 h
  by_cases hp : x.ptr = c.ptr
  · rw [if_pos hp] at hxe
    exact Or.inl hxe.symm
  · rw [if_neg hp] at hxe
    subst hxe
    exact Or.inr ⟨hx, hp⟩

theorem mem_store_self (t : List connection) (c e : connection) (he : e ∈ t)
    (hp : e.ptr = c.ptr) : c ∈ store t c := by
  unfold store
  apply List.mem_map.2
  exact ⟨e, he, by rw [if_pos hp]⟩

theorem mem_store_other (t : List connection) (c e : connection) (he : e ∈ t)
    (hp : e.ptr ≠ c.ptr) : e ∈ store t c := by
  unfold store
  apply List.mem_map.2
  exact ⟨e, he, by rw [if_neg hp]⟩

theorem list_del_sublist (p : Nat) (t : List connection) : (list_del p t).Sublist t := by
  induction t with
  | nil => exact List.Sublist.refl _
  | cons e es ih =>
    show (if e.ptr = p then es else e :: list_del p es).Sublist (e :: es)
    split
    · exact List.sublist_cons_self e es
    · exact List.Sublist.cons₂ e ih

theorem mem_list_del_ne (p : Nat) (t : List connection) (hnd : distinct_nodes t)
    (e : connection) (he : e ∈ list_del p t) : e.ptr ≠ p := by
  rw [list_del_eq_filter p t hnd] at he
  simpa using (List.mem_filter.1 he).2

theorem mem_list_del_of_ne (p : Nat) (t : List connection) (e : connection) (he : e ∈ t)
    (hp : e.ptr ≠ p) : e ∈ list_del p t := by
  induction t with
  | nil => exact absurd he (List.not_mem_nil e)
  | cons x xs ih =>
    show e ∈ (if x.ptr = p then xs else x :: list_del p xs)
    rcases List.mem_cons.1 he with h | h
    · subst h
      rw [if_neg hp]
      exact List.mem_cons_self _ _
    · split
      · exact h
      · exact List.mem_cons_of_mem _ (ih h)

theorem distinct_nodes_store (t : List connection) (c : connection)
    (h : distinct_nodes t) : distinct_nodes (store t c) := by
  unfold distinct_nodes
  rw [store_map_ptr]
  exact h

theorem distinct_nodes_list_del (p : Nat) (t : List connection) (h : distinct_nodes t) :
    distinct_nodes (list_del p t) :=
  List.Nodup.sublist (List.Sublist.map _ (list_del_sublist p t)) h

theorem distinct_nodes_reap (t : List connection) (c : connection)
    (h : distinct_nodes t) : distinct_nodes (reap t c) := by
  unfold reap connection_done
  split
  · exact distinct_nodes_list_del _ _ h
  · exact h

theorem inject_tcp_c (m : tcpr_machine) (env : net_env) (c : connection)
    (v : tcpr_verdict) :
    (inject_tcp m env c v).c.ptr = c.ptr ∧ (inject_tcp m env c v).c.address = c.address ∧
    (inject_tcp m env c v).c.net_ns = c.net_ns ∧
    (inject_tcp m env c v).c.state.address = c.state.address ∧
    (inject_tcp m env c v).c.state.peer_address = c.state.peer_address := by
  cases v <;> exact ⟨rfl, rfl, rfl, rfl, rfl⟩

theorem application_final_node (m : tcpr_machine) (env : net_env) (skb : sk_buff)
    (tcp : tcphdr) (data : List Nat) (c : connection) :
    (tcpr_tg_application_final m env skb tcp data c).ptr = c.ptr ∧
    (tcpr_tg_application_final m env skb tcp data c).address = c.address ∧
    (tcpr_tg_application_final m env skb tcp data c).net_ns = c.net_ns := by
  unfold tcpr_tg_application_final
  simp only
  split
  · exact ⟨rfl, rfl, rfl⟩
  · split
    · have h := inject_tcp_c m env
        { c with state := { c.state with tcpr := (m.tcpr_filter c.state.tcpr tcp data
          (segment_size skb.ip)).state } }
        (m.tcpr_filter c.state.tcpr tcp data (segment_size skb.ip)).verdict
      exact ⟨h.1, h.2.1, h.2.2.1⟩
    · exact ⟨rfl, rfl, rfl⟩

theorem peer_final_node (m : tcpr_machine) (env : net_env) (skb : sk_buff)
    (tcp : tcphdr) (data : List Nat) (c : connection) :
    (tcpr_tg_peer_final m env skb tcp data c).ptr = c.ptr ∧
    (tcpr_tg_peer_final m env skb tcp data c).address = c.address ∧
    (tcpr_tg_peer_final m env skb tcp data c).net_ns = c.net_ns := by
  unfold tcpr_tg_peer_final
  simp only
  split
  · exact ⟨rfl, rfl, rfl⟩
  · split
    · have h := inject_tcp_c m env
        { c with state := { c.state with tcpr := (m.tcpr_filter_peer c.state.tcpr tcp data
          (segment_size skb.ip)).state } }
        (m.tcpr_filter_peer c.state.tcpr tcp data (segment_size skb.ip)).verdict
      exact ⟨h.1, h.2.1, h.2.2.1⟩
    · exact ⟨rfl, rfl, rfl⟩

theorem update_final_node (m : tcpr_machine) (env : net_env) (update : tcpr_ip4)
    (c : connection) :
    (tcpr_tg_update_final m env update c).ptr = c.ptr ∧
    (tcpr_tg_update_final m env update c).address = c.address ∧
    (tcpr_tg_update_final m env update c).net_ns = c.net_ns ∧
    (tcpr_tg_update_final m env update c).state.address = reconciled update c := by
  unfold tcpr_tg_update_final reconciled
  simp only
  by_cases ha : update.address ≠ 0
  · simp only [if_pos ha]
    split
    · split
      · exact ⟨rfl, rfl, rfl, rfl⟩
      · split
        · have h := inject_tcp_c m env
            { ptr := c.ptr,
              state := { address := update.address, peer_address := c.state.peer_address,
                         tcpr := (m.tcpr_update c.state.tcpr update.tcpr).state },
              net_ns := c.net_ns, address := c.address }
            (m.tcpr_update c.state.tcpr update.tcpr).verdict
          exact ⟨h.1, h.2.1, h.2.2.1, h.2.2.2.1⟩
        · exact ⟨rfl, rfl, rfl, rfl⟩
    · exact ⟨rfl, rfl, rfl, rfl⟩
  · simp only [if_neg ha]
    split
    · split
      · exact ⟨rfl, rfl, rfl, rfl⟩
      · split
        · have h := inject_tcp_c m env
            { c with state := { c.state with
                tcpr := (m.tcpr_update c.state.tcpr update.tcpr).state } }
            (m.tcpr_update c.state.tcpr update.tcpr).verdict
          exact ⟨h.1, h.2.1, h.2.2.1, h.2.2.2.1⟩
        · exact ⟨rfl, rfl, rfl, rfl⟩
    · exact ⟨rfl, rfl, rfl, rfl⟩

theorem application_locked_table (m : tcpr_machine) (env : net_env)
    (t : List connection) (skb : sk_buff) (tcp : tcphdr) (data : List Nat) (c : connection) :
    (tcpr_tg_application_locked m env t skb tcp data c).connections
      = reap (store t (tcpr_tg_application_final m env skb tcp data c))
          (tcpr_tg_application_final m env skb tcp data c) := by
  unfold tcpr_tg_application_locked tcpr_tg_application_final
  simp only
  split
  · rfl
  · split
    · simp only
      rw [store_store _ _ _ (inject_tcp_c m env _ _).1.symm]
    · rfl

theorem peer_locked_table (m : tcpr_machine) (env : net_env)
    (t : List connection) (skb : sk_buff) (tcp : tcphdr) (data : List Nat) (c : connection) :
    (tcpr_tg_peer_locked m env t skb tcp data c).connections
      = reap (store t (tcpr_tg_peer_final m env skb tcp data c))
          (tcpr_tg_peer_final m env skb tcp data c) := by
  unfold tcpr_tg_peer_locked tcpr_tg_peer_final
  simp only
  split
  · rfl
  · split
    · simp only
      rw [store_store _ _ _ (inject_tcp_c m env _ _).1.symm]
    · rfl

theorem mem_reap (t : List connection) (c e : connection) (h : e ∈ reap t c) : e ∈ t := by
  unfold reap connection_done at h
  split at h
  · exact (list_del_sublist _ _).subset h
  · exact h

theorem reap_clear (t : List connection) (c : connection) (h : c.state.tcpr.done = 0) :
    reap t c = t := by
  unfold reap
  rw [if_neg (by simp [h])]

theorem reap_set (t : List connection) (c : connection) (h : c.state.tcpr.done ≠ 0) :
    reap t c = list_del c.ptr t := by
  unfold reap connection_done
  rw [if_pos h]

/-! ## C11: reconciliation of the soft address in the update pipeline -/

theorem inject_update_body (m : tcpr_machine) (env : net_env) (ip : iphdr) (udp : udphdr)
    (state : tcpr_ip4) :
    ∃ pudp, (inject_update m env ip udp state).handed.body = transport.udp pudp state := by
  unfold inject_update
  simp only [inject_ip_handed]
  exact ⟨_, rfl⟩

theorem inject_tcp_body (m : tcpr_machine) (env : net_env) (c : connection)
    (v : tcpr_verdict) :
    (∃ tcp data, (inject_tcp m env c v).injection.handed.body = transport.tcp tcp data) ∨
    (∃ ws, (inject_tcp m env c v).injection.handed.body = transport.other ws) := by
  unfold inject_tcp
  simp only [inject_ip_handed]
  split
  · exact Or.inl ⟨_, _, rfl⟩
  · exact Or.inr ⟨_, rfl⟩

theorem adopt_node (update : tcpr_ip4) (c : connection) :
    (adopt update c).ptr = c.ptr ∧ (adopt update c).address = c.address ∧
    (adopt update c).net_ns = c.net_ns ∧
    (adopt update c).state.peer_address = c.state.peer_address ∧
    (adopt update c).state.tcpr = c.state.tcpr ∧
    (adopt update c).state.address = reconciled update c := by
  unfold adopt reconciled
  split <;> exact ⟨rfl, rfl, rfl, rfl, rfl, rfl⟩

theorem fill_fields (update : tcpr_ip4) (c : connection) :
    (fill update c).address = reconciled update c ∧
    (fill update c).peer_address = update.peer_address ∧
    (fill update c).tcpr = update.tcpr := by
  unfold fill reconciled
  split <;> exact ⟨rfl, rfl, rfl⟩

theorem peer_populated_adopt (update : tcpr_ip4) (c : connection) :
    ((adopt update c).state.peer_address ≠ 0 ∧
      (adopt update c).state.tcpr.hard.peer.port ≠ 0) ↔ peer_populated c := by
  obtain ⟨_, _, _, h4, h5, _⟩ := adopt_node update c
  unfold peer_populated
  rw [h4, h5]

/-- The critical section of `tcpr_tg_update` in terms of the reconciled
connection and snapshot. -/
theorem update_locked_unfold (m : tcpr_machine) (env : net_env)
    (t : List connection) (skb : sk_buff) (udp : udphdr) (update : tcpr_ip4)
    (c : connection) :
    tcpr_tg_update_locked m env t skb udp update c =
      if (adopt update c).state.peer_address ≠ 0 ∧
          (adopt update c).state.tcpr.hard.peer.port ≠ 0 then
        if (m.tcpr_update (adopt update c).state.tcpr (fill update c).tcpr).verdict
            = tcpr_verdict.TCPR_DELIVER then
          { verdict := NF_DROP,
            skb := skb_with skb udp (snapshot_with (fill update c)
              (m.tcpr_update (adopt update c).state.tcpr (fill update c).tcpr).update),
            connections := reap
              (store (store t (adopt update c))
                (with_tcpr (adopt update c)
                  (m.tcpr_update (adopt update c).state.tcpr (fill update c).tcpr).state))
              (with_tcpr (adopt update c)
                (m.tcpr_update (adopt update c).state.tcpr (fill update c).tcpr).state),
            injected := [inject_update m env skb.ip udp (snapshot_with (fill update c)
              (m.tcpr_update (adopt update c).state.tcpr (fill update c).tcpr).update)],
            calls := [{ op := tcpr_op.update, c := adopt update c,
                        connections := store t (adopt update c) }] }
        else if (m.tcpr_update (adopt update c).state.tcpr (fill update c).tcpr).verdict
            ≠ tcpr_verdict.TCPR_DROP then
          { verdict := NF_DROP,
            skb := skb_with skb udp (snapshot_with (fill update c)
              (m.tcpr_update (adopt update c).state.tcpr (fill update c).tcpr).update),
            connections := reap
              (store
                (store (store t (adopt update c))
                  (with_tcpr (adopt update c)
                    (m.tcpr_update (adopt update c).state.tcpr (fill update c).tcpr).state))
                (inject_tcp m env
                  (with_tcpr (adopt update c)
                    (m.tcpr_update (adopt update c).state.tcpr (fill update c).tcpr).state)
                  (m.tcpr_update (adopt update c).state.tcpr (fill update c).tcpr).verdict).c)
              (inject_tcp m env
                (with_tcpr (adopt update c)
                  (m.tcpr_update (adopt update c).state.tcpr (fill update c).tcpr).state)
                (m.tcpr_update (adopt update c).state.tcpr (fill update c).tcpr).verdict).c,
            injected := [(inject_tcp m env
              (with_tcpr (adopt update c)
                (m.tcpr_update (adopt update c).state.tcpr (fill update c).tcpr).state)
              (m.tcpr_update (adopt update c).state.tcpr
                (fill update c).tcpr).verdict).injection],
            calls := [{ op := tcpr_op.update, c := adopt update c,
                        connections := store t (adopt update c) },
                      { op := (inject_tcp m env
                          (with_tcpr (adopt update c)
                            (m.tcpr_update (adopt update c).state.tcpr
                              (fill update c).tcpr).state)
                          (m.tcpr_update (adopt update c).state.tcpr
                            (fill update c).tcpr).verdict).op,
                        c := with_tcpr (adopt update c)
                          (m.tcpr_update (adopt update c).state.tcpr
                            (fill update c).tcpr).state,
                        connections := store (store t (adopt update c))
                          (with_tcpr (adopt update c)
                            (m.tcpr_update (adopt update c).state.tcpr
                              (fill update c).tcpr).state) }] }
        else
          { verdict := NF_DROP,
            skb := skb_with skb udp (snapshot_with (fill update c)
              (m.tcpr_update (adopt update c).state.tcpr (fill update c).tcpr).update),
            connections := reap
              (store (store t (adopt update c))
                (with_tcpr (adopt update c)
                  (m.tcpr_update (adopt update c).state.tcpr (fill update c).tcpr).state))
              (with_tcpr (adopt update c)
                (m.tcpr_update (adopt update c).state.tcpr (fill update c).tcpr).state),
            injected := [],
            calls := [{ op := tcpr_op.update, c := adopt update c,
                        connections := store t (adopt update c) }] }
      else
        { verdict := NF_DROP,
          skb := skb_with skb udp (fill update c),
          connections := store t (adopt update c),
          injected := [inject_update m env skb.ip udp (fill update c)], calls := [] } := rfl

/-- The connection `tcpr_tg_update` leaves behind in terms of the reconciled
connection and snapshot. -/
theorem update_final_unfold (m : tcpr_machine) (env : net_env) (update : tcpr_ip4)
    (c : connection) :
    tcpr_tg_update_final m env update c =
      if (adopt update c).state.peer_address ≠ 0 ∧
          (adopt update c).state.tcpr.hard.peer.port ≠ 0 then
        if (m.tcpr_update (adopt update c).state.tcpr (fill update c).tcpr).verdict
            = tcpr_verdict.TCPR_DELIVER then
          with_tcpr (adopt update c)
            (m.tcpr_update (adopt update c).state.tcpr (fill update c).tcpr).state
        else if (m.tcpr_update (adopt update c).state.tcpr (fill update c).tcpr).verdict
            ≠ tcpr_verdict.TCPR_DROP then
          (inject_tcp m env
            (with_tcpr (adopt update c)
              (m.tcpr_update (adopt update c).state.tcpr (fill update c).tcpr).state)
            (m.tcpr_update (adopt update c).state.tcpr (fill update c).tcpr).verdict).c
        else
          with_tcpr (adopt update c)
            (m.tcpr_update (adopt update c).state.tcpr (fill update c).tcpr).state
      else adopt update c := rfl

theorem with_tcpr_node (c : connection) (st : tcpr) :
    (with_tcpr c st).ptr = c.ptr ∧ (with_tcpr c st).address = c.address ∧
    (with_tcpr c st).net_ns = c.net_ns ∧ (with_tcpr c st).state.address = c.state.address ∧
    (with_tcpr c st).state.peer_address = c.state.peer_address ∧
    (with_tcpr c st).state.tcpr = st :=
  ⟨rfl, rfl, rfl, rfl, rfl, rfl⟩

theorem update_locked_table (m : tcpr_machine) (env : net_env)
    (t : List connection) (skb : sk_buff) (udp : udphdr) (update : tcpr_ip4)
    (c : connection) :
    (peer_populated c →
      (tcpr_tg_update_locked m env t skb udp update c).connections
        = reap (store t (tcpr_tg_update_final m env update c))
            (tcpr_tg_update_final m env update c)) ∧
    (¬ peer_populated c →
      (tcpr_tg_update_locked m env t skb udp update c).connections
        = store t (tcpr_tg_update_final m env update c) ∧
      (tcpr_tg_update_final m env update c).state.tcpr = c.state.tcpr) := by
  rw [update_locked_unfold, update_final_unfold]
  constructor
  · intro hpp
    have h := (peer_populated_adopt update c).2 hpp
    rw [if_pos h, if_pos h]
    split
    · simp only
      rw [store_store _ _ _ (with_tcpr_node _ _).1.symm]
    · split
      · simp only
        rw [store_store _ _ _ (with_tcpr_node _ _).1.symm,
          store_store _ _ _ (inject_tcp_c m env _ _).1.symm]
      · simp only
        rw [store_store _ _ _ (with_tcpr_node _ _).1.symm]
  · intro hpp
    have h : ¬ ((adopt update c).state.peer_address ≠ 0 ∧
        (adopt update c).state.tcpr.hard.peer.port ≠ 0) :=
      fun h => hpp ((peer_populated_adopt update c).1 h)
    rw [if_neg h, if_neg h]
    exact ⟨rfl, (adopt_node update c).2.2.2.2.1⟩

theorem update_locked_snapshots (m : tcpr_machine) (env : net_env)
    (t : List connection) (skb : sk_buff) (udp : udphdr) (update : tcpr_ip4)
    (c : connection) :
    (∀ call ∈ (tcpr_tg_update_locked m env t skb udp update c).calls,
      call.c.state.address = reconciled update c) ∧
    (∃ u, (tcpr_tg_update_locked m env t skb udp update c).skb
        = { skb with body := transport.udp udp u } ∧
      u.address = reconciled update c ∧ u.peer_address = update.peer_address) ∧
    (∀ j ∈ (tcpr_tg_update_locked m env t skb udp update c).injected,
      ∀ pudp u, j.handed.body = transport.udp pudp u → u.address = reconciled update c) := by
  have hadopt := (adopt_node update c).2.2.2.2.2
  obtain ⟨hfill, hfillp, _⟩ := fill_fields update c
  rw [update_locked_unfold]
  split
  · split
    · refine ⟨?_, ⟨_, rfl, hfill, hfillp⟩, ?_⟩
      · intro call hcall
        simp only [List.mem_singleton] at hcall
        rw [hcall]; exact hadopt
      · intro j hj pudp u hbody
        simp only [List.mem_singleton] at hj
        obtain ⟨p2, hp2⟩ := inject_update_body m env skb.ip udp
          (snapshot_with (fill update c)
            (m.tcpr_update (adopt update c).state.tcpr (fill update c).tcpr).update)
        rw [hj, hp2] at hbody
        injection hbody with _ hu
        rw [← hu]; exact hfill
    · split
      · refine ⟨?_, ⟨_, rfl, hfill, hfillp⟩, ?_⟩
        · intro call hcall
          simp only [List.mem_cons, List.mem_singleton, List.not_mem_nil, or_false] at hcall
          rcases hcall with h | h <;> rw [h] <;> exact hadopt
        · intro j hj pudp u hbody
          simp only [List.mem_singleton] at hj
          rcases inject_tcp_body m env
            (with_tcpr (adopt update c)
              (m.tcpr_update (adopt update c).state.tcpr (fill update c).tcpr).state)
            (m.tcpr_update (adopt update c).state.tcpr (fill update c).tcpr).verdict
            with ⟨tcp2, data2, h2⟩ | ⟨ws2, h2⟩
          · rw [hj, h2] at hbody
            exact absurd hbody (by simp)
          · rw [hj, h2] at hbody
            exact absurd hbody (by simp)
      · refine ⟨?_, ⟨_, rfl, hfill, hfillp⟩, ?_⟩
        · intro call hcall
          simp only [List.mem_singleton] at hcall
          rw [hcall]; exact hadopt
        · intro j hj
          exact absurd hj (List.not_mem_nil j)
  · refine ⟨?_, ⟨_, rfl, hfill, hfillp⟩, ?_⟩
    · intro call hcall
      exact absurd hcall (List.not_mem_nil call)
    · intro j hj pudp u hbody
      simp only [List.mem_singleton] at hj
      obtain ⟨p2, hp2⟩ := inject_update_body m env skb.ip udp (fill update c)
      rw [hj, hp2] at hbody
      injection hbody with _ hu
      rw [← hu]; exact hfill

/-- C11: in the critical section of `tcpr_tg_update`, entered with a connection
`c` of the table, connection and snapshot are reconciled to one soft address
(`reconciled`): the snapshot's if it is nonzero, otherwise the connection's own,
which is then written into the snapshot.  The connection the pipeline leaves
behind has that soft address, as has every entry at its address in the final
table (where the connection still is unless its done flag got set), the
connection handed to every state-machine call, the snapshot left in the
packet buffer, and every snapshot handed to `inject_ip`. -/
theorem update_reconciles_soft_address (m : tcpr_machine) (env : net_env)
    (t : List connection) (skb : sk_buff) (udp : udphdr) (update : tcpr_ip4)
    (c : connection) (hc : c ∈ t) :
    (update.address ≠ 0 → reconciled update c = update.address) ∧
    (update.address = 0 → reconciled update c = c.state.address) ∧
    (tcpr_tg_update_final m env update c).state.address = reconciled update c ∧
    (∀ e ∈ (tcpr_tg_update_locked m env t skb udp update c).connections,
      e.ptr = c.ptr → e.state.address = reconciled update c) ∧
    ((tcpr_tg_update_final m env update c).state.tcpr.done = 0 →
      tcpr_tg_update_final m env update c
        ∈ (tcpr_tg_update_locked m env t skb udp update c).connections) ∧
    (∀ call ∈ (tcpr_tg_update_locked m env t skb udp update c).calls,
      call.c.state.address = reconciled update c) ∧
    (∃ u, (tcpr_tg_update_locked m env t skb udp update c).skb
        = { skb with body := transport.udp udp u } ∧
      u.address = reconciled update c ∧ u.peer_address = update.peer_address) ∧
    (∀ j ∈ (tcpr_tg_update_locked m env t skb udp update c).injected,
      ∀ pudp u, j.handed.body = transport.udp pudp u → u.address = reconciled update c) := by
  obtain ⟨h1, h2, h3⟩ := update_locked_snapshots m env t skb udp update c
  obtain ⟨hp, _, _, ha⟩ := update_final_node m env update c
  obtain ⟨ht1, ht2⟩ := update_locked_table m env t skb udp update c
  have hin : ∀ e ∈ store t (tcpr_tg_update_final m env update c), e.ptr = c.ptr →
      e.state.address = reconciled update c := by
    intro e he hpe
    rcases mem_store _ _ _ he with h | ⟨_, h⟩
    · rw [h]; exact ha
    · exact absurd (hpe.trans hp.symm) h
  have hself : tcpr_tg_update_final m env update c
      ∈ store t (tcpr_tg_update_final m env update c) :=
    mem_store_self t _ c hc hp.symm
  refine ⟨?_, ?_, ha, ?_, ?_, h1, h2, h3⟩
  · intro h; unfold reconciled; rw [if_pos h]
  · intro h; unfold reconciled; rw [if_neg (by simp [h])]
  · intro e he hpe
    by_cases hpp : peer_populated c
    · rw [ht1 hpp] at he
      exact hin e (mem_reap _ _ _ he) hpe
    · rw [(ht2 hpp).1] at he
      exact hin e he hpe
  · intro hd
    by_cases hpp : peer_populated c
    · rw [ht1 hpp, reap_clear _ _ hd]
      exact hself
    · rw [(ht2 hpp).1]
      exact hself

/-- C11, witness: a snapshot without soft address delivered on an established
flow is forwarded with the flow's soft address 192.168.1.20 filled in. -/
theorem update_reconciles_soft_address_witness :
    reconciled update_unset_sample other_flow_sample = addr_192_168_1_20 ∧
    (∀ j ∈ (tcpr_tg_update_locked (machine_fixed tcpr_verdict.TCPR_DELIVER) env_ok
        [other_flow_sample] (skb_update_sample update_unset_sample) udp_sample
        update_unset_sample other_flow_sample).injected,
      ∀ pudp u, j.handed.body = transport.udp pudp u →
        u.address = reconciled update_unset_sample other_flow_sample) ∧
    (tcpr_tg_update_locked (machine_fixed tcpr_verdict.TCPR_DELIVER) env_ok
        [other_flow_sample] (skb_update_sample update_unset_sample) udp_sample
        update_unset_sample other_flow_sample).injected.length = 1 :=
  have h := update_reconciles_soft_address (machine_fixed tcpr_verdict.TCPR_DELIVER) env_ok
    [other_flow_sample] (skb_update_sample update_unset_sample) udp_sample
    update_unset_sample other_flow_sample (by decide)
  ⟨by decide, h.2.2.2.2.2.2.2, by decide⟩

/-! ## C12 and C13: verdicts of the dispatcher -/

theorem drop_ne_accept : NF_DROP ≠ NF_ACCEPT := by decide

theorem update_locked_verdict (m : tcpr_machine) (env : net_env)
    (t : List connection) (skb : sk_buff) (udp : udphdr) (update : tcpr_ip4)
    (c : connection) :
    (tcpr_tg_update_locked m env t skb udp update c).verdict = NF_DROP := by
  rw [update_locked_unfold]
  split
  · split
    · rfl
    · split <;> rfl
  · rfl

theorem update_verdict (m : tcpr_machine) (env : net_env) (connections : List connection)
    (kmalloc : Option connection) (skb : sk_buff) (address ns : Nat) :
    (tcpr_tg_update m env connections kmalloc skb address ns).verdict = NF_DROP := by
  unfold tcpr_tg_update
  split
  · rfl
  · split
    · split
      · exact update_locked_verdict _ _ _ _ _ _ _
      · split
        · rfl
        · split
          · exact update_locked_verdict _ _ _ _ _ _ _
          · rfl
    · rfl

theorem peer_locked_verdict (m : tcpr_machine) (env : net_env)
    (t : List connection) (skb : sk_buff) (tcp : tcphdr) (data : List Nat) (c : connection) :
    (tcpr_tg_peer_locked m env t skb tcp data c).verdict = NF_DROP := by
  unfold tcpr_tg_peer_locked
  simp only
  split
  · rfl
  · split <;> rfl

theorem peer_verdict (m : tcpr_machine) (env : net_env) (connections : List connection)
    (kmalloc : Option connection) (skb : sk_buff) (ns : Nat) :
    (tcpr_tg_peer m env connections kmalloc skb ns).verdict = NF_DROP := by
  unfold tcpr_tg_peer
  split
  · rfl
  · split
    · split
      · exact peer_locked_verdict _ _ _ _ _ _ _
      · split
        · rfl
        · split
          · rfl
          · split
            · exact peer_locked_verdict _ _ _ _ _ _ _
            · rfl
    · rfl

theorem application_locked_verdict (m : tcpr_machine) (env : net_env)
    (t : List connection) (skb : sk_buff) (tcp : tcphdr) (data : List Nat) (c : connection) :
    (tcpr_tg_application_locked m env t skb tcp data c).verdict = NF_ACCEPT ↔
      (m.tcpr_filter c.state.tcpr tcp data (segment_size skb.ip)).verdict
        = tcpr_verdict.TCPR_DELIVER := by
  unfold tcpr_tg_application_locked
  simp only
  split
  · rename_i h
    exact ⟨fun _ => h, fun _ => rfl⟩
  · rename_i h
    split
    · exact ⟨fun h2 => absurd h2 drop_ne_accept, fun h2 => absurd h2 h⟩
    · exact ⟨fun h2 => absurd h2 drop_ne_accept, fun h2 => absurd h2 h⟩

theorem application_accept_iff (m : tcpr_machine) (env : net_env)
    (connections : List connection) (kmalloc : Option connection) (skb : sk_buff)
    (address ns : Nat) :
    (tcpr_tg_application m env connections kmalloc skb address ns).verdict = NF_ACCEPT ↔
      skb.ip.protocol = IPPROTO_TCP ∧
      ∃ tcp data c, skb.body = transport.tcp tcp data ∧
        (lookup_internal connections skb.ip.daddr tcp.dest skb.ip.saddr tcp.source ns
            = some c ∨
          (lookup_internal connections skb.ip.daddr tcp.dest skb.ip.saddr tcp.source ns
              = none ∧ tcp.ack = 0 ∧
            (connection_create connections kmalloc skb.ip.daddr tcp.dest address
              tcp.source skb.ip.saddr tcp.source ns).1 = some c)) ∧
        (m.tcpr_filter c.state.tcpr tcp data (segment_size skb.ip)).verdict
          = tcpr_verdict.TCPR_DELIVER := by
  unfold tcpr_tg_application
  by_cases hp : skb.ip.protocol = IPPROTO_TCP
  · rw [if_neg (by simp [hp])]
    cases hb : skb.body with
    | tcp tcp data =>
      simp only
      cases hl : lookup_internal connections skb.ip.daddr tcp.dest skb.ip.saddr tcp.source
          ns with
      | some c =>
        simp only
        rw [application_locked_verdict]
        constructor
        · intro hv
          exact ⟨hp, tcp, data, c, rfl, Or.inl hl, hv⟩
        · rintro ⟨_, tcp2, data2, c2, hb2, hc2, hv⟩
          injection hb2 with ht hd
          subst ht; subst hd
          rcases hc2 with h | ⟨h, _⟩
          · rw [hl] at h
            injection h with h
            rw [h]; exact hv
          · rw [hl] at h
            exact absurd h (by simp)
      | none =>
        simp only
        by_cases hack : tcp.ack = 0
        · rw [if_neg (by simp [hack])]
          cases hcr : connection_create connections kmalloc skb.ip.daddr tcp.dest address
              tcp.source skb.ip.saddr tcp.source ns with
          | mk oc t2 =>
            cases oc with
            | some c =>
              simp only
              rw [application_locked_verdict]
              constructor
              · intro hv
                exact ⟨hp, tcp, data, c, rfl, Or.inr ⟨hl, hack, by rw [hcr]⟩, hv⟩
              · rintro ⟨_, tcp2, data2, c2, hb2, hc2, hv⟩
                injection hb2 with ht hd
                subst ht; subst hd
                rcases hc2 with h | ⟨_, _, h⟩
                · rw [hl] at h
                  exact absurd h (by simp)
                · rw [hcr] at h
                  injection h with h
                  rw [h]; exact hv
            | none =>
              simp only
              constructor
              · intro h
                exact absurd h drop_ne_accept
              · rintro ⟨_, tcp2, data2, c2, hb2, hc2, hv⟩
                injection hb2 with ht hd
                subst ht; subst hd
                rcases hc2 with h | ⟨_, _, h⟩
                · rw [hl] at h
                  exact absurd h (by simp)
                · rw [hcr] at h
                  exact absurd h (by simp)
        · rw [if_pos hack]
          constructor
          · intro h
            exact absurd h drop_ne_accept
          · rintro ⟨_, tcp2, data2, c2, hb2, hc2, hv⟩
            injection hb2 with ht hd
            subst ht; subst hd
            rcases hc2 with h | ⟨_, h, _⟩
            · rw [hl] at h
              exact absurd h (by simp)
            · exact absurd h hack
    | udp udp update =>
      simp only
      constructor
      · intro h
        exact absurd h drop_ne_accept
      · rintro ⟨_, tcp2, data2, c2, hb2, _⟩
        exact absurd hb2 (by simp)
    | other ws =>
      simp only
      constructor
      · intro h
        exact absurd h drop_ne_accept
      · rintro ⟨_, tcp2, data2, c2, hb2, _⟩
        exact absurd hb2 (by simp)
  · rw [if_pos hp, update_verdict]
    constructor
    · intro h
      exact absurd h drop_ne_accept
    · rintro ⟨h, _⟩
      exact absurd h hp

/-- C12: `tcpr_tg` returns accept if and only if the packet was made writable,
the configured address is nonzero (application mode), the packet is TCP, a
connection was found under the application view or, failing that for a
segment without ACK, returned by `connection_create`, and the filter called on
that connection answers DELIVER; `tcpr_tg_peer` and `tcpr_tg_update` return
drop on every input. -/
theorem tcpr_tg_accept_iff (m : tcpr_machine) (env : net_env)
    (connections : List connection) (kmalloc : Option connection) (skb : sk_buff)
    (writable : Bool) (address ns : Nat) :
    ((tcpr_tg m env connections kmalloc skb writable address ns).verdict = NF_ACCEPT ↔
      writable = true ∧ address ≠ 0 ∧ skb.ip.protocol = IPPROTO_TCP ∧
      ∃ tcp data c, skb.body = transport.tcp tcp data ∧
        (lookup_internal connections skb.ip.daddr tcp.dest skb.ip.saddr tcp.source ns
            = some c ∨
          (lookup_internal connections skb.ip.daddr tcp.dest skb.ip.saddr tcp.source ns
              = none ∧ tcp.ack = 0 ∧
            (connection_create connections kmalloc skb.ip.daddr tcp.dest address
              tcp.source skb.ip.saddr tcp.source ns).1 = some c)) ∧
        (m.tcpr_filter c.state.tcpr tcp data (segment_size skb.ip)).verdict
          = tcpr_verdict.TCPR_DELIVER) ∧
    (tcpr_tg_peer m env connections kmalloc skb ns).verdict = NF_DROP ∧
    (tcpr_tg_update m env connections kmalloc skb address ns).verdict = NF_DROP := by
  refine ⟨?_, peer_verdict _ _ _ _ _ _, update_verdict _ _ _ _ _ _ _⟩
  unfold tcpr_tg
  cases writable with
  | false =>
    rw [if_pos rfl]
    constructor
    · intro h
      exact absurd h drop_ne_accept
    · rintro ⟨h, _⟩
      exact absurd h (by simp)
  | true =>
    rw [if_neg (by simp)]
    by_cases ha : address = 0
    · rw [if_neg (by simp [ha]), peer_verdict]
      constructor
      · intro h
        exact absurd h drop_ne_accept
      · rintro ⟨_, h, _⟩
        exact absurd ha h
    · rw [if_pos ha, application_accept_iff]
      constructor
      · intro h
        exact ⟨rfl, ha, h⟩
      · rintro ⟨_, _, h⟩
        exact h

/-- C13: a packet of a protocol the mode does not handle (neither TCP nor UDP in
application mode, not TCP in peer mode), and a TCP segment with the ACK flag
that matches no entry under the view the mode looks it up in, are dropped by
`tcpr_tg` without any effect: the result is drop, packet and table are left
as they are, no state-machine operation is invoked and nothing is handed to
`inject_ip`. -/
theorem unattributable_dropped (m : tcpr_machine) (env : net_env)
    (connections : List connection) (kmalloc : Option connection) (skb : sk_buff)
    (writable : Bool) (address ns : Nat) :
    (address ≠ 0 → skb.ip.protocol ≠ IPPROTO_TCP → skb.ip.protocol ≠ IPPROTO_UDP →
      tcpr_tg m env connections kmalloc skb writable address ns
        = { verdict := NF_DROP, skb := skb, connections := connections, injected := [],
            calls := [] }) ∧
    (address = 0 → skb.ip.protocol ≠ IPPROTO_TCP →
      tcpr_tg m env connections kmalloc skb writable address ns
        = { verdict := NF_DROP, skb := skb, connections := connections, injected := [],
            calls := [] }) ∧
    (∀ tcp data, address ≠ 0 → skb.ip.protocol = IPPROTO_TCP →
      skb.body = transport.tcp tcp data → tcp.ack ≠ 0 →
      lookup_internal connections skb.ip.daddr tcp.dest skb.ip.saddr tcp.source ns = none →
      tcpr_tg m env connections kmalloc skb writable address ns
        = { verdict := NF_DROP, skb := skb, connections := connections, injected := [],
            calls := [] }) ∧
    (∀ tcp data, address = 0 → skb.ip.protocol = IPPROTO_TCP →
      skb.body = transport.tcp tcp data → tcp.ack ≠ 0 →
      lookup_external connections skb.ip.saddr tcp.source skb.ip.daddr tcp.dest ns = none →
      tcpr_tg m env connections kmalloc skb writable address ns
        = { verdict := NF_DROP, skb := skb, connections := connections, injected := [],
            calls := [] }) := by
  refine ⟨?_, ?_, ?_, ?_⟩
  · intro ha hp hu
    unfold tcpr_tg
    split
    · rfl
    · unfold tcpr_tg_application
      rw [if_pos hp]
      unfold tcpr_tg_update
      rw [if_pos hu]
      rfl
  · intro ha hp
    unfold tcpr_tg
    split
    · rfl
    · rw [if_neg (by simp [ha])]
      unfold tcpr_tg_peer
      rw [if_pos hp]
      rfl
  · intro tcp data ha hp hb hack hl
    unfold tcpr_tg
    split
    · rfl
    · unfold tcpr_tg_application
      rw [if_neg (by simp [hp]), hb]
      simp only [hl]
      rw [if_pos hack]
      rfl
  · intro tcp data ha hp hb hack hl
    unfold tcpr_tg
    split
    · rfl
    · rw [if_neg (by simp [ha])]
      unfold tcpr_tg_peer
      rw [if_neg (by simp [hp]), hb]
      simp only [hl]
      rw [if_pos hack]
      rfl

/-- C13, witness: an ICMP datagram and a stray ACK in application mode, and the
stray ACK in peer mode, on a table holding an unrelated flow. -/
theorem unattributable_dropped_witness :
    tcpr_tg (machine_fixed tcpr_verdict.TCPR_DELIVER) env_ok [other_flow_sample]
        (some (fresh 1)) skb_icmp_sample true addr_203_0_113_1 0
      = { verdict := NF_DROP, skb := skb_icmp_sample, connections := [other_flow_sample],
          injected := [], calls := [] } ∧
    tcpr_tg (machine_fixed tcpr_verdict.TCPR_DELIVER) env_ok [other_flow_sample]
        (some (fresh 1)) skb_ack_sample true addr_203_0_113_1 0
      = { verdict := NF_DROP, skb := skb_ack_sample, connections := [other_flow_sample],
          injected := [], calls := [] } ∧
    tcpr_tg (machine_fixed tcpr_verdict.TCPR_DELIVER) env_ok [other_flow_sample]
        (some (fresh 1)) skb_ack_sample true 0 0
      = { verdict := NF_DROP, skb := skb_ack_sample, connections := [other_flow_sample],
          injected := [], calls := [] } :=
  ⟨(unattributable_dropped (machine_fixed tcpr_verdict.TCPR_DELIVER) env_ok
      [other_flow_sample] (some (fresh 1)) skb_icmp_sample true addr_203_0_113_1 0).1
      (by decide) (by decide) (by decide),
   (unattributable_dropped (machine_fixed tcpr_verdict.TCPR_DELIVER) env_ok
      [other_flow_sample] (some (fresh 1)) skb_ack_sample true addr_203_0_113_1 0).2.2.1
      _ [] (by decide) rfl rfl (by decide) (by decide),
   (unattributable_dropped (machine_fixed tcpr_verdict.TCPR_DELIVER) env_ok
      [other_flow_sample] (some (fresh 1)) skb_ack_sample true 0 0).2.2.2
      _ [] rfl rfl rfl (by decide) (by decide)⟩

/-! ## C16, C17 and C19: synthesized datagrams -/

/-- The datagram `inject_tcp` hands to `inject_ip`. -/
theorem inject_tcp_handed (m : tcpr_machine) (env : net_env) (c : connection)
    (v : tcpr_verdict) :
    (inject_tcp m env c v).injection.handed =
      { ip := { (control_ip m c v) with check := ip_fast_csum (control_ip m c v).words },
        opts := [],
        body := control_body m c v } := by
  unfold inject_tcp
  simp only [inject_ip_handed]
  cases v <;> rfl

theorem control_body_tcp (m : tcpr_machine) (c : connection) (v : tcpr_verdict)
    (h : 5 ≤ (template m v c.state.tcpr).tcp.doff) :
    control_body m c v = transport.tcp (control_tcp m c v)
      ((template m v c.state.tcpr).opts.take
        (2 * (template m v c.state.tcpr).tcp.doff - 10)) := by
  unfold control_body
  rw [if_pos h]

theorem control_body_cut (m : tcpr_machine) (c : connection) (v : tcpr_verdict)
    (h : (template m v c.state.tcpr).tcp.doff < 5) :
    control_body m c v = transport.other
      ((control_tcp m c v).words.take (2 * (template m v c.state.tcpr).tcp.doff)) := by
  unfold control_body
  rw [if_neg (Nat.not_le.2 h)]

theorem inject_tcp_injection (m : tcpr_machine) (env : net_env) (c : connection)
    (v : tcpr_verdict) :
    (inject_tcp m env c v).injection = inject_ip env (inject_tcp m env c v).injection.handed := by
  unfold inject_tcp
  simp only [inject_ip_handed]

/-- C16 (as amended): when `tcpr_tg_update` processes a snapshot against a
connection `c` with peer address and peer port populated and the update
verdict is RESET or RECOVER, exactly one datagram is handed to `inject_ip`, a
TCP control segment (protocol TCP, carrying the TCP header when the data offset
of the template is at least 5 and the leading `doff * 4` bytes of it
otherwise) whose IP source address is `c`'s peer address and whose IP
destination address is `c`'s soft address (as reconciled with the snapshot),
not its hard address. -/
theorem update_control_addresses (m : tcpr_machine) (env : net_env)
    (t : List connection) (skb : sk_buff) (udp : udphdr) (update : tcpr_ip4)
    (c : connection) (hpp : peer_populated c)
    (hv : (m.tcpr_update c.state.tcpr update.tcpr).verdict = tcpr_verdict.TCPR_RESET ∨
      (m.tcpr_update c.state.tcpr update.tcpr).verdict = tcpr_verdict.TCPR_RECOVER) :
    ∃ d, (tcpr_tg_update_locked m env t skb udp update c).injected = [inject_ip env d] ∧
      d.ip.protocol = IPPROTO_TCP ∧
      ((5 ≤ (template m (m.tcpr_update c.state.tcpr update.tcpr).verdict
            (m.tcpr_update c.state.tcpr update.tcpr).state).tcp.doff →
          ∃ tcp data, d.body = transport.tcp tcp data) ∧
        ((template m (m.tcpr_update c.state.tcpr update.tcpr).verdict
            (m.tcpr_update c.state.tcpr update.tcpr).state).tcp.doff < 5 →
          ∃ ws, d.body = transport.other ws)) ∧
      d.ip.saddr = c.state.peer_address ∧
      d.ip.daddr = reconciled update c := by
  obtain ⟨h1, h2, h3, h4, h5, h6⟩ := adopt_node update c
  obtain ⟨_, _, hf⟩ := fill_fields update c
  have hcond := (peer_populated_adopt update c).2 hpp
  rw [update_locked_unfold, if_pos hcond]
  rw [h5, hf]
  have hnd : (m.tcpr_update c.state.tcpr update.tcpr).verdict ≠ tcpr_verdict.TCPR_DELIVER := by
    rcases hv with h | h <;> rw [h] <;> decide
  have hnp : (m.tcpr_update c.state.tcpr update.tcpr).verdict ≠ tcpr_verdict.TCPR_DROP := by
    rcases hv with h | h <;> rw [h] <;> decide
  rw [if_neg hnd, if_pos hnp]
  refine ⟨_, by simp only; rw [inject_tcp_injection], ?_⟩
  rw [inject_tcp_handed]
  refine ⟨rfl, ⟨?_, ?_⟩, ?_, ?_⟩
  · intro h5
    exact ⟨_, _, control_body_tcp m _ _ h5⟩
  · intro h5
    exact ⟨_, control_body_cut m _ _ h5⟩
  · show control_saddr _ _ = _
    rcases hv with h | h <;> rw [h] <;> exact h4
  · show control_daddr _ _ = _
    rcases hv with h | h <;> rw [h] <;> exact h6

/-- C16, witness: a RESET verdict on the established flow of 198.51.100.7: the
control segment runs from 198.51.100.7 to the soft address 192.168.1.20. -/
theorem update_control_addresses_witness :
    ∃ d, (tcpr_tg_update_locked (machine_fixed tcpr_verdict.TCPR_RESET) env_ok
          [other_flow_sample] (skb_update_sample update_unset_sample) udp_sample
          update_unset_sample other_flow_sample).injected = [inject_ip env_ok d] ∧
      d.ip.saddr = addr_198_51_100_7 ∧ d.ip.daddr = addr_192_168_1_20 := by
  obtain ⟨d, h1, _, _, h2, h3⟩ :=
    update_control_addresses (machine_fixed tcpr_verdict.TCPR_RESET) env_ok
      [other_flow_sample] (skb_update_sample update_unset_sample) udp_sample
      update_unset_sample other_flow_sample (by decide) (Or.inl rfl)
  exact ⟨d, h1, h2, h3⟩

/-- C16, counterexample: a snapshot for the established flow of 198.51.100.7 to
the hard endpoint 203.0.113.1:443 with verdict RESET: the flow is found under
the peer view, its hard address is 203.0.113.1, and the control segment
handed to `inject_ip` is addressed to the soft address 192.168.1.20. -/
theorem update_control_to_soft :
    lookup_external [other_flow_sample] update_flow_sample.peer_address
      update_flow_sample.tcpr.hard.peer.port addr_203_0_113_1
      update_flow_sample.tcpr.hard.port 0 = some other_flow_sample ∧
    peer_populated other_flow_sample ∧
    other_flow_sample.address = addr_203_0_113_1 ∧
    (tcpr_tg_update (machine_fixed tcpr_verdict.TCPR_RESET) env_ok [other_flow_sample] none
        (skb_update_sample update_flow_sample) addr_203_0_113_1 0).injected.map
        (fun j => (j.handed.ip.saddr, j.handed.ip.daddr))
      = [(addr_198_51_100_7, addr_192_168_1_20)] ∧
    addr_192_168_1_20 ≠ addr_203_0_113_1 := by
  decide

/-- C17, evaluation: the datagram `inject_update` builds for an update packet from
10.0.0.9 to 10.0.0.5 carries the checksum of the header as it stood before the
addresses were written (both zero); over the final header, with 10.0.0.5 and
10.0.0.9 in place, that checksum does not validate. -/
theorem inject_update_checksum_stale :
    (inject_update (machine_fixed tcpr_verdict.TCPR_DELIVER) env_ok
        (skb_update_sample update_unset_sample).ip udp_sample update_unset_sample).handed.ip.saddr
      = 0x0500000a ∧
    (inject_update (machine_fixed tcpr_verdict.TCPR_DELIVER) env_ok
        (skb_update_sample update_unset_sample).ip udp_sample update_unset_sample).handed.ip.daddr
      = 0x0900000a ∧
    (inject_update (machine_fixed tcpr_verdict.TCPR_DELIVER) env_ok
        (skb_update_sample update_unset_sample).ip udp_sample update_unset_sample).handed.ip.check
      = ip_fast_csum
          { (inject_update (machine_fixed tcpr_verdict.TCPR_DELIVER) env_ok
              (skb_update_sample update_unset_sample).ip udp_sample
              update_unset_sample).handed.ip with
            check := 0, saddr := 0, daddr := 0 }.words ∧
    csum_words (inject_update (machine_fixed tcpr_verdict.TCPR_DELIVER) env_ok
        (skb_update_sample update_unset_sample).ip udp_sample
        update_unset_sample).handed.ip.words = 3604 ∧
    ¬ ip_check_ok (inject_update (machine_fixed tcpr_verdict.TCPR_DELIVER) env_ok
        (skb_update_sample update_unset_sample).ip udp_sample update_unset_sample).handed.ip
      [] := by
  decide

theorem oc_complement (s : Nat) (h : 0 < s) : oc (s + (65535 - oc s)) = 65535 := by
  rw [oc_pos s h, oc_pos _ (by omega)]
  omega

theorem oc_oc_add (a b : Nat) : oc (oc a + b) = oc (a + b) := by
  unfold oc
  split <;> split <;> split <;> omega

theorem ntohs_htons (x : Nat) (h : x < 65536) : ntohs (htons x) = x := by
  unfold ntohs htons
  have hb : x / 256 < 256 := by omega
  have ha : x % 256 < 256 := by omega
  have hx : x = 256 * (x / 256) + x % 256 := by omega
  generalize x / 256 = b at hb hx ⊢
  generalize x % 256 = a at ha hx ⊢
  subst hx
  omega

theorem control_addr_lt (c : connection) (v : tcpr_verdict)
    (h1 : c.address < 4294967296) (h2 : c.state.address < 4294967296)
    (h3 : c.state.peer_address < 4294967296) :
    control_saddr c v < 4294967296 ∧ control_daddr c v < 4294967296 := by
  cases v <;> exact ⟨by assumption, by assumption⟩

theorem control_ip_wf (m : tcpr_machine) (c : connection) (v : tcpr_verdict) (x : Nat)
    (hx : x < 65536)
    (h1 : c.address < 4294967296) (h2 : c.state.address < 4294967296)
    (h3 : c.state.peer_address < 4294967296) :
    ({ (control_ip m c v) with check := x } : iphdr).wf := by
  obtain ⟨hs, hd⟩ := control_addr_lt c v h1 h2 h3
  have ht := htons_lt ((20 + (template m v c.state.tcpr).tcp.doff * 4) % 65536)
  exact ⟨(by decide : (5 : Nat) < 16), (by decide : (4 : Nat) < 16),
    (by decide : (0 : Nat) < 256), ht, (by decide : (0 : Nat) < 65536),
    (by decide : (0 : Nat) < 65536), (by decide : (64 : Nat) < 256),
    (by decide : (6 : Nat) < 256), hx, hs, hd⟩

theorem oc_complement_split (r a b : Nat) (h : 0 < r) :
    oc (r + (65535 - oc (r + 0 + a + b)) + a + b) = 65535 := by
  have key := oc_complement (r + 0 + a + b) (by omega)
  rw [← key]
  congr 1
  omega

theorem ip_fast_csum_validates (ip : iphdr) (hz : ip.check = 0) (hv : 0 < ip.version)
    (hwf : ip.wf) :
    ip_check_ok { ip with check := ip_fast_csum ip.words } [] := by
  have hlt : ip_fast_csum ip.words < 65536 := by unfold ip_fast_csum; omega
  have hwf2 : ({ ip with check := ip_fast_csum ip.words } : iphdr).wf := by
    obtain ⟨a1, a2, a3, a4, a5, a6, a7, a8, a9, a10, a11⟩ := hwf
    exact ⟨a1, a2, a3, a4, a5, a6, a7, a8, hlt, a10, a11⟩
  have hnil : words16 [] := by intro w hw; exact absurd hw (List.not_mem_nil w)
  have h0 : csum_words ip.words = oc (ip_other_sum ip [] addr_field.saddr + 0
      + ip.saddr % 65536 + ip.saddr / 65536) := by
    have h := ip_csum_eq ip [] hwf hnil addr_field.saddr
    have hw : ip_sum_words ip [] = ip.words := List.append_nil _
    rw [hw, hz] at h
    exact h
  have h1 := ip_csum_eq { ip with check := ip_fast_csum ip.words } [] hwf2 hnil
    addr_field.saddr
  unfold ip_check_ok
  rw [h1]
  show oc (ip_other_sum ip [] addr_field.saddr + (65535 - csum_words ip.words)
    + ip.saddr % 65536 + ip.saddr / 65536) = 65535
  rw [h0]
  exact oc_complement_split _ _ _ (ip_other_sum_pos ip [] addr_field.saddr (Or.inl hv))

theorem csum_tcpudp_magic_eq (s d len : Nat) (ws : List Nat) (hs : s < 4294967296)
    (hd : d < 4294967296) (hws : words16 ws) :
    csum_tcpudp_magic s d len IPPROTO_TCP ( csum_partial ws 0)
      = 0xffff - csum_words (pseudo_words s d len IPPROTO_TCP ++ ws) := by
  have hp := words16_pseudo s d len hs hd
  have h0 : words16 (0 :: ws) := by
    intro w hw
    rcases List.mem_cons.1 hw with h | h
    · rw [h]; decide
    · exact hws w h
  have hx : csum_partial ws 0 = oc (0 + ws.sum) := by
    unfold csum_partial
    rw [csum_words_eq _ h0, List.sum_cons]
  have hx16 : words16 ( csum_partial ws 0 :: pseudo_words s d len IPPROTO_TCP) := by
    intro w hw
    rcases List.mem_cons.1 hw with h | h
    · rw [h, hx]
      have := oc_le (0 + ws.sum)
      omega
    · exact hp w h
  unfold csum_tcpudp_magic
  rw [csum_words_eq _ hx16, csum_words_eq _ (words16_append hp hws), List.sum_cons,
    List.sum_append, hx, oc_oc_add]
  congr 2
  omega

theorem tcp_recompute_validates (ip : iphdr) (tcp : tcphdr) (data : List Nat)
    (hip : ip.wf) (htcp : tcp.wf) (hdata : words16 data)
    (h : tcp.check = tcp_recompute ip tcp data) : tcp_check_ok ip tcp data := by
  have h0 := tcp_csum_eq ip { tcp with check := 0 } data hip
    (tcp_check_wf tcp htcp 0 (by omega)) hdata addr_field.saddr
  have h1 := tcp_csum_eq ip tcp data hip htcp hdata addr_field.saddr
  have hsame : tcp_other_sum ip { tcp with check := 0 } data addr_field.saddr
      = tcp_other_sum ip tcp data addr_field.saddr := rfl
  unfold tcp_check_ok
  rw [h1, h]
  unfold tcp_recompute
  rw [h0, hsame]
  exact oc_complement_split _ _ _ (tcp_other_sum_pos ip tcp data addr_field.saddr)

theorem words16_take (ws : List Nat) (n : Nat) (h : words16 ws) : words16 (ws.take n) :=
  fun w hw => h w (List.mem_of_mem_take hw)

theorem tcphdr_words_length (tcp : tcphdr) : tcp.words.length = 10 := rfl

theorem tcphdr_clear_check (tcp : tcphdr) (x : Nat) (h : tcp.check = 0) :
    ({ ({ tcp with check := x } : tcphdr) with check := 0 } : tcphdr) = tcp := by
  cases tcp
  simp only at h
  subst h
  rfl

theorem control_words_cut (m : tcpr_machine) (c : connection) (v : tcpr_verdict)
    (h : (template m v c.state.tcpr).tcp.doff < 5) :
    (control_tcp m c v).words.take (2 * (template m v c.state.tcpr).tcp.doff)
      = (template m v c.state.tcpr).tcp.words.take
          (2 * (template m v c.state.tcpr).tcp.doff) := by
  have h8 : (control_tcp m c v).words.take 8 = (template m v c.state.tcpr).tcp.words.take 8 :=
    rfl
  have hmin : min (2 * (template m v c.state.tcpr).tcp.doff) 8
      = 2 * (template m v c.state.tcpr).tcp.doff := by omega
  calc (control_tcp m c v).words.take (2 * (template m v c.state.tcpr).tcp.doff)
      = ((control_tcp m c v).words.take 8).take
          (2 * (template m v c.state.tcpr).tcp.doff) := by rw [List.take_take, hmin]
    _ = ((template m v c.state.tcpr).tcp.words.take 8).take
          (2 * (template m v c.state.tcpr).tcp.doff) := by rw [h8]
    _ = (template m v c.state.tcpr).tcp.words.take
          (2 * (template m v c.state.tcpr).tcp.doff) := by rw [List.take_take, hmin]

/-- C19 (as amended): for every connection (with 32-bit addresses) and every
verdict, if the template the state machine builds has members within the
range of their C types and a zero checksum field, the datagram `inject_tcp`
hands to `inject_ip` has version 4, header length 5, TTL 64, protocol TCP, no
IP options, total length 20 + 4 * doff, and an IPv4 checksum that was computed
from the final header (addresses and total length in place) and validates
over it.  When doff is at least 5 the datagram carries the TCP header of the
template with `doff * 4 - 20` option bytes, and its TCP checksum is the
from-scratch checksum of those `doff * 4` bytes under the pseudo-header of the
datagram's source and destination address, which validates.  When doff is
below 5 the datagram ends after the first `doff * 4` bytes of the template,
before the checksum field. -/
theorem inject_tcp_well_formed (m : tcpr_machine) (env : net_env) (c : connection)
    (v : tcpr_verdict)
    (h1 : c.address < 4294967296) (h2 : c.state.address < 4294967296)
    (h3 : c.state.peer_address < 4294967296)
    (hwf : (template m v c.state.tcpr).tcp.wf)
    (hopts : words16 (template m v c.state.tcpr).opts)
    (hzero : (template m v c.state.tcpr).tcp.check = 0) :
    (inject_tcp m env c v).injection.handed.ip.version = 4 ∧
    (inject_tcp m env c v).injection.handed.ip.ihl = 5 ∧
    (inject_tcp m env c v).injection.handed.ip.ttl = 64 ∧
    (inject_tcp m env c v).injection.handed.ip.protocol = IPPROTO_TCP ∧
    (inject_tcp m env c v).injection.handed.opts = [] ∧
    ntohs (inject_tcp m env c v).injection.handed.ip.tot_len
      = 20 + 4 * (template m v c.state.tcpr).tcp.doff ∧
    (inject_tcp m env c v).injection.handed.ip.saddr = control_saddr c v ∧
    (inject_tcp m env c v).injection.handed.ip.daddr = control_daddr c v ∧
    (inject_tcp m env c v).injection.handed.ip.check
      = ip_recompute (inject_tcp m env c v).injection.handed.ip [] ∧
    ip_check_ok (inject_tcp m env c v).injection.handed.ip [] ∧
    (5 ≤ (template m v c.state.tcpr).tcp.doff →
      ∃ tcp data, (inject_tcp m env c v).injection.handed.body = transport.tcp tcp data ∧
        tcp = { (template m v c.state.tcpr).tcp with check := tcp.check } ∧
        data = (template m v c.state.tcpr).opts.take
          (2 * (template m v c.state.tcpr).tcp.doff - 10) ∧
        tcp.check = 0xffff - csum_words
          (pseudo_words (control_saddr c v) (control_daddr c v)
            (4 * (template m v c.state.tcpr).tcp.doff) IPPROTO_TCP ++ control_words m c v) ∧
        tcp.check = tcp_recompute (inject_tcp m env c v).injection.handed.ip tcp data ∧
        tcp_check_ok (inject_tcp m env c v).injection.handed.ip tcp data) ∧
    ((template m v c.state.tcpr).tcp.doff < 5 →
      (inject_tcp m env c v).injection.handed.body
        = transport.other ((template m v c.state.tcpr).tcp.words.take
            (2 * (template m v c.state.tcpr).tcp.doff))) := by
  obtain ⟨hs, hd⟩ := control_addr_lt c v h1 h2 h3
  have hdoff : (template m v c.state.tcpr).tcp.doff < 16 := hwf.2.2.2.2.2.1
  have hlen : ntohs (htons ((20 + (template m v c.state.tcpr).tcp.doff * 4) % 65536))
      = 20 + 4 * (template m v c.state.tcpr).tcp.doff := by
    rw [ntohs_htons _ (Nat.mod_lt _ (by decide))]
    omega
  have hw16 : words16 (control_words m c v) :=
    words16_take _ _ (words16_append (words16_tcp _ hwf) hopts)
  have hcheck := csum_tcpudp_magic_eq (control_saddr c v) (control_daddr c v)
    ((template m v c.state.tcpr).tcp.doff * 4) (control_words m c v) hs hd hw16
  have hipwf := control_ip_wf m c v 0 (by decide) h1 h2 h3
  have hvalid := ip_fast_csum_validates (control_ip m c v) rfl (by decide : (0 : Nat) < 4) hipwf
  rw [inject_tcp_handed]
  refine ⟨rfl, rfl, rfl, rfl, rfl, hlen, rfl, rfl, rfl, hvalid, ?_, ?_⟩
  · intro h5
    have hwords : control_words m c v
        = (template m v c.state.tcpr).tcp.words
          ++ (template m v c.state.tcpr).opts.take
              (2 * (template m v c.state.tcpr).tcp.doff - 10) := by
      unfold control_words
      rw [List.take_append_eq_append_take, tcphdr_words_length,
        List.take_of_length_le (by rw [tcphdr_words_length]; omega)]
    have hl4 : l4_len ({ (control_ip m c v) with
        check := ip_fast_csum (control_ip m c v).words } : iphdr)
        = (template m v c.state.tcpr).tcp.doff * 4 := by
      show ntohs (htons ((20 + (template m v c.state.tcpr).tcp.doff * 4) % 65536)) - 5 * 4 = _
      rw [hlen]
      omega
    have hrec : (control_tcp m c v).check
        = tcp_recompute ({ (control_ip m c v) with
            check := ip_fast_csum (control_ip m c v).words } : iphdr)
          (control_tcp m c v)
          ((template m v c.state.tcpr).opts.take
            (2 * (template m v c.state.tcpr).tcp.doff - 10)) := by
      show csum_tcpudp_magic _ _ _ _ _ = _
      rw [hcheck]
      unfold tcp_recompute tcp_sum_words control_tcp
      rw [tcphdr_clear_check _ _ hzero, hl4, hwords, List.append_assoc]
      rfl
    have hlt : csum_tcpudp_magic (control_saddr c v) (control_daddr c v)
          ((template m v c.state.tcpr).tcp.doff * 4) IPPROTO_TCP
          ( csum_partial (control_words m c v) 0) < 65536 := by
      unfold csum_tcpudp_magic; omega
    refine ⟨control_tcp m c v, _, control_body_tcp m c v h5, rfl, rfl, ?_, hrec, ?_⟩
    · show csum_tcpudp_magic _ _ _ _ _ = _
      rw [hcheck, Nat.mul_comm]
    · exact tcp_recompute_validates _ _ _
        (control_ip_wf m c v _ (by unfold ip_fast_csum; omega) h1 h2 h3)
        (tcp_check_wf _ hwf _ hlt) (words16_take _ _ hopts) hrec
  · intro h5
    show control_body m c v = _
    rw [control_body_cut m c v h5, control_words_cut m c v h5]

/-- C19, witness: the reset segment built for the established flow of
198.51.100.7: a 40-byte datagram with validating IPv4 and TCP checksums. -/
theorem inject_tcp_well_formed_witness :
    ntohs (inject_tcp (machine_fixed tcpr_verdict.TCPR_RESET) env_ok other_flow_sample
        tcpr_verdict.TCPR_RESET).injection.handed.ip.tot_len = 40 ∧
    ip_check_ok (inject_tcp (machine_fixed tcpr_verdict.TCPR_RESET) env_ok other_flow_sample
        tcpr_verdict.TCPR_RESET).injection.handed.ip [] ∧
    ∃ tcp data, (inject_tcp (machine_fixed tcpr_verdict.TCPR_RESET) env_ok other_flow_sample
        tcpr_verdict.TCPR_RESET).injection.handed.body = transport.tcp tcp data ∧
      tcp_check_ok (inject_tcp (machine_fixed tcpr_verdict.TCPR_RESET) env_ok
        other_flow_sample tcpr_verdict.TCPR_RESET).injection.handed.ip tcp data := by
  obtain ⟨_, _, _, _, _, hlen, _, _, _, hok, h5, _⟩ :=
    inject_tcp_well_formed (machine_fixed tcpr_verdict.TCPR_RESET) env_ok other_flow_sample
      tcpr_verdict.TCPR_RESET (by decide) (by decide) (by decide) (by decide) (by decide) rfl
  obtain ⟨tcp, data, hb, _, _, _, _, hv⟩ := h5 (by decide)
  exact ⟨hlen, hok, tcp, data, hb, hv⟩

/-- C19, counterexample: a reset template with data offset 4 and a zero checksum
field.  The datagram handed to `inject_ip` is 36 bytes long: the IPv4 header
and the first eight words of the template, which end before the checksum
field, so it carries no TCP checksum. -/
theorem inject_tcp_short_template :
    (template (machine_short tcpr_verdict.TCPR_RESET) tcpr_verdict.TCPR_RESET
      other_flow_sample.state.tcpr).tcp.doff = 4 ∧
    (template (machine_short tcpr_verdict.TCPR_RESET) tcpr_verdict.TCPR_RESET
      other_flow_sample.state.tcpr).tcp.check = 0 ∧
    ntohs (inject_tcp (machine_short tcpr_verdict.TCPR_RESET) env_ok other_flow_sample
      tcpr_verdict.TCPR_RESET).injection.handed.ip.tot_len = 36 ∧
    (inject_tcp (machine_short tcpr_verdict.TCPR_RESET) env_ok other_flow_sample
      tcpr_verdict.TCPR_RESET).injection.handed.body
      = transport.other [20480, 45845, 0, 0, 0, 0, 1088, 0] ∧
    ∀ tcp data, (inject_tcp (machine_short tcpr_verdict.TCPR_RESET) env_ok other_flow_sample
      tcpr_verdict.TCPR_RESET).injection.handed.body ≠ transport.tcp tcp data := by
  have hb : (inject_tcp (machine_short tcpr_verdict.TCPR_RESET) env_ok other_flow_sample
      tcpr_verdict.TCPR_RESET).injection.handed.body
      = transport.other [20480, 45845, 0, 0, 0, 0, 1088, 0] := by decide
  refine ⟨by decide, by decide, by decide, hb, ?_⟩
  intro tcp data h
  rw [hb] at h
  exact transport.noConfusion h

/-! ## C20: uniqueness on the application-view key under create and done -/

theorem connection_done_internal_unique (t : List connection) (c : connection)
    (h : internal_unique t) : internal_unique (connection_done t c) :=
  List.Pairwise.sublist (list_del_sublist c.ptr t) h

theorem run_table_ops_internal_unique (ops : List table_op) :
    ∀ t, internal_unique t → internal_unique (run_table_ops t ops) := by
  induction ops with
  | nil => intro t h; exact h
  | cons op ops ih =>
    intro t h
    cases op with
    | create k => exact ih _ (connection_create_internal_unique t _ _ _ _ _ _ _ _ h)
    | done c => exact ih _ (connection_done_internal_unique t c h)

theorem lookup_internal_of_unique (t : List connection) (h : internal_unique t)
    (e : connection) (he : e ∈ t) :
    lookup_internal t e.state.peer_address e.state.tcpr.hard.peer.port e.state.address
      e.state.tcpr.port e.net_ns = some e := by
  induction t with
  | nil => exact absurd he (List.not_mem_nil e)
  | cons x xs ih =>
    unfold internal_unique at h
    rw [List.pairwise_cons] at h
    unfold lookup_internal
    rcases List.mem_cons.1 he with hx | hx
    · subst hx
      rw [List.find?_cons_of_pos]
      simp
    · have hne : internal_key x ≠ internal_key e := h.1 e hx
      rw [List.find?_cons_of_neg]
      · exact ih h.2 hx
      · intro hp
        apply hne
        simp only [decide_eq_true_eq] at hp
        simp only [internal_key, Prod.mk.injEq]
        exact hp

/-- C20: after every sequence of `connection_create` and `connection_done` calls
starting from the empty table, no two entries of the table share their
(peer address, peer port, soft address, soft port, namespace), and
`lookup_internal` on the key of any entry of the table returns exactly that
entry. -/
theorem run_table_ops_unique (ops : List table_op) :
    internal_unique (run_table_ops [] ops) ∧
    ∀ e ∈ run_table_ops [] ops,
      lookup_internal (run_table_ops [] ops) e.state.peer_address
        e.state.tcpr.hard.peer.port e.state.address e.state.tcpr.port e.net_ns = some e :=
  ⟨run_table_ops_internal_unique ops [] List.Pairwise.nil,
   lookup_internal_of_unique _ (run_table_ops_internal_unique ops [] List.Pairwise.nil)⟩

/-! ## What an invocation does to the table -/

theorem connection_create_cases (t : List connection) (k : Option connection)
    (pa pp ha hp a p ns : Nat) :
    (∃ c, c ∈ t ∧ connection_create t k pa pp ha hp a p ns = (some c, t)) ∨
    connection_create t k pa pp ha hp a p ns = (none, t) ∨
    ∃ o, k = some o ∧ connection_create t k pa pp ha hp a p ns
      = (some (created o pa pp ha hp a p ns), created o pa pp ha hp a p ns :: t) := by
  cases hl : lookup_internal t pa pp a p ns with
  | some c =>
    exact Or.inl ⟨c, (lookup_internal_some _ _ _ _ _ _ c hl).1,
      connection_create_hit _ _ _ _ _ _ _ _ _ c hl⟩
  | none =>
    cases k with
    | none => exact Or.inr (Or.inl (connection_create_fail _ _ _ _ _ _ _ _ hl))
    | some o => exact Or.inr (Or.inr ⟨o, rfl, connection_create_miss _ _ _ _ _ _ _ _ _ hl⟩)

theorem inject_tcp_c_state (m : tcpr_machine) (env : net_env) (c : connection)
    (v : tcpr_verdict) :
    (inject_tcp m env c v).c.state.tcpr = (template m v c.state.tcpr).state := by
  cases v <;> rfl

theorem template_keeps (m : tcpr_machine) (hk : keeps_hard_port m) (v : tcpr_verdict)
    (st : tcpr) : (template m v st).state.hard.port = st.hard.port := by
  obtain ⟨_, _, _, h4, h5, h6⟩ := hk
  cases v
  · exact h6 st
  · exact h6 st
  · exact h4 st
  · exact h5 st
  · exact h6 st

theorem application_final_hard_port (m : tcpr_machine) (hk : keeps_hard_port m)
    (env : net_env) (skb : sk_buff) (tcp : tcphdr) (data : List Nat) (c : connection) :
    (tcpr_tg_application_final m env skb tcp data c).state.tcpr.hard.port
      = c.state.tcpr.hard.port := by
  have h1 := hk.1 c.state.tcpr tcp data (segment_size skb.ip)
  unfold tcpr_tg_application_final
  simp only
  split
  · exact h1
  · split
    · rw [inject_tcp_c_state, template_keeps m hk]
      exact h1
    · exact h1

theorem peer_final_hard_port (m : tcpr_machine) (hk : keeps_hard_port m)
    (env : net_env) (skb : sk_buff) (tcp : tcphdr) (data : List Nat) (c : connection) :
    (tcpr_tg_peer_final m env skb tcp data c).state.tcpr.hard.port
      = c.state.tcpr.hard.port := by
  have h1 := hk.2.1 c.state.tcpr tcp data (segment_size skb.ip)
  unfold tcpr_tg_peer_final
  simp only
  split
  · exact h1
  · split
    · rw [inject_tcp_c_state, template_keeps m hk]
      exact h1
    · exact h1

theorem update_final_hard_port (m : tcpr_machine) (hk : keeps_hard_port m)
    (env : net_env) (update : tcpr_ip4) (c : connection) :
    (tcpr_tg_update_final m env update c).state.tcpr.hard.port
      = c.state.tcpr.hard.port := by
  have ha := (adopt_node update c).2.2.2.2.1
  have h1 : (m.tcpr_update (adopt update c).state.tcpr (fill update c).tcpr).state.hard.port
      = c.state.tcpr.hard.port :=
    (hk.2.2.1 (adopt update c).state.tcpr (fill update c).tcpr).trans
      (congrArg (fun s => s.hard.port) ha)
  rw [update_final_unfold]
  split
  · split
    · exact h1
    · split
      · rw [inject_tcp_c_state, template_keeps m hk]
        exact h1
      · exact h1
  · rw [ha]

theorem application_locked_processed (m : tcpr_machine) (env : net_env)
    (k : Option connection) (t t1 : List connection) (skb : sk_buff) (tcp : tcphdr)
    (data : List Nat) (c : connection) (hc : c ∈ t1)
    (ht : t1 = t ∨ ∃ o cn, k = some o ∧ cn.ptr = o.ptr ∧ cn.state.tcpr.done = 0 ∧
      t1 = cn :: t) :
    processed m k t (tcpr_tg_application_locked m env t1 skb tcp data c).connections := by
  obtain ⟨h1, h2, h3⟩ := application_final_node m env skb tcp data c
  exact Or.inr ⟨t1, c, tcpr_tg_application_final m env skb tcp data c, hc, ht, h1, h2, h3,
    fun hk => application_final_hard_port m hk env skb tcp data c,
    Or.inl (application_locked_table m env t1 skb tcp data c)⟩

theorem peer_locked_processed (m : tcpr_machine) (env : net_env)
    (k : Option connection) (t t1 : List connection) (skb : sk_buff) (tcp : tcphdr)
    (data : List Nat) (c : connection) (hc : c ∈ t1)
    (ht : t1 = t ∨ ∃ o cn, k = some o ∧ cn.ptr = o.ptr ∧ cn.state.tcpr.done = 0 ∧
      t1 = cn :: t) :
    processed m k t (tcpr_tg_peer_locked m env t1 skb tcp data c).connections := by
  obtain ⟨h1, h2, h3⟩ := peer_final_node m env skb tcp data c
  exact Or.inr ⟨t1, c, tcpr_tg_peer_final m env skb tcp data c, hc, ht, h1, h2, h3,
    fun hk => peer_final_hard_port m hk env skb tcp data c,
    Or.inl (peer_locked_table m env t1 skb tcp data c)⟩

theorem update_locked_processed (m : tcpr_machine) (env : net_env)
    (k : Option connection) (t t1 : List connection) (skb : sk_buff) (udp : udphdr)
    (update : tcpr_ip4) (c : connection) (hc : c ∈ t1)
    (ht : t1 = t ∨ ∃ o cn, k = some o ∧ cn.ptr = o.ptr ∧ cn.state.tcpr.done = 0 ∧
      t1 = cn :: t) :
    processed m k t (tcpr_tg_update_locked m env t1 skb udp update c).connections := by
  obtain ⟨h1, h2, h3, _⟩ := update_final_node m env update c
  obtain ⟨ht1, ht2⟩ := update_locked_table m env t1 skb udp update c
  refine Or.inr ⟨t1, c, tcpr_tg_update_final m env update c, hc, ht, h1, h2, h3,
    fun hk => update_final_hard_port m hk env update c, ?_⟩
  by_cases hpp : peer_populated c
  · exact Or.inl (ht1 hpp)
  · exact Or.inr (ht2 hpp)

theorem created_fresh (o : connection) (pa pp ha hp a p ns : Nat) (t : List connection)
    (k : Option connection) (hk : k = some o) :
    created o pa pp ha hp a p ns :: t = t ∨
    ∃ o1 cn, k = some o1 ∧ cn.ptr = o1.ptr ∧ cn.state.tcpr.done = 0 ∧
      created o pa pp ha hp a p ns :: t = cn :: t :=
  Or.inr ⟨o, created o pa pp ha hp a p ns, hk, rfl, rfl, rfl⟩

theorem update_processed (m : tcpr_machine) (env : net_env) (t : List connection)
    (k : Option connection) (skb : sk_buff) (address ns : Nat) :
    processed m k t (tcpr_tg_update m env t k skb address ns).connections := by
  unfold tcpr_tg_update
  split
  · exact Or.inl rfl
  · cases hb : skb.body with
    | udp udp update =>
      simp only
      cases hl : lookup_external t update.peer_address update.tcpr.hard.peer.port address
          update.tcpr.hard.port ns with
      | some c =>
        exact update_locked_processed m env k t t skb udp update c
          (lookup_external_some _ _ _ _ _ _ c hl).1 (Or.inl rfl)
      | none =>
        simp only
        split
        · exact Or.inl rfl
        · rcases connection_create_cases t k update.peer_address
            update.tcpr.hard.peer.port address update.tcpr.hard.port update.address
            update.tcpr.port ns with ⟨c, hc, h⟩ | h | ⟨o, ho, h⟩
          · rw [h]
            exact update_locked_processed m env k t t skb udp update c hc (Or.inl rfl)
          · rw [h]
            exact Or.inl rfl
          · rw [h]
            exact update_locked_processed m env k t _ skb udp update _
              (List.mem_cons_self _ _) (created_fresh o _ _ _ _ _ _ _ t k ho)
    | tcp tcp data => exact Or.inl rfl
    | other ws => exact Or.inl rfl

theorem peer_processed (m : tcpr_machine) (env : net_env) (t : List connection)
    (k : Option connection) (skb : sk_buff) (ns : Nat) :
    processed m k t (tcpr_tg_peer m env t k skb ns).connections := by
  unfold tcpr_tg_peer
  split
  · exact Or.inl rfl
  · cases hb : skb.body with
    | tcp tcp data =>
      simp only
      cases hl : lookup_external t skb.ip.saddr tcp.source skb.ip.daddr tcp.dest ns with
      | some c =>
        exact peer_locked_processed m env k t t skb tcp data c
          (lookup_external_some _ _ _ _ _ _ c hl).1 (Or.inl rfl)
      | none =>
        simp only
        split
        · exact Or.inl rfl
        · cases hph : lookup_external t 0 0 skb.ip.daddr tcp.dest ns with
          | none => exact Or.inl rfl
          | some p =>
            simp only
            rcases connection_create_cases t k skb.ip.saddr tcp.source skb.ip.daddr tcp.dest
              p.state.address p.state.tcpr.port ns with ⟨c, hc, h⟩ | h | ⟨o, ho, h⟩
            · rw [h]
              exact peer_locked_processed m env k t t skb tcp data c hc (Or.inl rfl)
            · rw [h]
              exact Or.inl rfl
            · rw [h]
              exact peer_locked_processed m env k t _ skb tcp data _
                (List.mem_cons_self _ _) (created_fresh o _ _ _ _ _ _ _ t k ho)
    | udp udp update => exact Or.inl rfl
    | other ws => exact Or.inl rfl

theorem application_processed (m : tcpr_machine) (env : net_env) (t : List connection)
    (k : Option connection) (skb : sk_buff) (address ns : Nat) :
    processed m k t (tcpr_tg_application m env t k skb address ns).connections := by
  unfold tcpr_tg_application
  split
  · exact update_processed m env t k skb address ns
  · cases hb : skb.body with
    | tcp tcp data =>
      simp only
      cases hl : lookup_internal t skb.ip.daddr tcp.dest skb.ip.saddr tcp.source ns with
      | some c =>
        exact application_locked_processed m env k t t skb tcp data c
          (lookup_internal_some _ _ _ _ _ _ c hl).1 (Or.inl rfl)
      | none =>
        simp only
        split
        · exact Or.inl rfl
        · rcases connection_create_cases t k skb.ip.daddr tcp.dest address tcp.source
            skb.ip.saddr tcp.source ns with ⟨c, hc, h⟩ | h | ⟨o, ho, h⟩
          · rw [h]
            exact application_locked_processed m env k t t skb tcp data c hc (Or.inl rfl)
          · rw [h]
            exact Or.inl rfl
          · rw [h]
            exact application_locked_processed m env k t _ skb tcp data _
              (List.mem_cons_self _ _) (created_fresh o _ _ _ _ _ _ _ t k ho)
    | udp udp update => exact Or.inl rfl
    | other ws => exact Or.inl rfl

theorem invoke_processed (m : tcpr_machine) (t : List connection) (i : invocation) :
    processed m i.kmalloc t (invoke m t i).connections := by
  cases i with
  | application env k skb address ns => exact application_processed m env t k skb address ns
  | peer env k skb ns => exact peer_processed m env t k skb ns
  | update env k skb address ns => exact update_processed m env t k skb address ns

/-! ## C14 and C15: what stays in the table -/

theorem table_ok_fresh (t t1 : List connection) (k : Option connection)
    (hok : table_ok t) (hfresh : ∀ o, k = some o → ∀ e ∈ t, e.ptr ≠ o.ptr)
    (ht : t1 = t ∨ ∃ o cn, k = some o ∧ cn.ptr = o.ptr ∧ cn.state.tcpr.done = 0 ∧
      t1 = cn :: t) : table_ok t1 := by
  rcases ht with h | ⟨o, cn, hk, hp, hd, h⟩
  · rw [h]; exact hok
  · rw [h]
    constructor
    · unfold distinct_nodes
      rw [List.map_cons, List.nodup_cons]
      refine ⟨?_, hok.1⟩
      intro hm
      obtain ⟨e, he, hpe⟩ := List.mem_map.1 hm
      exact hfresh o hk e he (hpe.trans hp)
    · intro e he
      rcases List.mem_cons.1 he with h2 | h2
      · rw [h2]; exact hd
      · exact hok.2 e h2

theorem mem_reap_store (t : List connection) (cf e : connection) (hd : distinct_nodes t)
    (he : e ∈ reap (store t cf) cf) :
    (e = cf ∧ cf.state.tcpr.done = 0) ∨ (e ∈ t ∧ e.ptr ≠ cf.ptr) := by
  by_cases hdone : cf.state.tcpr.done = 0
  · rw [reap_clear _ _ hdone] at he
    rcases mem_store _ _ _ he with h | h
    · exact Or.inl ⟨h, hdone⟩
    · exact Or.inr h
  · rw [reap_set _ _ hdone] at he
    have hne := mem_list_del_ne cf.ptr _ (distinct_nodes_store t cf hd) e he
    rcases mem_store _ _ _ ((list_del_sublist _ _).subset he) with h | h
    · exact absurd (by rw [h]) hne
    · exact Or.inr h

theorem processed_table_ok (m : tcpr_machine) (k : Option connection)
    (t result : List connection) (hok : table_ok t)
    (hfresh : ∀ o, k = some o → ∀ e ∈ t, e.ptr ≠ o.ptr)
    (hp : processed m k t result) : table_ok result := by
  rcases hp with h | ⟨t1, c, cf, hc, ht, _, _, _, _, hres⟩
  · rw [h]; exact hok
  · have hok1 := table_ok_fresh t t1 k hok hfresh ht
    rcases hres with h | ⟨h, hst⟩
    · rw [h]
      refine ⟨distinct_nodes_reap _ _ (distinct_nodes_store t1 cf hok1.1), ?_⟩
      intro e he
      rcases mem_reap_store t1 cf e hok1.1 he with ⟨h1, h2⟩ | ⟨h1, _⟩
      · rw [h1]; exact h2
      · exact hok1.2 e h1
    · rw [h]
      refine ⟨distinct_nodes_store t1 cf hok1.1, ?_⟩
      intro e he
      rcases mem_store _ _ _ he with h1 | ⟨h1, _⟩
      · rw [h1, hst]; exact hok1.2 c hc
      · exact hok1.2 e h1

theorem run_pipelines_table_ok (m : tcpr_machine) (is : List invocation) :
    ∀ t, table_ok t → allocator_sound m t is → table_ok (run_pipelines m t is) := by
  induction is with
  | nil => intro t h _; exact h
  | cons i is ih =>
    intro t h hs
    exact ih _ (processed_table_ok m i.kmalloc t _ h hs.1 (invoke_processed m t i)) hs.2

theorem reap_store_presence (t : List connection) (c cf : connection)
    (hd : distinct_nodes t) (hc : c ∈ t) (hp : cf.ptr = c.ptr) :
    (cf.state.tcpr.done ≠ 0 → ∀ e ∈ reap (store t cf) cf, e.ptr ≠ c.ptr) ∧
    (cf.state.tcpr.done = 0 → cf ∈ reap (store t cf) cf) := by
  constructor
  · intro hdone e he
    rw [reap_set _ _ hdone] at he
    rw [← hp]
    exact mem_list_del_ne cf.ptr _ (distinct_nodes_store t cf hd) e he
  · intro hdone
    rw [reap_clear _ _ hdone]
    exact mem_store_self t cf c hc hp.symm

/-- C14: for every state machine (which by construction touches nothing but the
replicated state, segment and snapshot it is handed) and every sequence of
application, peer and update pipeline invocations starting from the empty
table, with an allocator that never hands out the address of a live entry, no
entry of the resulting table has its done flag set.  And in each pipeline, on
a table with distinct nodes: if the connection the critical section leaves
behind has done set, no entry at its address is in the table afterwards; if
done is clear, the connection is in the table. -/
theorem done_connections_leave (m : tcpr_machine) :
    (∀ is, allocator_sound m [] is →
      ∀ e ∈ run_pipelines m [] is, e.state.tcpr.done = 0) ∧
    (∀ env t skb tcp data c, distinct_nodes t → c ∈ t →
      ((tcpr_tg_application_final m env skb tcp data c).state.tcpr.done ≠ 0 →
        ∀ e ∈ (tcpr_tg_application_locked m env t skb tcp data c).connections,
          e.ptr ≠ c.ptr) ∧
      ((tcpr_tg_application_final m env skb tcp data c).state.tcpr.done = 0 →
        tcpr_tg_application_final m env skb tcp data c
          ∈ (tcpr_tg_application_locked m env t skb tcp data c).connections)) ∧
    (∀ env t skb tcp data c, distinct_nodes t → c ∈ t →
      ((tcpr_tg_peer_final m env skb tcp data c).state.tcpr.done ≠ 0 →
        ∀ e ∈ (tcpr_tg_peer_locked m env t skb tcp data c).connections, e.ptr ≠ c.ptr) ∧
      ((tcpr_tg_peer_final m env skb tcp data c).state.tcpr.done = 0 →
        tcpr_tg_peer_final m env skb tcp data c
          ∈ (tcpr_tg_peer_locked m env t skb tcp data c).connections)) ∧
    (∀ env t skb udp update c, distinct_nodes t → c ∈ t → peer_populated c →
      ((tcpr_tg_update_final m env update c).state.tcpr.done ≠ 0 →
        ∀ e ∈ (tcpr_tg_update_locked m env t skb udp update c).connections,
          e.ptr ≠ c.ptr) ∧
      ((tcpr_tg_update_final m env update c).state.tcpr.done = 0 →
        tcpr_tg_update_final m env update c
          ∈ (tcpr_tg_update_locked m env t skb udp update c).connections)) := by
  refine ⟨?_, ?_, ?_, ?_⟩
  · intro is hs e he
    have h := run_pipelines_table_ok m is []
      ⟨List.nodup_nil, fun e he => absurd he (List.not_mem_nil e)⟩ hs
    exact h.2 e he
  · intro env t skb tcp data c hd hc
    rw [application_locked_table]
    exact reap_store_presence t c _ hd hc (application_final_node m env skb tcp data c).1
  · intro env t skb tcp data c hd hc
    rw [peer_locked_table]
    exact reap_store_presence t c _ hd hc (peer_final_node m env skb tcp data c).1
  · intro env t skb udp update c hd hc hpp
    rw [(update_locked_table m env t skb udp update c).1 hpp]
    exact reap_store_presence t c _ hd hc (update_final_node m env update c).1

/-- C14, witness: two invocations with a machine that completes every flow leave
the table empty; with a machine that keeps flows open the entries that remain
have done clear; and a critical section that sets done removes the node. -/
theorem done_connections_leave_witness :
    run_pipelines machine_finishing [] [invocation_sample, invocation_peer_sample] = [] ∧
    (run_pipelines (machine_fixed tcpr_verdict.TCPR_DROP) []
      [invocation_sample, invocation_peer_sample]).length = 1 ∧
    (∀ e ∈ run_pipelines (machine_fixed tcpr_verdict.TCPR_DROP) []
        [invocation_sample, invocation_peer_sample], e.state.tcpr.done = 0) ∧
    (∀ e ∈ (tcpr_tg_application_locked machine_finishing env_ok [entry_sample] skb_sample
        tcp_sample [] entry_sample).connections, e.ptr ≠ entry_sample.ptr) :=
  ⟨by decide, by decide,
   (done_connections_leave (machine_fixed tcpr_verdict.TCPR_DROP)).1
     [invocation_sample, invocation_peer_sample] (by
       refine ⟨?_, ?_, trivial⟩
       · intro o _ e he
         exact absurd he (List.not_mem_nil e)
       · intro o ho e he
         have h1 : e = entry_sample := by
           have h : (invoke (machine_fixed tcpr_verdict.TCPR_DROP) []
               invocation_sample).connections = [entry_sample] := by decide
           rw [h] at he
           exact List.mem_singleton.1 he
         have h2 : o = fresh 2 := by
           have h : invocation_peer_sample.kmalloc = some (fresh 2) := rfl
           rw [h] at ho
           exact (Option.some.inj ho).symm
         rw [h1, h2]
         decide),
   ((done_connections_leave machine_finishing).2.1 env_ok [entry_sample] skb_sample tcp_sample
     [] entry_sample (by decide) (by decide)).1 (by decide)⟩

theorem ptr_eq_of_distinct (t : List connection) (hd : distinct_nodes t) (a b : connection)
    (ha : a ∈ t) (hb : b ∈ t) (h : a.ptr = b.ptr) : a = b := by
  induction t with
  | nil => exact absurd ha (List.not_mem_nil a)
  | cons x xs ih =>
    unfold distinct_nodes at hd
    rw [List.map_cons, List.nodup_cons] at hd
    rcases List.mem_cons.1 ha with h1 | h1
    · rcases List.mem_cons.1 hb with h2 | h2
      · rw [h1, h2]
      · exact absurd (List.mem_map.2 ⟨b, h2, by rw [← h, h1]⟩) hd.1
    · rcases List.mem_cons.1 hb with h2 | h2
      · exact absurd (List.mem_map.2 ⟨a, h1, by rw [h, h2]⟩) hd.1
      · exact ih hd.2 h1 h2

theorem mem_result_store (t1 result : List connection) (cf e : connection)
    (hres : result = reap (store t1 cf) cf ∨ result = store t1 cf) (he : e ∈ result) :
    e = cf ∨ e ∈ t1 := by
  rcases hres with h | h
  · rw [h] at he
    rcases mem_store _ _ _ (mem_reap _ _ _ he) with h1 | h1
    · exact Or.inl h1
    · exact Or.inr h1.1
  · rw [h] at he
    rcases mem_store _ _ _ he with h1 | h1
    · exact Or.inl h1
    · exact Or.inr h1.1

theorem processed_frame (m : tcpr_machine) (k : Option connection)
    (t result : List connection) (hd : distinct_nodes t)
    (hfresh : ∀ o, k = some o → ∀ e ∈ t, e.ptr ≠ o.ptr)
    (hp : processed m k t result) :
    (∀ e ∈ t, ∀ r ∈ result, r.ptr = e.ptr →
      r.address = e.address ∧ r.net_ns = e.net_ns ∧
      (keeps_hard_port m → r.state.tcpr.hard.port = e.state.tcpr.hard.port)) ∧
    (∀ r ∈ result, (∃ e ∈ t, e.ptr = r.ptr) ∨ ∃ o, k = some o ∧ r.ptr = o.ptr) := by
  rcases hp with h | ⟨t1, c, cf, hc, ht, hptr, haddr, hns, hport, hres⟩
  · rw [h]
    constructor
    · intro e he r hr hpe
      rw [ptr_eq_of_distinct t hd r e hr he hpe]
      exact ⟨rfl, rfl, fun _ => rfl⟩
    · intro r hr
      exact Or.inl ⟨r, hr, rfl⟩
  · have hres1 : result = reap (store t1 cf) cf ∨ result = store t1 cf := by
      rcases hres with h | h
      · exact Or.inl h
      · exact Or.inr h.1
    have hd1 : distinct_nodes t1 := by
      rcases ht with h | ⟨o, cn, hk, hp, _, h⟩
      · rw [h]; exact hd
      · rw [h]
        unfold distinct_nodes
        rw [List.map_cons, List.nodup_cons]
        refine ⟨?_, hd⟩
        intro hm
        obtain ⟨e, he, hpe⟩ := List.mem_map.1 hm
        exact hfresh o hk e he (hpe.trans hp)
    have hsub : ∀ e ∈ t, e ∈ t1 := by
      intro e he
      rcases ht with h | ⟨_, _, _, _, _, h⟩
      · rw [h]; exact he
      · rw [h]; exact List.mem_cons_of_mem _ he
    have horigin : ∀ x ∈ t1, (∃ e ∈ t, e.ptr = x.ptr) ∨ ∃ o, k = some o ∧ x.ptr = o.ptr := by
      intro x hx
      rcases ht with h | ⟨o, cn, hk, hp, _, h⟩
      · rw [h] at hx
        exact Or.inl ⟨x, hx, rfl⟩
      · rw [h] at hx
        rcases List.mem_cons.1 hx with h1 | h1
        · exact Or.inr ⟨o, hk, by rw [h1]; exact hp⟩
        · exact Or.inl ⟨x, h1, rfl⟩
    constructor
    · intro e he r hr hpe
      rcases mem_result_store t1 result cf r hres1 hr with h1 | h1
      · have hce : c = e :=
          ptr_eq_of_distinct t1 hd1 c e hc (hsub e he) (by rw [← hptr, ← h1]; exact hpe)
        rw [h1, ← hce]
        exact ⟨haddr, hns, hport⟩
      · rw [ptr_eq_of_distinct t1 hd1 r e h1 (hsub e he) hpe]
        exact ⟨rfl, rfl, fun _ => rfl⟩
    · intro r hr
      rcases mem_result_store t1 result cf r hres1 hr with h1 | h1
      · rw [h1, hptr]
        exact horigin c hc
      · exact horigin r h1

/-- C15: for every invocation of the application, peer or update pipeline on a
table with distinct nodes (the allocator not handing out the address of a live
entry), every entry present before and after the invocation (the same node, by
address) has the same hard address and network context afterwards, and, when
the state machine does not alter the port stored in the replicated state, the
same hard port.  Every entry of the table afterwards is either a node of the
table before or the object taken from the allocator, so nothing but creation
introduces a hard address. -/
theorem hard_address_immutable (m : tcpr_machine) (t : List connection) (i : invocation)
    (hd : distinct_nodes t) (hfresh : kmalloc_fresh t i) :
    (∀ e ∈ t, ∀ r ∈ (invoke m t i).connections, r.ptr = e.ptr →
      r.address = e.address ∧ r.net_ns = e.net_ns ∧
      (keeps_hard_port m → r.state.tcpr.hard.port = e.state.tcpr.hard.port)) ∧
    (∀ r ∈ (invoke m t i).connections,
      (∃ e ∈ t, e.ptr = r.ptr) ∨ ∃ o, i.kmalloc = some o ∧ r.ptr = o.ptr) :=
  processed_frame m i.kmalloc t _ hd hfresh (invoke_processed m t i)

/-- C15, witness: the update pipeline run on the table holding the sample flow
with a state machine that answers RESET. -/
theorem hard_address_immutable_witness :
    distinct_nodes [other_flow_sample] ∧
    kmalloc_fresh [other_flow_sample] invocation_update_sample ∧
    (invoke (machine_fixed tcpr_verdict.TCPR_RESET) [other_flow_sample]
      invocation_update_sample).connections.length = 1 ∧
    (∀ e ∈ [other_flow_sample],
      ∀ r ∈ (invoke (machine_fixed tcpr_verdict.TCPR_RESET) [other_flow_sample]
        invocation_update_sample).connections, r.ptr = e.ptr →
      r.address = e.address ∧ r.net_ns = e.net_ns ∧
      (keeps_hard_port (machine_fixed tcpr_verdict.TCPR_RESET) →
        r.state.tcpr.hard.port = e.state.tcpr.hard.port)) :=
  ⟨by decide, fun _ ho => Option.noConfusion ho, by decide,
   (hard_address_immutable (machine_fixed tcpr_verdict.TCPR_RESET) [other_flow_sample]
     invocation_update_sample (by decide) (fun _ ho => Option.noConfusion ho)).1⟩

/-! ## C18: the unlock after the release -/

theorem reap_accesses_set (c : connection) (h : c.state.tcpr.done ≠ 0) :
    reap_accesses c = [object_access.list_del c.ptr, object_access.kfree c.ptr] := by
  unfold reap_accesses connection_done_accesses
  rw [if_pos h]

theorem used_after_free_exit (p : Nat) :
    used_after_free [object_access.spin_lock p, object_access.list_del p,
      object_access.kfree p, object_access.spin_unlock p] = true := by
  simp [used_after_free, object_access.ptr]

theorem application_exit_touches_freed (m : tcpr_machine) (env : net_env) (skb : sk_buff)
    (tcp : tcphdr) (data : List Nat) (c : connection)
    (h : (tcpr_tg_application_final m env skb tcp data c).state.tcpr.done ≠ 0) :
    used_after_free (tcpr_tg_application_accesses m env skb tcp data c) = true := by
  unfold tcpr_tg_application_accesses
  rw [reap_accesses_set _ h, (application_final_node m env skb tcp data c).1]
  exact used_after_free_exit c.ptr

theorem peer_exit_touches_freed (m : tcpr_machine) (env : net_env) (skb : sk_buff)
    (tcp : tcphdr) (data : List Nat) (c : connection)
    (h : (tcpr_tg_peer_final m env skb tcp data c).state.tcpr.done ≠ 0) :
    used_after_free (tcpr_tg_peer_accesses m env skb tcp data c) = true := by
  unfold tcpr_tg_peer_accesses
  rw [reap_accesses_set _ h, (peer_final_node m env skb tcp data c).1]
  exact used_after_free_exit c.ptr

theorem update_exit_touches_freed (m : tcpr_machine) (env : net_env) (update : tcpr_ip4)
    (c : connection) (hp : peer_populated (adopt update c))
    (h : (tcpr_tg_update_final m env update c).state.tcpr.done ≠ 0) :
    used_after_free (tcpr_tg_update_accesses m env update c) = true := by
  unfold tcpr_tg_update_accesses
  rw [if_pos hp, reap_accesses_set _ h, (update_final_node m env update c).1]
  exact used_after_free_exit c.ptr

/-- C18: each of `tcpr_tg_application`, `tcpr_tg_peer` and `tcpr_tg_update`, run
on a table holding the flow of its sample packet with a state machine that
reports the flow complete, leaves the table empty: `connection_done` has
unlinked and freed the object.  The accesses of the pipeline to that object
are lock, unlink, free, unlock: the unlock goes to the freed object.  With a
state machine that keeps the flow open there is no such access. -/
theorem unlock_after_free :
    (invoke machine_finishing [entry_sample] invocation_sample).connections = [] ∧
    skb_sample.body = transport.tcp tcp_sample [] ∧
    tcpr_tg_application_accesses machine_finishing env_ok skb_sample tcp_sample [] entry_sample
      = [object_access.spin_lock 1, object_access.list_del 1, object_access.kfree 1,
         object_access.spin_unlock 1] ∧
    used_after_free (tcpr_tg_application_accesses machine_finishing env_ok skb_sample
      tcp_sample [] entry_sample) = true ∧
    (invoke machine_finishing [peer_flow_sample] invocation_peer_sample).connections = [] ∧
    skb_peer_sample.body = transport.tcp tcp_peer_sample [] ∧
    tcpr_tg_peer_accesses machine_finishing env_ok skb_peer_sample tcp_peer_sample []
        peer_flow_sample
      = [object_access.spin_lock 12, object_access.list_del 12, object_access.kfree 12,
         object_access.spin_unlock 12] ∧
    used_after_free (tcpr_tg_peer_accesses machine_finishing env_ok skb_peer_sample
      tcp_peer_sample [] peer_flow_sample) = true ∧
    (invoke machine_finishing [other_flow_sample] invocation_update_sample).connections = [] ∧
    (skb_update_sample update_flow_sample).body = transport.udp udp_sample update_flow_sample ∧
    tcpr_tg_update_accesses machine_finishing env_ok update_flow_sample other_flow_sample
      = [object_access.spin_lock 11, object_access.list_del 11, object_access.kfree 11,
         object_access.spin_unlock 11] ∧
    used_after_free (tcpr_tg_update_accesses machine_finishing env_ok update_flow_sample
      other_flow_sample) = true ∧
    used_after_free (tcpr_tg_application_accesses (machine_fixed tcpr_verdict.TCPR_DROP) env_ok
      skb_sample tcp_sample [] entry_sample) = false := by
  decide

end TCPR
